import Mathlib

/-!
# Theme background music (BGM) of `vita3k/gui/src/themes.cpp`

A shallow embedding of the PCM playback buffer (`PcmData`), the real-time
output callback (`data_callback`), the AT9 streaming decode (`load_bgm`) and
its callers (`init_bgm`, `init_theme`), followed by theorems about them.

Conventions of the embedding
* bytes are natural numbers (`0` is the silence byte written by `memset`);
* a `uint32_t` expression is a natural number reduced modulo `2 ^ 32`;
* a `std::vector<uint8_t>` is a `List Nat`;
* a read outside a vector is undefined behaviour in the source and is an
  explicit `out_of_bounds` outcome here;
* the `while` loop of `load_bgm` takes a bound on the number of iterations
  (`fuel`) and yields `none` when the bound is too small;
* a `float` is its IEEE 754 binary32 bit pattern, and `/` on `float` rounds the
  exact quotient to the nearest `float`, ties to even.
-/

namespace Vita3K

/-! ## Machine integers -/

/-- Value of an expression once stored in a `uint32_t`. -/
def u32 (n : Nat) : Nat := n % 2 ^ 32

/-- Difference `a - b` of two `uint32_t` values, wrapping modulo `2 ^ 32`. -/
def sub32 (a b : Nat) : Nat := (a + 2 ^ 32 - b) % 2 ^ 32

/-- Bytes `[off, off + len)` of a buffer. -/
def bytes_at (buf : List Nat) (off len : Nat) : List Nat := (buf.drop off).take len

/-! ## Playback buffer and real-time callback (themes.cpp 217-253) -/

/-- Structure to store PCM data: `struct PcmData` without its mutex. -/
structure PcmData where
  data : List Nat
  position : Nat
deriving DecidableEq, Repr

/-- What one invocation of `data_callback` leaves behind: the buffer state, the
bytes stored into `output_buffer` (in address order, from offset 0) and the
returned frame count. -/
structure CallbackResult where
  pcm : PcmData
  output : List Nat
  frames : Nat
deriving DecidableEq, Repr

/-- The function `data_callback(stream, user_ptr, input_buffer, output_buffer, nframes)`. -/
def data_callback (pcm : PcmData) (nframes : Nat) : CallbackResult :=
  -- const uint32_t bytes_to_copy = nframes * 2 * sizeof(uint16_t);
  let bytes_to_copy := u32 (nframes * 2 * 2)
  -- const uint32_t length = pcm->data.size();
  let length := u32 pcm.data.length
  -- if (pcm->position >= length) pcm->position = 0;
  let position := if pcm.position ≥ length then 0 else pcm.position
  -- const size_t bytes_to_copy_now = std::min(bytes_to_copy, length - pcm->position);
  let bytes_to_copy_now := min bytes_to_copy (sub32 length position)
  -- std::memcpy(output_buffer, pcm->data.data() + pcm->position, bytes_to_copy_now);
  let copied := bytes_at pcm.data position bytes_to_copy_now
  -- pcm->position += bytes_to_copy_now;
  let position := u32 (position + bytes_to_copy_now)
  -- if (bytes_to_copy_now < bytes_to_copy) std::memset(out + now, 0, bytes_to_copy - now);
  let silence :=
    if bytes_to_copy_now < bytes_to_copy then
      List.replicate (bytes_to_copy - bytes_to_copy_now) 0
    else []
  -- return nframes;
  { pcm := { data := pcm.data, position := position }
    output := copied ++ silence
    frames := nframes }

/-- The cursor after the wrap test `if (pcm->position >= length) pcm->position = 0;`
of `data_callback`, for a length that fits 32 bits. -/
def wrapped (data : List Nat) (p : Nat) : Nat := if p ≥ data.length then 0 else p

/-! ## AT9 container header (themes.cpp 361-379) -/

/-- Little-endian value of a byte sequence. -/
def le_value : List Nat → Nat
  | [] => 0
  | b :: bs => b + 256 * le_value bs

/-- The record `struct At9Header`; integer fields hold their little-endian value. -/
structure At9Header where
  magic : List Nat
  file_size : Nat
  id : List Nat
  fmt : List Nat
  fmt_size : Nat
  format_tag : Nat
  num_channels : Nat
  sample_rate : Nat
  byte_rate : Nat
  block_align : Nat
  bits_per_sample : Nat
  extension_size : Nat
  samples_per_block : Nat
  channel_mask : Nat
  codec_id : List Nat
  version : Nat
  config_data : Nat
deriving DecidableEq, Repr

/-- Widths in bytes of the fields of `At9Header`, in declaration order. -/
def At9Header_field_sizes : List Nat :=
  [4, 4, 4, 4, 4, 2, 2, 4, 4, 2, 2, 2, 2, 4, 16, 4, 4]

/-- The constant `sizeof(At9Header)`. -/
def sizeof_At9Header : Nat := At9Header_field_sizes.sum

/-- The header bytes copied by `memcpy(&header, es_data, sizeof(At9Header))`,
read field by field. -/
def read_header (b : List Nat) : At9Header :=
  { magic := bytes_at b 0 4
    file_size := le_value (bytes_at b 4 4)
    id := bytes_at b 8 4
    fmt := bytes_at b 12 4
    fmt_size := le_value (bytes_at b 16 4)
    format_tag := le_value (bytes_at b 20 2)
    num_channels := le_value (bytes_at b 22 2)
    sample_rate := le_value (bytes_at b 24 4)
    byte_rate := le_value (bytes_at b 28 4)
    block_align := le_value (bytes_at b 32 2)
    bits_per_sample := le_value (bytes_at b 34 2)
    extension_size := le_value (bytes_at b 36 2)
    samples_per_block := le_value (bytes_at b 38 2)
    channel_mask := le_value (bytes_at b 40 4)
    codec_id := bytes_at b 44 16
    version := le_value (bytes_at b 60 4)
    config_data := le_value (bytes_at b 64 4) }

/-! ## Decoder session

`Atrac9DecoderState` (codec/state.h) is not among the sources; `load_bgm` only
uses its constructor, `get`, `send`, `receive` and `get_es_size`, which are
taken as parameters. -/

/-- The queries `DecoderQuery::…` used by `load_bgm`. -/
inductive DecoderQuery
  | AT9_SUPERFRAME_SIZE
  | AT9_SAMPLE_PER_FRAME
  | CHANNELS
deriving DecidableEq, Repr

/-- A decoder session over internal codec states `σ`.
* `init` is the state right after construction;
* `query q` is the queryable constant `q` of the codec;
* `send s chunk` feeds the encoded bytes `chunk`: success flag and next state;
* `receive s` drains one frame: success flag, next state, the bytes the codec
  stores at the start of the scratch buffer and the sample count;
* `es_size s` is the number of encoded bytes the last frame occupied. -/
structure Atrac9DecoderState (σ : Type) where
  init : σ
  query : DecoderQuery → Nat
  send : σ → List Nat → Bool × σ
  receive : σ → Bool × σ × List Nat × Nat
  es_size : σ → Nat

/-- The `uint32_t` returned by `decoder.get(q)`. -/
def Atrac9DecoderState.get {σ : Type} (dec : Atrac9DecoderState σ) (q : DecoderQuery) : Nat :=
  u32 (dec.query q)

/-- The `uint32_t` returned by `decoder.get_es_size()`. -/
def Atrac9DecoderState.get_es_size {σ : Type} (dec : Atrac9DecoderState σ) (s : σ) : Nat :=
  u32 (dec.es_size s)

/-- The `uint32_t` stored in `size.samples` by `decoder.receive(…, &size)`. -/
def Atrac9DecoderState.samples {σ : Type} (dec : Atrac9DecoderState σ) (s : σ) : Nat :=
  u32 (dec.receive s).2.2.2

/-- Content of a buffer after `written` has been stored at its start; the
buffer keeps its size. -/
def store (buf written : List Nat) : List Nat :=
  written.take buf.length ++ buf.drop written.length

/-! ## Streaming decode `load_bgm` (themes.cpp 381-444) -/

/-- One completed feed/drain cycle of the decode loop. -/
structure Cycle where
  /-- value of `total_bytes_read` on entry -/
  offset : Nat
  /-- value of `es_data - at9_data.data()` on entry -/
  es_data : Nat
  bytes_to_send : Nat
  /-- value of `decoder.get_es_size()` -/
  es_size : Nat
  es_size_used : Nat
  /-- value of `size.samples` -/
  samples : Nat
  /-- scratch buffer after `receive` -/
  pcm_buffer : List Nat
  pcm_size_given : Nat
deriving DecidableEq, Repr

/-- Local variables of the decode loop, with two logs kept for the statements:
`feeds` holds `(es_data, bytes_to_send)` of every `send` call reached, `cycles`
every completed iteration. -/
structure DecodeState (σ : Type) where
  decoder : σ
  total_bytes_read : Nat
  es_data : Nat
  data_bgm : List Nat
  feeds : List (Nat × Nat)
  cycles : List Cycle

/-- How the decode loop is left. -/
inductive LoopExit
  /-- the loop condition became false -/
  | finished
  /-- a read outside `at9_data` or outside the scratch buffer -/
  | out_of_bounds
  /-- a call of `send` or `receive` returned false: the `LOG_ERROR` + `return` branch -/
  | decode_error (offset bytes_to_send : Nat)
deriving DecidableEq, Repr

/-- Body of `while (total_bytes_read < data_size)`: either the state for the
next test of the loop condition, or the way the function is left. -/
def decode_iteration {σ : Type} (dec : Atrac9DecoderState σ) (at9_data : List Nat)
    (es_size_max data_size max_pcm_size : Nat) (s : DecodeState σ) :
    Except (LoopExit × DecodeState σ) (DecodeState σ) :=
  -- const size_t bytes_to_send = std::min(es_size_max, data_size - total_bytes_read);
  let bytes_to_send := min es_size_max (sub32 data_size s.total_bytes_read)
  -- std::vector<uint8_t> pcm_buffer(max_pcm_size);
  let pcm_buffer := List.replicate max_pcm_size 0
  -- decoder.send(es_data, bytes_to_send)
  let s := { s with feeds := s.feeds ++ [(s.es_data, bytes_to_send)] }
  if at9_data.length < s.es_data + bytes_to_send then
    .error (.out_of_bounds, s)
  else
    let sent := dec.send s.decoder (bytes_at at9_data s.es_data bytes_to_send)
    if sent.1 = false then
      .error (.decode_error s.total_bytes_read bytes_to_send, { s with decoder := sent.2 })
    else
      -- decoder.receive(pcm_buffer.data(), &size)
      let received := dec.receive sent.2
      if received.1 = false then
        .error (.decode_error s.total_bytes_read bytes_to_send,
          { s with decoder := received.2.1 })
      else
        let pcm_buffer := store pcm_buffer received.2.2.1
        let samples := dec.samples sent.2
        -- const uint32_t es_size_used = std::min(decoder.get_es_size(), es_size_max);
        let es_size := dec.get_es_size received.2.1
        let es_size_used := min es_size es_size_max
        -- const uint64_t pcm_size_given = uint64_t(size.samples * get(CHANNELS)) * sizeof(int16_t);
        let pcm_size_given := u32 (samples * dec.get .CHANNELS) * 2
        let s :=
          { s with
            decoder := received.2.1
            -- total_bytes_read += es_size_used; es_data += es_size_used;
            total_bytes_read := u32 (s.total_bytes_read + es_size_used)
            es_data := s.es_data + es_size_used
            cycles := s.cycles ++
              [{ offset := s.total_bytes_read, es_data := s.es_data
                 bytes_to_send := bytes_to_send, es_size := es_size
                 es_size_used := es_size_used
                 samples := samples, pcm_buffer := pcm_buffer
                 pcm_size_given := pcm_size_given }] }
        -- data_bgm.insert(data_bgm.end(), pcm_buffer.begin(), pcm_buffer.begin() + pcm_size_given);
        if pcm_buffer.length < pcm_size_given then
          .error (.out_of_bounds, s)
        else
          .ok { s with data_bgm := s.data_bgm ++ pcm_buffer.take pcm_size_given }

/-- The loop `while (total_bytes_read < data_size) { … }`, run for at most
`fuel` iterations. -/
def decode_loop {σ : Type} (dec : Atrac9DecoderState σ) (at9_data : List Nat)
    (es_size_max data_size max_pcm_size : Nat) :
    Nat → DecodeState σ → Option (LoopExit × DecodeState σ)
  | 0, s => if s.total_bytes_read < data_size then none else some (.finished, s)
  | fuel + 1, s =>
    if s.total_bytes_read < data_size then
      match decode_iteration dec at9_data es_size_max data_size max_pcm_size s with
      | .error e => some e
      | .ok s => decode_loop dec at9_data es_size_max data_size max_pcm_size fuel s
    else some (.finished, s)

/-- The loop state after `k` completed iterations, when the loop gets that far. -/
def completed_iterations {σ : Type} (dec : Atrac9DecoderState σ) (at9_data : List Nat)
    (es_size_max data_size max_pcm_size : Nat) :
    Nat → DecodeState σ → Option (DecodeState σ)
  | 0, s => some s
  | k + 1, s =>
    if s.total_bytes_read < data_size then
      match decode_iteration dec at9_data es_size_max data_size max_pcm_size s with
      | .error _ => none
      | .ok s => completed_iterations dec at9_data es_size_max data_size max_pcm_size k s
    else none

/-- How `load_bgm` is left. -/
inductive LoadResult
  /-- a read outside `at9_data` or outside the scratch buffer -/
  | out_of_bounds
  /-- log: "Error at offset {} while sending or decoding AT9 after sending {} bytes." -/
  | decode_error (offset bytes_to_send : Nat)
  /-- log: "Error: PCM data is empty!" -/
  | empty_pcm
  /-- the assignment `pcm_data.data = data_bgm` was executed -/
  | installed
deriving DecidableEq, Repr

/-- Outcome of `load_bgm`: the way it is left, the global `pcm_data` afterwards,
the accumulated `data_bgm` and the two logs of the loop. -/
structure LoadReport where
  result : LoadResult
  pcm_data : PcmData
  data_bgm : List Nat
  feeds : List (Nat × Nat)
  cycles : List Cycle
deriving DecidableEq, Repr

/-- The constant `data_start`. -/
def data_start : Nat := 168

/-- The local `es_size_max = std::min(super_frame_size, 1024u)`. -/
def es_size_max {σ : Type} (decoder : Atrac9DecoderState σ) : Nat :=
  min (decoder.get .AT9_SUPERFRAME_SIZE) 1024

/-- The local `data_size = es_size - data_start`, with `uint32_t es_size = at9_data.size()`. -/
def data_size (at9_data : List Nat) : Nat :=
  sub32 (u32 at9_data.length) data_start

/-- The local `max_pcm_size =
uint64_t(get(AT9_SAMPLE_PER_FRAME) * get(CHANNELS)) * sizeof(int16_t)`. -/
def max_pcm_size {σ : Type} (decoder : Atrac9DecoderState σ) : Nat :=
  u32 (decoder.get .AT9_SAMPLE_PER_FRAME * decoder.get .CHANNELS) * 2

/-- The loop state on entry: `total_bytes_read = 0`, `es_data += data_start`,
`data_bgm{}`. -/
def decode_start {σ : Type} (decoder : Atrac9DecoderState σ) : DecodeState σ :=
  { decoder := decoder.init, total_bytes_read := 0, es_data := data_start
    data_bgm := [], feeds := [], cycles := [] }

/-- The function `load_bgm(at9_data)` acting on the global `pcm_data`;
`Atrac9` is the constructor `Atrac9DecoderState(config_data)`. -/
def load_bgm {σ : Type} (Atrac9 : Nat → Atrac9DecoderState σ) (fuel : Nat)
    (at9_data : List Nat) (pcm_data : PcmData) : Option LoadReport :=
  -- memcpy(&header, es_data, sizeof(At9Header));
  if at9_data.length < sizeof_At9Header then
    some { result := .out_of_bounds, pcm_data := pcm_data, data_bgm := [], feeds := [], cycles := [] }
  else
    let header := read_header at9_data
    -- Atrac9DecoderState decoder(header.config_data);
    let decoder := Atrac9 header.config_data
    match decode_loop decoder at9_data (es_size_max decoder) (data_size at9_data)
        (max_pcm_size decoder) fuel (decode_start decoder) with
    | none => none
    | some (.out_of_bounds, s) =>
      some { result := .out_of_bounds, pcm_data := pcm_data, data_bgm := s.data_bgm
             feeds := s.feeds, cycles := s.cycles }
    | some (.decode_error offset bytes, s) =>
      some { result := .decode_error offset bytes, pcm_data := pcm_data, data_bgm := s.data_bgm
             feeds := s.feeds, cycles := s.cycles }
    | some (.finished, s) =>
      -- if (data_bgm.empty()) return;
      if s.data_bgm = [] then
        some { result := .empty_pcm, pcm_data := pcm_data, data_bgm := s.data_bgm
               feeds := s.feeds, cycles := s.cycles }
      else
        -- pcm_data.data = data_bgm;
        some { result := .installed, pcm_data := { pcm_data with data := s.data_bgm }
               data_bgm := s.data_bgm, feeds := s.feeds, cycles := s.cycles }

/-! ## Callers of `load_bgm` (themes.cpp 446-481, 583) -/

/-- How `init_bgm` is left. -/
inductive BgmResult
  /-- the call of `vfs::read_file` failed -/
  | read_failed
  /-- the function `load_bgm` was called -/
  | loaded (r : LoadResult)
deriving DecidableEq, Repr

/-- Outcome of `init_bgm` and of `init_theme`, as far as the BGM is concerned. -/
structure BgmReport where
  result : BgmResult
  pcm_data : PcmData
deriving DecidableEq, Repr

/-- The function `init_bgm(emuenv, path_bgm)`; `file` is what
`vfs::read_file(device, buffer_bgm, pref_path, path)` yields (`none`: not read). -/
def init_bgm {σ : Type} (Atrac9 : Nat → Atrac9DecoderState σ) (fuel : Nat)
    (file : Option (List Nat)) (pcm_data : PcmData) : Option BgmReport :=
  match file with
  | none => some { result := .read_failed, pcm_data := pcm_data }
  | some buffer_bgm =>
    (load_bgm Atrac9 fuel buffer_bgm pcm_data).map
      fun r => { result := .loaded r.result, pcm_data := r.pcm_data }

/-- The statements `pcm_data.data.clear(); pcm_data.position = 0;` of `init_theme`. -/
def clear_pcm (_pcm_data : PcmData) : PcmData := { data := [], position := 0 }

/-- The part of `init_theme(gui, emuenv, content_id)` that touches `pcm_data`:
the reset of the buffer, then `init_bgm(emuenv, path_bgm)`. -/
def init_theme {σ : Type} (Atrac9 : Nat → Atrac9DecoderState σ) (fuel : Nat)
    (file : Option (List Nat)) (pcm_data : PcmData) : Option BgmReport :=
  init_bgm Atrac9 fuel file (clear_pcm pcm_data)

/-! ## Sequences of operations on the playback buffer -/

/-- The operations that touch `pcm_data`. -/
inductive BufferOp
  /-- one invocation of `data_callback` requesting `nframes` frames -/
  | callback (nframes : Nat)
  /-- the reset `pcm_data.data.clear(); pcm_data.position = 0;` of `init_theme` -/
  | reset
  /-- one call `init_bgm(emuenv, path_bgm)`, which installs through `load_bgm` -/
  | install (fuel : Nat) (file : Option (List Nat))
deriving DecidableEq, Repr

/-- The buffer after one operation (`none`: the decode loop needs more than `fuel` iterations). -/
def apply_op {σ : Type} (Atrac9 : Nat → Atrac9DecoderState σ) (op : BufferOp)
    (pcm_data : PcmData) : Option PcmData :=
  match op with
  | .callback nframes => some (data_callback pcm_data nframes).pcm
  | .reset => some (clear_pcm pcm_data)
  | .install fuel file => (init_bgm Atrac9 fuel file pcm_data).map fun r => r.pcm_data

/-- The buffer after a sequence of operations, leftmost first. -/
def run_ops {σ : Type} (Atrac9 : Nat → Atrac9DecoderState σ) :
    List BufferOp → PcmData → Option PcmData
  | [], pcm_data => some pcm_data
  | op :: ops, pcm_data =>
    match apply_op Atrac9 op pcm_data with
    | none => none
    | some pcm_data => run_ops Atrac9 ops pcm_data

/-- The order of operations of `init_theme`: every `install` comes after a
`reset` with nothing but callbacks in between. `armed` tells whether such a
reset has been seen. -/
def reset_before_install : Bool → List BufferOp → Bool
  | _, [] => true
  | armed, .callback _ :: ops => reset_before_install armed ops
  | _, .reset :: ops => reset_before_install true ops
  | armed, .install _ _ :: ops => armed && reset_before_install false ops

/-- The initial value of the global `pcm_data`: empty data, cursor 0. -/
def pcm_initial : PcmData := { data := [], position := 0 }

/-- The invariant `position <= length` of the playback buffer. -/
def pcm_invariant (pcm_data : PcmData) : Prop := pcm_data.position ≤ pcm_data.data.length

instance (pcm_data : PcmData) : Decidable (pcm_invariant pcm_data) :=
  Nat.decLe pcm_data.position pcm_data.data.length

/-- The buffer after a sequence of `data_callback` invocations, given by their
frame counts. -/
def callbacks (pcm_data : PcmData) (frames : List Nat) : PcmData :=
  frames.foldl (fun p nframes => (data_callback p nframes).pcm) pcm_data

/-- Sum of the per-iteration consumed byte counts `es_size_used`. -/
def consumed (cycles : List Cycle) : Nat := (cycles.map fun c => c.es_size_used).sum

/-- The PCM appended by the completed iterations, in iteration order: of each
scratch buffer, the first `pcm_size_given` bytes. -/
def accumulated : List Cycle → List Nat
  | [] => []
  | c :: cycles => c.pcm_buffer.take c.pcm_size_given ++ accumulated cycles

/-! ## A sample decoder and sample assets, for concrete instances

The configuration word selects the constants: its low 16 bits are the
super-frame size, its high 16 bits the samples per frame; there are 2 channels.
A super-frame whose first byte is 255 is refused by `send`; otherwise its first
byte is the number of samples that `receive` reports. -/

/-- The sample decoder session for a configuration word. -/
def sample_decoder (config_data : Nat) : Atrac9DecoderState Nat :=
  { init := 0
    query := fun q =>
      match q with
      | .AT9_SUPERFRAME_SIZE => config_data % 65536
      | .AT9_SAMPLE_PER_FRAME => config_data / 65536
      | .CHANNELS => 2
    send := fun _ chunk => (decide (chunk.headD 0 ≠ 255), chunk.headD 0)
    receive := fun s => (true, s, List.replicate (4 * (config_data / 65536)) 7, s)
    es_size := fun _ => config_data % 65536 }

/-- A second sample decoder, with the same constants: `send` and `receive`
always succeed and `receive` always reports zero samples. -/
def quiet_decoder (config_data : Nat) : Atrac9DecoderState Nat :=
  { init := 0
    query := (sample_decoder config_data).query
    send := fun _ _ => (true, 0)
    receive := fun s => (true, s, [], 0)
    es_size := fun _ => config_data % 65536 }

/-- A sample asset: a 168-byte header area whose configuration word (bytes 64
to 67) is `config`, followed by `payload`. -/
def sample_asset (config payload : List Nat) : List Nat :=
  List.replicate 64 0 ++ config ++ List.replicate 100 0 ++ payload

/-- The per-frame outputs in iteration order: of each scratch buffer, the first
`samples * channels * 2` bytes. -/
def frame_slices (channels : Nat) : List Cycle → List Nat
  | [] => []
  | c :: cycles => c.pcm_buffer.take (c.samples * channels * 2) ++ frame_slices channels cycles

/-- Sum of the drained sample counts `size.samples`. -/
def drained (cycles : List Cycle) : Nat := (cycles.map fun c => c.samples).sum

/-- A third sample decoder, whose constants make the 32-bit product
`samples_per_frame * channels` wrap: super-frame size 4, `2^31 + 1` samples per
frame, 2 channels. `receive` reports 1 sample after a super-frame whose first
byte is 1 and `2^31` samples otherwise. -/
def wide_decoder : Atrac9DecoderState Nat :=
  { init := 0
    query := fun q =>
      match q with
      | .AT9_SUPERFRAME_SIZE => 4
      | .AT9_SAMPLE_PER_FRAME => 2 ^ 31 + 1
      | .CHANNELS => 2
    send := fun _ chunk => (true, chunk.headD 0)
    receive := fun s => (true, s, [7, 7, 7, 7], if s = 1 then 1 else 2 ^ 31)
    es_size := fun _ => 4 }

/-- A fourth sample decoder: super-frame size 4, `send` and `receive` always
succeed without producing samples, and the reported consumed byte count is 0. -/
def stalled_decoder : Atrac9DecoderState Nat :=
  { init := 0
    query := (quiet_decoder 131076).query
    send := fun _ _ => (true, 0)
    receive := fun s => (true, s, [], 0)
    es_size := fun _ => 0 }

/-- A fifth sample decoder: super-frame size 1024; its state counts the `send`
calls; the reported consumed byte count is 1, except after the `send` number
`2^32 - 169`, where it is 1024. -/
def creeping_decoder : Atrac9DecoderState Nat :=
  { init := 0
    query := fun q =>
      match q with
      | .AT9_SUPERFRAME_SIZE => 1024
      | .AT9_SAMPLE_PER_FRAME => 2
      | .CHANNELS => 2
    send := fun s _ => (true, s + 1)
    receive := fun s => (true, s, [], 0)
    es_size := fun s => if s = 2 ^ 32 - 169 then 1024 else 1 }

/-- A sixth sample decoder: super-frame size 4; its state counts the `send`
calls, which always succeed, as does `receive`, without producing samples; the
reported consumed byte count is 0 before the first `send` and 4 after it. -/
def fresh_decoder : Atrac9DecoderState Nat :=
  { init := 0
    query := (quiet_decoder 131076).query
    send := fun s _ => (true, s + 1)
    receive := fun s => (true, s, [], 0)
    es_size := fun s => if s = 0 then 0 else 4 }

/-! ## Theme colours (themes.cpp 108-115) -/

/-- Value of a character as a hexadecimal digit, as the conversion `%x` reads
it: `0`-`9`, `a`-`f`, `A`-`F`. -/
def hex_digit (c : Char) : Option Nat :=
  if 48 ≤ c.toNat ∧ c.toNat ≤ 57 then some (c.toNat - 48)
  else if 97 ≤ c.toNat ∧ c.toNat ≤ 102 then some (c.toNat - 87)
  else if 65 ≤ c.toNat ∧ c.toNat ≤ 70 then some (c.toNat - 55)
  else none

/-- Digit values of the longest run of hexadecimal digits a string starts with. -/
def hex_run : List Char → List Nat
  | [] => []
  | c :: cs =>
    match hex_digit c with
    | some d => d :: hex_run cs
    | none => []

/-- Value of a sequence of hexadecimal digits, most significant first. -/
def hex_value (digits : List Nat) : Nat := digits.foldl (fun acc d => 16 * acc + d) 0

/-- The call `sscanf(s, "%x", &color)` on a string that starts with neither
white space, a sign nor `0x` (the only string scanned starts with `ff`): the
`unsigned int` stored in `color`, or `none` when no digit is read and `color`
stays unset. -/
def sscanf_x (s : List Char) : Option Nat :=
  if hex_run s = [] then none else some (u32 (hex_value (hex_run s)))

/-- The function `convert_hex_color(src_color)`; a `std::string` is a list of
characters; `none` stands for the `std::out_of_range` thrown by `substr` on a
string shorter than 6, or for an unset `color`. -/
def convert_hex_color (src_color : List Char) : Option Nat :=
  if src_color.length < 6 then none
  else
    -- std::string result = src_color.substr(src_color.length() - 6, 6);
    let result := (src_color.drop (src_color.length - 6)).take 6
    -- result.insert(0, "ff");
    let result := ['f', 'f'] ++ result
    -- unsigned int color; sscanf(result.c_str(), "%x", &color);
    match sscanf_x result with
    | none => none
    | some color =>
      -- return (color & 0xFF00FF00u) | ((color & 0x00FF0000u) >> 16u) | ((color & 0x000000FFu) << 16u);
      some ((color &&& 0xFF00FF00) ||| ((color &&& 0x00FF0000) >>> 16)
        ||| u32 ((color &&& 0x000000FF) <<< 16))

/-! ## The type `float`

A `float` is modelled by its IEEE 754 binary32 bit pattern, a number below
`2^32`: one sign bit, 8 bits of biased exponent, 23 bits of fraction. The
arithmetic is that of IEEE 754 with rounding to nearest, ties to even (the
default rounding mode of C++). The sign and payload of a NaN result are not
fixed by the standard: every NaN result is the quiet NaN `0x7FC00000` here, and
the theorems are about finite operands. -/

/-- The sign bit of a `float`. -/
def float_sign (x : Nat) : Nat := x / 2 ^ 31 % 2

/-- The biased exponent field of a `float`. -/
def float_exponent (x : Nat) : Nat := x / 2 ^ 23 % 256

/-- The fraction field of a `float`. -/
def float_fraction (x : Nat) : Nat := x % 2 ^ 23

/-- The significand of a finite `float` as an integer: the fraction, with the
hidden bit unless the number is subnormal. -/
def float_significand (x : Nat) : Nat :=
  if float_exponent x = 0 then float_fraction x else 2 ^ 23 + float_fraction x

/-- The exponent field that scales the integer significand of a finite `float`:
a subnormal number is scaled like the least normal ones. -/
def float_unit (x : Nat) : Nat := if float_exponent x = 0 then 1 else float_exponent x

/-- The number a finite `float` stands for: its integer significand times
`2^(float_unit - 150)`, with its sign. -/
def float_value (x : Nat) : ℚ :=
  (if float_sign x = 1 then -1 else 1) * (float_significand x : ℚ)
    * 2 ^ ((float_unit x : Int) - 150)

/-- The pattern of `+infinity`. -/
def float_infinity : Nat := 0x7F800000

/-- The pattern of the default quiet NaN. -/
def float_nan : Nat := 0x7FC00000

/-- The literal `100.f`. -/
def float_100 : Nat := 0x42C80000

/-- The greatest `b` up to the bound with `2^(b - 127) <= A / B`, or 0 when
there is none: the biased exponent of the quotient `A / B`. -/
def ratio_exponent (A B : Nat) : Nat → Nat
  | 0 => 0
  | b + 1 =>
    if B * 2 ^ (b + 1 - 127) ≤ A * 2 ^ (127 - (b + 1)) then b + 1 else ratio_exponent A B b

/-- The quotient `A / B` (with `0 < B`) rounded to the nearest `float`, ties to
even, as a pattern with sign bit 0. -/
def float_round (A B : Nat) : Nat :=
  if A = 0 then 0
  else
    -- biased exponent of the result: that of the quotient, at least 1 (below
    -- `2^-126` the result is subnormal)
    let b := if ratio_exponent A B 255 = 0 then 1 else ratio_exponent A B 255
    -- the last place is worth 2^(b - 150): A / B = (P / Q) * 2^(b - 150)
    let P := A * 2 ^ (150 - b)
    let Q := B * 2 ^ (b - 150)
    let n := P / Q
    let r := P % Q
    -- to nearest; a tie goes to the even significand
    let n := if Q < 2 * r ∨ (2 * r = Q ∧ n % 2 = 1) then n + 1 else n
    -- exponent field and fraction: the hidden bit of `n` adds 1 to the exponent
    -- field `b - 1`, and `n = 2^24` carries into it
    let bits := (b - 1) * 2 ^ 23 + n
    if bits < float_infinity then bits else float_infinity

/-- The operator `a / b` on `float`. -/
def float_div (a b : Nat) : Nat :=
  let sign := (float_sign a + float_sign b) % 2 * 2 ^ 31
  if (float_exponent a = 255 ∧ float_fraction a ≠ 0)
      ∨ (float_exponent b = 255 ∧ float_fraction b ≠ 0) then float_nan
  else if float_exponent a = 255 then
    if float_exponent b = 255 then float_nan else sign + float_infinity
  else if float_exponent b = 255 then sign
  else if float_significand b = 0 then
    if float_significand a = 0 then float_nan else sign + float_infinity
  else
    sign + float_round (float_significand a * 2 ^ (float_unit a - float_unit b))
      (float_significand b * 2 ^ (float_unit b - float_unit a))

/-! ## Playback controller (themes.cpp 269-359)

The globals `playback_thread`, `stream`, `stop_requested` and `ctx`, and the
calls made on the audio service (cubeb), the condition variable and the thread,
recorded as events. A `float` argument is its bit pattern. -/

/-- A pointer-valued global: null, pointing to a live object, or still pointing
to an object that has been destroyed. -/
inductive Ptr
  | null
  | live
  | dangling
deriving DecidableEq, Repr

/-- The global `playback_thread`, with the progress of `pcm_playback_thread`
running in it. -/
inductive PlaybackThread
  /-- no thread to join: never started, or already joined -/
  | not_joinable
  /-- blocked in `stop_condition.wait(lock, [] { return stop_requested; })` -/
  | waiting
  /-- the wait has returned with the mutex held; `cubeb_destroy(ctx)` comes next -/
  | woken
  /-- the thread function has returned; the thread is still joinable -/
  | finished
deriving DecidableEq, Repr

/-- The file-scope state of the player. -/
structure Controller where
  playback_thread : PlaybackThread
  stream : Ptr
  stop_requested : Bool
  ctx : Ptr
deriving DecidableEq, Repr

/-- The observable calls of the controller functions. -/
inductive Event
  | log_error
  | cubeb_init (ok : Bool)
  | cubeb_stream_init (ok : Bool)
  | cubeb_stream_set_volume (volume : Nat)
  | cubeb_stream_start
  | cubeb_stream_stop
  | cubeb_stream_destroy
  | cubeb_destroy
  | thread_start
  /-- the statement `stop_requested = true` under the mutex of `pcm_data` -/
  | set_stop_requested
  | notify_one
  /-- the call `playback_thread.join()` has returned -/
  | join
deriving DecidableEq

/-- The globals before any call: `stream = nullptr`, `ctx = nullptr`, no thread. -/
def controller_initial : Controller := ⟨.not_joinable, .null, false, .null⟩

/-- The globals after a successful `init_player_bgm`. -/
def controller_ready : Controller := ⟨.waiting, .live, false, .live⟩

/-- A pointer after the object it points to has been destroyed. -/
def destroyed : Ptr → Ptr
  | .null => .null
  | _ => .dangling

/-- The function `set_volume_bgm(volume)`. -/
def set_volume_bgm (volume : Nat) (c : Controller) : Controller × List Event :=
  -- if (!stream) { LOG_ERROR(...); return; }
  if c.stream = .null then (c, [.log_error])
  -- cubeb_stream_set_volume(stream, volume / 100.f);
  else (c, [.cubeb_stream_set_volume (float_div volume float_100)])

/-- The function `switch_state_bgm(pause)`. -/
def switch_state_bgm (pause : Bool) (c : Controller) : Controller × List Event :=
  -- if (!stream) { LOG_ERROR(...); return; }
  if c.stream = .null then (c, [.log_error])
  -- if (pause) cubeb_stream_stop(stream); else cubeb_stream_start(stream);
  else if pause then (c, [.cubeb_stream_stop])
  else (c, [.cubeb_stream_start])

/-- The rest of `pcm_playback_thread` once `stop_requested` is true: the wait
returns and `cubeb_destroy(ctx)` is called. -/
def finish_playback_thread (c : Controller) : Controller × List Event :=
  match c.playback_thread with
  | .waiting => ({ c with playback_thread := .finished, ctx := destroyed c.ctx }, [.cubeb_destroy])
  | .woken => ({ c with playback_thread := .finished, ctx := destroyed c.ctx }, [.cubeb_destroy])
  | _ => (c, [])

/-- The function `stop_bgm()`, the lifecycle thread running to its end while the
caller is in `join`. -/
def stop_bgm (c : Controller) : Controller × List Event :=
  -- if (!stream) return;
  if c.stream = .null then (c, [])
  else
    -- { std::lock_guard lock(pcm_data.mutex); stop_requested = true; }
    let c := { c with stop_requested := true }
    -- stop_condition.notify_one();
    -- if (playback_thread.joinable()) playback_thread.join();
    let joined : Controller × List Event :=
      if c.playback_thread = .not_joinable then (c, [])
      else
        ({ (finish_playback_thread c).1 with playback_thread := .not_joinable },
          (finish_playback_thread c).2 ++ [.join])
    -- cubeb_stream_stop(stream); cubeb_stream_destroy(stream); stream = nullptr;
    -- stop_requested = false;
    ({ joined.1 with stream := .null, stop_requested := false },
      [.set_stop_requested, .notify_one] ++ joined.2 ++ [.cubeb_stream_stop, .cubeb_stream_destroy])

/-- The function `init_player_bgm(vol)`; the two flags tell whether `cubeb_init`
and `cubeb_stream_init` return `CUBEB_OK`. The result is `none` when a thread is
assigned to a `playback_thread` that is still joinable (`std::terminate`). -/
def init_player_bgm (cubeb_init_ok cubeb_stream_init_ok : Bool) (vol : Nat) (c : Controller) :
    Option (Controller × List Event) :=
  -- if (cubeb_init(&ctx, "Player BGM", nullptr) != CUBEB_OK) { LOG_ERROR(...); return; }
  if cubeb_init_ok = false then some (c, [.cubeb_init false, .log_error])
  else
    let c := { c with ctx := .live }
    -- if (cubeb_stream_init(ctx, &stream, ...) != CUBEB_OK) { LOG_ERROR(...); return; }
    if cubeb_stream_init_ok = false then
      some (c, [.cubeb_init true, .cubeb_stream_init false, .log_error])
    else
      let c := { c with stream := .live }
      -- set_volume_bgm(vol);
      let volume_set := set_volume_bgm vol c
      -- playback_thread = std::thread(pcm_playback_thread);
      if volume_set.1.playback_thread = .not_joinable then
        some ({ volume_set.1 with playback_thread := .waiting },
          [.cubeb_init true, .cubeb_stream_init true] ++ volume_set.2 ++ [.thread_start])
      else none

/-- The calls a client can make on the controller. -/
inductive ControllerOp
  | init (cubeb_init_ok cubeb_stream_init_ok : Bool) (vol : Nat)
  | stop
  | switch_state (pause : Bool)
  | set_volume (volume : Nat)

/-- The globals after one call (`none`: the call does not return). -/
def apply_controller_op (op : ControllerOp) (c : Controller) : Option Controller :=
  match op with
  | .init ok1 ok2 vol => (init_player_bgm ok1 ok2 vol c).map fun r => r.1
  | .stop => some (stop_bgm c).1
  | .switch_state pause => some (switch_state_bgm pause c).1
  | .set_volume volume => some (set_volume_bgm volume c).1

/-- The globals after a sequence of calls, leftmost first. -/
def run_controller : List ControllerOp → Controller → Option Controller
  | [], c => some c
  | op :: ops, c =>
    match apply_controller_op op c with
    | none => none
    | some c => run_controller ops c

/-! ### The two threads of `stop_bgm`, step by step -/

/-- Program points of the caller of `stop_bgm`: the statement executed next. -/
inductive StopPc
  /-- the test `if (!stream) return;` -/
  | test_stream
  /-- the block `{ lock_guard lock(pcm_data.mutex); stop_requested = true; }` -/
  | set_flag
  /-- the call `stop_condition.notify_one();` -/
  | notify
  /-- the statement `if (playback_thread.joinable()) playback_thread.join();` -/
  | join
  /-- the call `cubeb_stream_stop(stream);` -/
  | stream_stop
  /-- the statements `cubeb_stream_destroy(stream); stream = nullptr;` -/
  | stream_destroy
  /-- the statement `stop_requested = false;` -/
  | reset_flag
  | returned
deriving DecidableEq, Repr

/-- A moment in an execution of `stop_bgm`: where the caller is, the globals
(which hold where the lifecycle thread is) and the events so far. -/
structure StopConfig where
  pc : StopPc
  controller : Controller
  trace : List Event
deriving DecidableEq

/-- The moment `stop_bgm` is entered. -/
def stop_entry (c : Controller) : StopConfig := ⟨.test_stream, c, []⟩

/-- One step of the caller of `stop_bgm`; `none` when it is blocked (on the
mutex held by the woken lifecycle thread, or in `join`) or has returned. -/
def stop_caller_step (k : StopConfig) : Option StopConfig :=
  match k.pc with
  | .test_stream =>
    if k.controller.stream = .null then some { k with pc := .returned }
    else some { k with pc := .set_flag }
  | .set_flag =>
    if k.controller.playback_thread = .woken then none
    else some { pc := .notify, controller := { k.controller with stop_requested := true }
                trace := k.trace ++ [.set_stop_requested] }
  | .notify => some { k with pc := .join, trace := k.trace ++ [.notify_one] }
  | .join =>
    match k.controller.playback_thread with
    | .not_joinable => some { k with pc := .stream_stop }
    | .finished =>
      some { pc := .stream_stop, controller := { k.controller with playback_thread := .not_joinable }
             trace := k.trace ++ [.join] }
    | _ => none
  | .stream_stop => some { k with pc := .stream_destroy, trace := k.trace ++ [.cubeb_stream_stop] }
  | .stream_destroy =>
    some { pc := .reset_flag, controller := { k.controller with stream := .null }
           trace := k.trace ++ [.cubeb_stream_destroy] }
  | .reset_flag =>
    some { k with pc := .returned, controller := { k.controller with stop_requested := false } }
  | .returned => none

/-- One step of `pcm_playback_thread`: the wait returns once `stop_requested`
is true, then `cubeb_destroy(ctx)` is called and the thread ends; `none` when
the thread is blocked, has ended or does not exist. -/
def stop_thread_step (k : StopConfig) : Option StopConfig :=
  match k.controller.playback_thread with
  | .waiting =>
    if k.controller.stop_requested = true then
      some { k with controller := { k.controller with playback_thread := .woken } }
    else none
  | .woken =>
    some { k with
           controller := { k.controller with playback_thread := .finished
                                             ctx := destroyed k.controller.ctx }
           trace := k.trace ++ [.cubeb_destroy] }
  | _ => none

/-- The moments that can follow a moment: a step of either thread. -/
def stop_successors (k : StopConfig) : List StopConfig :=
  (stop_caller_step k).toList ++ (stop_thread_step k).toList

/-- The moments an execution of `stop_bgm` can reach from `k0`, under every
interleaving of the two threads. -/
inductive StopRun (k0 : StopConfig) : StopConfig → Prop
  | start : StopRun k0 k0
  | step (k k1 : StopConfig) : StopRun k0 k → k1 ∈ stop_successors k → StopRun k0 k1

/-- The successors of all moments of a list. -/
def stop_successors_all : List StopConfig → List StopConfig
  | [] => []
  | k :: ks => stop_successors k ++ stop_successors_all ks

/-- The moments reached from the moments `ks` in at most `n` steps. -/
def stop_explore : Nat → List StopConfig → List StopConfig
  | 0, ks => ks
  | n + 1, ks => ks ++ stop_explore n (stop_successors_all ks)

/-! ## Arithmetic of the 32-bit quantities -/

set_option maxRecDepth 8000

theorem u32_le (n : Nat) : u32 n ≤ n := Nat.mod_le _ _

theorem u32_lt (n : Nat) : u32 n < 2 ^ 32 := Nat.mod_lt _ (by norm_num)

theorem u32_eq {n : Nat} (h : n < 2 ^ 32) : u32 n = n := Nat.mod_eq_of_lt h

theorem sub32_eq {a b : Nat} (hb : b ≤ a) (ha : a < 2 ^ 32) : sub32 a b = a - b := by
  unfold sub32; omega

theorem bytes_at_length {buf : List Nat} {off len : Nat} (h : off + len ≤ buf.length) :
    (bytes_at buf off len).length = len := by
  simp only [bytes_at, List.length_take, List.length_drop]; omega

/-! ## The real-time callback -/

theorem data_callback_data (pcm : PcmData) (F : Nat) : (data_callback pcm F).pcm.data = pcm.data :=
  rfl

theorem data_callback_frames (pcm : PcmData) (F : Nat) : (data_callback pcm F).frames = F := rfl

/-- The body of `data_callback` with the local variables named. -/
theorem data_callback_unfold (data : List Nat) (p F q now : Nat)
    (hq : q = if p ≥ u32 data.length then 0 else p)
    (hnow : now = min (u32 (F * 2 * 2)) (sub32 (u32 data.length) q)) :
    data_callback { data := data, position := p } F =
      { pcm := { data := data, position := u32 (q + now) }
        output := bytes_at data q now ++
          (if now < u32 (F * 2 * 2) then List.replicate (u32 (F * 2 * 2) - now) 0 else [])
        frames := F } := by
  subst hq hnow; rfl

/-- The callback leaves the cursor inside the buffer, whatever the state before. -/
theorem data_callback_position_le (pcm : PcmData) (F : Nat) :
    (data_callback pcm F).pcm.position ≤ pcm.data.length := by
  obtain ⟨data, p⟩ := pcm
  have hlen : u32 data.length ≤ data.length := u32_le _
  have hlt : u32 data.length < 2 ^ 32 := u32_lt _
  rw [data_callback_unfold data p F _ _ rfl rfl]
  show u32 _ ≤ data.length
  generalize u32 data.length = len at hlen hlt
  have h0 : (if p ≥ len then 0 else p) ≤ len := by
    split_ifs <;> omega
  generalize (if p ≥ len then 0 else p) = q at h0
  rw [sub32_eq h0 hlt]
  have := u32_le (q + min (u32 (F * 2 * 2)) (len - q))
  omega

/-- On the empty buffer the callback copies nothing and keeps the cursor at 0. -/
theorem data_callback_empty (p F : Nat) :
    (data_callback { data := [], position := p } F).pcm = { data := [], position := 0 } := by
  rw [data_callback_unfold [] p F _ _ rfl rfl]
  simp [u32, sub32]

theorem wrapped_le (data : List Nat) (p : Nat) : wrapped data p ≤ data.length := by
  unfold wrapped; split_ifs <;> omega

theorem data_callback_spec (data : List Nat) (p F : Nat) (hL : data.length < 2 ^ 32)
    (hF : 4 * F < 2 ^ 32) :
    (data_callback { data := data, position := p } F).output
        = bytes_at data (wrapped data p) (min (4 * F) (data.length - wrapped data p))
          ++ List.replicate (4 * F - min (4 * F) (data.length - wrapped data p)) 0
      ∧ (data_callback { data := data, position := p } F).pcm.position
        = wrapped data p + min (4 * F) (data.length - wrapped data p) := by
  have hp' : wrapped data p ≤ data.length := wrapped_le data p
  have hbtc : u32 (F * 2 * 2) = 4 * F := by unfold u32; omega
  have hlen : u32 data.length = data.length := u32_eq hL
  have hsub : sub32 data.length (wrapped data p) = data.length - wrapped data p :=
    sub32_eq hp' hL
  have hpos : u32 (wrapped data p + min (4 * F) (data.length - wrapped data p))
      = wrapped data p + min (4 * F) (data.length - wrapped data p) := by
    apply u32_eq; omega
  rw [data_callback_unfold data p F (wrapped data p)
    (min (4 * F) (data.length - wrapped data p)) (by rw [hlen]; rfl) (by rw [hbtc, hlen, hsub])]
  refine ⟨?_, hpos⟩
  simp only [hbtc]
  split_ifs with h
  · rfl
  · have h0 : 4 * F - min (4 * F) (data.length - wrapped data p) = 0 := by omega
    rw [h0]; rfl

/-- C1. Postcondition of `data_callback`: for data of length `L < 2^32`, any
cursor `p` and `F` frames with `4 * F < 2^32`, with `p' = 0` if `p >= L` else `p`
and `n = min (4 * F) (L - p')`, the callback stores exactly `4 * F` bytes, the
first `n` being `data[p' .. p' + n)` and the other `4 * F - n` being zero, sets
the cursor to `p' + n`, leaves the data alone and returns `F`. -/
theorem data_callback_postcondition (data : List Nat) (p F p' n : Nat)
    (hL : data.length < 2 ^ 32) (hF : 4 * F < 2 ^ 32)
    (hp' : p' = if p ≥ data.length then 0 else p)
    (hn : n = min (4 * F) (data.length - p')) :
    (data_callback ⟨data, p⟩ F).output.length = 4 * F
      ∧ (data_callback ⟨data, p⟩ F).output.take n = bytes_at data p' n
      ∧ (bytes_at data p' n).length = n
      ∧ (data_callback ⟨data, p⟩ F).output.drop n = List.replicate (4 * F - n) 0
      ∧ (data_callback ⟨data, p⟩ F).pcm.position = p' + n
      ∧ (data_callback ⟨data, p⟩ F).pcm.data = data
      ∧ (data_callback ⟨data, p⟩ F).frames = F := by
  obtain ⟨hout, hpos⟩ := data_callback_spec data p F hL hF
  have hw : wrapped data p = p' := hp'.symm
  rw [hw, ← hn] at hout hpos
  have hple : p' ≤ data.length := hw ▸ wrapped_le data p
  have hcl : (bytes_at data p' n).length = n := bytes_at_length (by omega)
  have hn4 : n ≤ 4 * F := by omega
  refine ⟨?_, ?_, hcl, ?_, hpos, rfl, rfl⟩
  · rw [hout, List.length_append, hcl, List.length_replicate]; omega
  · rw [hout, List.take_append_of_le_length (by omega), List.take_of_length_le (by omega)]
  · rw [hout, List.drop_append_of_le_length (by omega), List.drop_of_length_le (by omega)]
    rfl

/-- C1, at a concrete input: 6 data bytes, cursor 4, 3 frames, hence `p' = 4`
and `n = 2`. -/
theorem data_callback_postcondition_witness :
    (data_callback ⟨[1, 2, 3, 4, 5, 6], 4⟩ 3).output.length = 4 * 3
      ∧ (data_callback ⟨[1, 2, 3, 4, 5, 6], 4⟩ 3).output.take 2 = bytes_at [1, 2, 3, 4, 5, 6] 4 2
      ∧ (bytes_at [1, 2, 3, 4, 5, 6] 4 2).length = 2
      ∧ (data_callback ⟨[1, 2, 3, 4, 5, 6], 4⟩ 3).output.drop 2 = List.replicate (4 * 3 - 2) 0
      ∧ (data_callback ⟨[1, 2, 3, 4, 5, 6], 4⟩ 3).pcm.position = 4 + 2
      ∧ (data_callback ⟨[1, 2, 3, 4, 5, 6], 4⟩ 3).pcm.data = [1, 2, 3, 4, 5, 6]
      ∧ (data_callback ⟨[1, 2, 3, 4, 5, 6], 4⟩ 3).frames = 3 :=
  data_callback_postcondition [1, 2, 3, 4, 5, 6] 4 3 4 2 (by decide) (by decide) (by decide)
    (by decide)

/-- C2 as stated fails on the cursor: 4 data bytes, cursor 0, 3 frames (12
bytes). The output is the 4 data bytes and 8 zero bytes, but the cursor after the
call is 4 (the length), not 12 - 4 = 8. -/
theorem data_callback_cursor_counterexample :
    0 < [1, 2, 3, 4].length ∧ 3 * 4 > [1, 2, 3, 4].length
      ∧ (data_callback ⟨[1, 2, 3, 4], 0⟩ 3).output
          = [1, 2, 3, 4] ++ List.replicate (3 * 4 - [1, 2, 3, 4].length) 0
      ∧ (data_callback ⟨[1, 2, 3, 4], 0⟩ 3).pcm.position = 4
      ∧ (data_callback ⟨[1, 2, 3, 4], 0⟩ 3).pcm.position
          ≠ 3 * 4 - [1, 2, 3, 4].length := by
  decide

/-- C2 amended. For a buffer of length `L > 0` with the cursor at 0 and a callback
requesting `F` frames with `L < F * 4 < 2^32`, the output is the `L` data bytes
followed by `F * 4 - L` zero bytes and the cursor after the call equals `L`. -/
theorem data_callback_short_buffer (data : List Nat) (F : Nat) (hL : 0 < data.length)
    (hF : F * 4 > data.length) (h32 : F * 4 < 2 ^ 32) :
    (data_callback ⟨data, 0⟩ F).output
        = data ++ List.replicate (F * 4 - data.length) 0
      ∧ (data_callback ⟨data, 0⟩ F).pcm.position = data.length := by
  obtain ⟨hout, hpos⟩ := data_callback_spec data 0 F (by omega) (by omega)
  have hw : wrapped data 0 = 0 := by unfold wrapped; split_ifs <;> omega
  have hmin : min (4 * F) (data.length - 0) = data.length := by omega
  rw [hw, hmin] at hout hpos
  have hb : bytes_at data 0 data.length = data := by simp [bytes_at]
  rw [hb] at hout
  refine ⟨?_, by omega⟩
  rw [hout]; congr 2; omega

/-- C2 amended, at a concrete input: 4 data bytes and 3 frames. -/
theorem data_callback_short_buffer_witness :
    (data_callback ⟨[1, 2, 3, 4], 0⟩ 3).output
        = [1, 2, 3, 4] ++ List.replicate (3 * 4 - [1, 2, 3, 4].length) 0
      ∧ (data_callback ⟨[1, 2, 3, 4], 0⟩ 3).pcm.position
        = [1, 2, 3, 4].length :=
  data_callback_short_buffer [1, 2, 3, 4] 3 (by decide) (by decide) (by decide)

/-! ## The decode loop -/

theorem store_length (buf written : List Nat) : (store buf written).length = buf.length := by
  simp only [store, List.length_append, List.length_take, List.length_drop]; omega

theorem consumed_append (cycles : List Cycle) (c : Cycle) :
    consumed (cycles ++ [c]) = consumed cycles + c.es_size_used := by
  simp [consumed]

theorem accumulated_append (cycles : List Cycle) (c : Cycle) :
    accumulated (cycles ++ [c]) = accumulated cycles ++ c.pcm_buffer.take c.pcm_size_given := by
  induction cycles with
  | nil => simp [accumulated]
  | cons d cycles ih => simp [accumulated, ih]

/-- What a completed iteration of the decode loop does to the loop state. -/
theorem decode_iteration_ok {σ : Type} (dec : Atrac9DecoderState σ) (at9_data : List Nat)
    (esm ds mps : Nat) (s s' : DecodeState σ)
    (h : decode_iteration dec at9_data esm ds mps s = .ok s') :
    ∃ c : Cycle,
      c.offset = s.total_bytes_read ∧ c.es_data = s.es_data
      ∧ c.bytes_to_send = min esm (sub32 ds s.total_bytes_read)
      ∧ c.es_size_used = min c.es_size esm
      ∧ c.pcm_buffer.length = mps
      ∧ c.pcm_size_given ≤ mps
      ∧ s.es_data + c.bytes_to_send ≤ at9_data.length
      ∧ s'.total_bytes_read = u32 (s.total_bytes_read + c.es_size_used)
      ∧ s'.es_data = s.es_data + c.es_size_used
      ∧ s'.data_bgm = s.data_bgm ++ c.pcm_buffer.take c.pcm_size_given
      ∧ s'.feeds = s.feeds ++ [(s.es_data, c.bytes_to_send)]
      ∧ s'.cycles = s.cycles ++ [c]
      ∧ c.samples = dec.samples (dec.send s.decoder (bytes_at at9_data s.es_data c.bytes_to_send)).2
      ∧ c.pcm_size_given = u32 (c.samples * dec.get .CHANNELS) * 2
      ∧ c.es_size = dec.get_es_size (dec.receive (dec.send s.decoder
          (bytes_at at9_data s.es_data c.bytes_to_send)).2).2.1 := by
  unfold decode_iteration at h
  dsimp only at h
  split_ifs at h with h1 h2 h3 h4
  cases h
  refine ⟨_, rfl, rfl, rfl, rfl, ?_, ?_, ?_, rfl, rfl, rfl, rfl, rfl, rfl, rfl, rfl⟩
  · simp only [store_length, List.length_replicate]
  · simpa only [store_length, List.length_replicate, not_lt] using h4
  · simpa only [not_lt] using h1

/-- An iteration that leaves the function does not report `finished`. -/
theorem decode_iteration_error {σ : Type} (dec : Atrac9DecoderState σ) (at9_data : List Nat)
    (esm ds mps : Nat) (s s' : DecodeState σ) (e : LoopExit)
    (h : decode_iteration dec at9_data esm ds mps s = .error (e, s')) :
    e ≠ .finished := by
  unfold decode_iteration at h
  dsimp only at h
  split_ifs at h with h1 h2 h3 h4 <;> cases h <;> simp

/-- An iteration whose reads are in bounds and whose `send` and `receive`
succeed is completed. -/
theorem decode_iteration_succeeds {σ : Type} (dec : Atrac9DecoderState σ) (at9_data : List Nat)
    (esm ds mps : Nat) (s : DecodeState σ)
    (h1 : s.es_data + min esm (sub32 ds s.total_bytes_read) ≤ at9_data.length)
    (h2 : (dec.send s.decoder
      (bytes_at at9_data s.es_data (min esm (sub32 ds s.total_bytes_read)))).1 = true)
    (h3 : (dec.receive (dec.send s.decoder
      (bytes_at at9_data s.es_data (min esm (sub32 ds s.total_bytes_read)))).2).1 = true)
    (h4 : u32 (dec.samples (dec.send s.decoder
      (bytes_at at9_data s.es_data (min esm (sub32 ds s.total_bytes_read)))).2
        * dec.get .CHANNELS) * 2 ≤ mps) :
    ∃ s', decode_iteration dec at9_data esm ds mps s = .ok s' := by
  unfold decode_iteration
  dsimp only
  rw [if_neg (by omega), if_neg (by simp [h2]), if_neg (by simp [h3]),
    if_neg (by simp only [store_length, List.length_replicate]; omega)]
  exact ⟨_, rfl⟩

/-- Once the loop condition is false the loop is left, whatever the bound. -/
theorem decode_loop_done {σ : Type} (dec : Atrac9DecoderState σ) (at9_data : List Nat)
    (esm ds mps fuel : Nat) (s : DecodeState σ) (h : ¬ s.total_bytes_read < ds) :
    decode_loop dec at9_data esm ds mps fuel s = some (.finished, s) := by
  cases fuel <;> simp [decode_loop, h]

/-- A larger bound on the number of iterations does not change the outcome. -/
theorem decode_loop_mono {σ : Type} (dec : Atrac9DecoderState σ) (at9_data : List Nat)
    (esm ds mps : Nat) :
    ∀ (fuel : Nat) (s : DecodeState σ) (x : LoopExit × DecodeState σ),
      decode_loop dec at9_data esm ds mps fuel s = some x →
      decode_loop dec at9_data esm ds mps (fuel + 1) s = some x := by
  intro fuel
  induction fuel with
  | zero =>
    intro s x h
    by_cases hc : s.total_bytes_read < ds
    · simp [decode_loop, hc] at h
    · rw [decode_loop_done _ _ _ _ _ _ _ hc] at h ⊢; exact h
  | succ fuel ih =>
    intro s x h
    by_cases hc : s.total_bytes_read < ds
    · rw [decode_loop, if_pos hc] at h ⊢
      cases hit : decode_iteration dec at9_data esm ds mps s with
      | error e => rw [hit] at h; simpa using h
      | ok s1 =>
        rw [hit] at h
        exact ih s1 x h
    · rw [decode_loop_done _ _ _ _ _ _ _ hc] at h ⊢; exact h

/-- After `k` completed iterations the loop goes on from the state reached. -/
theorem decode_loop_after_iterations {σ : Type} (dec : Atrac9DecoderState σ)
    (at9_data : List Nat) (esm ds mps : Nat) :
    ∀ (k fuel : Nat) (s s1 : DecodeState σ),
      completed_iterations dec at9_data esm ds mps k s = some s1 →
      decode_loop dec at9_data esm ds mps (k + fuel) s
        = decode_loop dec at9_data esm ds mps fuel s1 := by
  intro k
  induction k with
  | zero =>
    intro fuel s s1 h
    cases h
    rw [Nat.zero_add]
  | succ k ih =>
    intro fuel s s1 h
    rw [completed_iterations] at h
    split_ifs at h with hc
    cases hit : decode_iteration dec at9_data esm ds mps s with
    | error e => rw [hit] at h; cases h
    | ok s2 =>
      rw [hit] at h
      rw [show k + 1 + fuel = k + fuel + 1 by omega, decode_loop, if_pos hc, hit]
      exact ih fuel s2 s1 h

/-- An iteration whose feed is in bounds and whose `send` or `receive` returns
false leaves the function through the error branch, with `data_bgm` as it was. -/
theorem decode_iteration_fails {σ : Type} (dec : Atrac9DecoderState σ) (at9_data : List Nat)
    (esm ds mps : Nat) (s : DecodeState σ)
    (h1 : s.es_data + min esm (sub32 ds s.total_bytes_read) ≤ at9_data.length)
    (h2 : (dec.send s.decoder
        (bytes_at at9_data s.es_data (min esm (sub32 ds s.total_bytes_read)))).1 = false
      ∨ (dec.receive (dec.send s.decoder
        (bytes_at at9_data s.es_data (min esm (sub32 ds s.total_bytes_read)))).2).1 = false) :
    ∃ s', decode_iteration dec at9_data esm ds mps s
        = .error (.decode_error s.total_bytes_read (min esm (sub32 ds s.total_bytes_read)), s')
      ∧ s'.data_bgm = s.data_bgm ∧ s'.cycles = s.cycles := by
  unfold decode_iteration
  dsimp only
  rw [if_neg (by omega)]
  by_cases hs : (dec.send s.decoder
      (bytes_at at9_data s.es_data (min esm (sub32 ds s.total_bytes_read)))).1 = false
  · rw [if_pos hs]; exact ⟨_, rfl, rfl, rfl⟩
  · rw [if_neg hs, if_pos (h2.resolve_left hs)]; exact ⟨_, rfl, rfl, rfl⟩

/-- A property kept by every completed iteration holds when the loop is left
through its condition, and the condition is false then. -/
theorem decode_loop_finished {σ : Type} (dec : Atrac9DecoderState σ) (at9_data : List Nat)
    (esm ds mps : Nat) (P : DecodeState σ → Prop)
    (hstep : ∀ s s', s.total_bytes_read < ds → P s →
      decode_iteration dec at9_data esm ds mps s = .ok s' → P s') :
    ∀ (fuel : Nat) (s s' : DecodeState σ), P s →
      decode_loop dec at9_data esm ds mps fuel s = some (.finished, s') →
      P s' ∧ ¬ s'.total_bytes_read < ds := by
  intro fuel
  induction fuel with
  | zero =>
    intro s s' hP h
    by_cases hc : s.total_bytes_read < ds
    · simp [decode_loop, hc] at h
    · rw [decode_loop_done _ _ _ _ _ _ _ hc] at h
      cases h; exact ⟨hP, hc⟩
  | succ fuel ih =>
    intro s s' hP h
    by_cases hc : s.total_bytes_read < ds
    · rw [decode_loop, if_pos hc] at h
      cases hit : decode_iteration dec at9_data esm ds mps s with
      | error e =>
        rw [hit] at h
        obtain ⟨e1, s1⟩ := e
        have hne := decode_iteration_error _ _ _ _ _ _ _ _ hit
        simp only [Option.some.injEq, Prod.mk.injEq] at h
        exact absurd h.1 hne
      | ok s1 =>
        rw [hit] at h
        exact ih s1 s' (hstep s s1 hc hP hit) h
    · rw [decode_loop_done _ _ _ _ _ _ _ hc] at h
      cases h; exact ⟨hP, hc⟩

/-! ## What `load_bgm` does to the playback buffer -/

/-- Either `load_bgm` leaves `pcm_data` as it was, or it reports `installed`, the
new data being the non-empty accumulated PCM and the cursor being the old one. -/
theorem load_bgm_pcm_data {σ : Type} (Atrac9 : Nat → Atrac9DecoderState σ) (fuel : Nat)
    (at9_data : List Nat) (pcm_data : PcmData) (r : LoadReport)
    (h : load_bgm Atrac9 fuel at9_data pcm_data = some r) :
    (r.result ≠ .installed ∧ r.pcm_data = pcm_data)
      ∨ (r.result = .installed ∧ r.data_bgm ≠ []
          ∧ r.pcm_data = { data := r.data_bgm, position := pcm_data.position }) := by
  unfold load_bgm at h
  split at h
  · cases h; exact Or.inl ⟨by simp, rfl⟩
  · dsimp only at h
    split at h
    · cases h
    · cases h; exact Or.inl ⟨by simp, rfl⟩
    · cases h; exact Or.inl ⟨by simp, rfl⟩
    · split at h
      · cases h; exact Or.inl ⟨by simp, rfl⟩
      · rename_i hne
        cases h; exact Or.inr ⟨rfl, hne, rfl⟩

/-- A buffer shorter than the header: the header read leaves the buffer. -/
theorem load_bgm_short {σ : Type} (Atrac9 : Nat → Atrac9DecoderState σ) (fuel : Nat)
    (at9_data : List Nat) (pcm_data : PcmData) (h : at9_data.length < sizeof_At9Header) :
    load_bgm Atrac9 fuel at9_data pcm_data = some ⟨.out_of_bounds, pcm_data, [], [], []⟩ := by
  unfold load_bgm; rw [if_pos h]

/-- The outcome of `load_bgm` once the loop has been left through its condition. -/
theorem load_bgm_of_finished {σ : Type} (Atrac9 : Nat → Atrac9DecoderState σ) (fuel : Nat)
    (at9_data : List Nat) (pcm_data : PcmData) (s : DecodeState σ)
    (hlen : ¬ at9_data.length < sizeof_At9Header)
    (hloop : decode_loop (Atrac9 (read_header at9_data).config_data) at9_data
      (es_size_max (Atrac9 (read_header at9_data).config_data)) (data_size at9_data)
      (max_pcm_size (Atrac9 (read_header at9_data).config_data)) fuel
      (decode_start (Atrac9 (read_header at9_data).config_data)) = some (.finished, s)) :
    load_bgm Atrac9 fuel at9_data pcm_data =
      if s.data_bgm = [] then some ⟨.empty_pcm, pcm_data, s.data_bgm, s.feeds, s.cycles⟩
      else some ⟨.installed, ⟨s.data_bgm, pcm_data.position⟩, s.data_bgm, s.feeds, s.cycles⟩ := by
  unfold load_bgm; rw [if_neg hlen]; dsimp only; rw [hloop]

/-- A report `installed` or `empty_pcm` comes from a loop left through its condition. -/
theorem load_bgm_finished {σ : Type} (Atrac9 : Nat → Atrac9DecoderState σ) (fuel : Nat)
    (at9_data : List Nat) (pcm_data : PcmData) (r : LoadReport)
    (h : load_bgm Atrac9 fuel at9_data pcm_data = some r)
    (hok : r.result = .installed ∨ r.result = .empty_pcm) :
    ¬ at9_data.length < sizeof_At9Header ∧
    ∃ s, decode_loop (Atrac9 (read_header at9_data).config_data) at9_data
        (es_size_max (Atrac9 (read_header at9_data).config_data)) (data_size at9_data)
        (max_pcm_size (Atrac9 (read_header at9_data).config_data)) fuel
        (decode_start (Atrac9 (read_header at9_data).config_data)) = some (.finished, s)
      ∧ r.data_bgm = s.data_bgm ∧ r.feeds = s.feeds ∧ r.cycles = s.cycles := by
  unfold load_bgm at h
  split at h
  · cases h; simp at hok
  · rename_i hlen
    refine ⟨hlen, ?_⟩
    dsimp only at h
    split at h
    · cases h
    · cases h; simp at hok
    · cases h; simp at hok
    · rename_i s hloop
      refine ⟨s, hloop, ?_⟩
      split at h <;> cases h <;> exact ⟨rfl, rfl, rfl⟩

/-- A larger bound on the number of iterations does not change what `load_bgm` does. -/
theorem load_bgm_mono {σ : Type} (Atrac9 : Nat → Atrac9DecoderState σ) (fuel : Nat)
    (at9_data : List Nat) (pcm_data : PcmData) (r : LoadReport)
    (h : load_bgm Atrac9 fuel at9_data pcm_data = some r) (k : Nat) :
    load_bgm Atrac9 (fuel + k) at9_data pcm_data = some r := by
  induction k with
  | zero => exact h
  | succ k ih =>
    unfold load_bgm at ih ⊢
    split
    · rename_i hlen; rw [if_pos hlen] at ih; exact ih
    · rename_i hlen
      rw [if_neg hlen] at ih
      dsimp only at ih ⊢
      cases hloop : decode_loop (Atrac9 (read_header at9_data).config_data) at9_data
        (es_size_max (Atrac9 (read_header at9_data).config_data)) (data_size at9_data)
        (max_pcm_size (Atrac9 (read_header at9_data).config_data)) (fuel + k)
        (decode_start (Atrac9 (read_header at9_data).config_data)) with
      | none => rw [hloop] at ih; cases ih
      | some x =>
        rw [hloop] at ih
        rw [show fuel + (k + 1) = fuel + k + 1 from rfl, decode_loop_mono _ _ _ _ _ _ _ x hloop]
        exact ih

/-- The accumulated PCM is the concatenation of the slices of the completed
iterations. -/
theorem load_bgm_accumulated {σ : Type} (Atrac9 : Nat → Atrac9DecoderState σ) (fuel : Nat)
    (at9_data : List Nat) (pcm_data : PcmData) (r : LoadReport)
    (h : load_bgm Atrac9 fuel at9_data pcm_data = some r)
    (hok : r.result = .installed ∨ r.result = .empty_pcm) :
    r.data_bgm = accumulated r.cycles := by
  obtain ⟨_, s, hloop, hd, _, hc⟩ := load_bgm_finished Atrac9 fuel at9_data pcm_data r h hok
  rw [hd, hc]
  refine (decode_loop_finished _ _ _ _ _ (fun s => s.data_bgm = accumulated s.cycles) ?_
    fuel _ s rfl hloop).1
  intro s1 s2 _ hP hit
  obtain ⟨c, -, -, -, -, -, -, -, -, -, hdata, -, hcyc, -⟩ :=
    decode_iteration_ok _ _ _ _ _ _ _ hit
  rw [hdata, hcyc, accumulated_append, hP]

/-- The loop invariant behind the byte count: the read pointer and the 32-bit
counter both follow the sum of the consumed counts, which stays below
`data_size + es_size_max`. -/
theorem decode_loop_consumed {σ : Type} (dec : Atrac9DecoderState σ) (at9_data : List Nat)
    (esm ds mps fuel : Nat) (s0 s : DecodeState σ)
    (h32 : at9_data.length < 2 ^ 32) (hesm : 1 ≤ esm)
    (h0 : s0.es_data = data_start ∧ s0.total_bytes_read = 0 ∧ s0.cycles = [])
    (hloop : decode_loop dec at9_data esm ds mps fuel s0 = some (.finished, s)) :
    ds ≤ consumed s.cycles ∧ consumed s.cycles < ds + esm
      ∧ ∀ c ∈ s.cycles, c.es_size_used = min c.es_size esm := by
  have key := decode_loop_finished dec at9_data esm ds mps
    (fun s => s.es_data = data_start + consumed s.cycles
      ∧ s.total_bytes_read = u32 (consumed s.cycles)
      ∧ consumed s.cycles < ds + esm
      ∧ ∀ c ∈ s.cycles, c.es_size_used = min c.es_size esm) ?_ fuel s0 s ?_ hloop
  · obtain ⟨⟨_, ht, hlt, hall⟩, hex⟩ := key
    refine ⟨?_, hlt, hall⟩
    rw [ht] at hex
    unfold u32 at hex
    omega
  · intro s1 s2 hc ⟨hes, ht, _, hall⟩ hit
    obtain ⟨c, -, -, -, hused, -, -, hin, ht2, hes2, -, -, hcyc, -⟩ :=
      decode_iteration_ok _ _ _ _ _ _ _ hit
    have hS : u32 (consumed s1.cycles) = consumed s1.cycles := by
      apply u32_eq; unfold data_start at hes; omega
    rw [hS] at ht
    refine ⟨?_, ?_, ?_, ?_⟩
    · rw [hes2, hes, hcyc, consumed_append]; omega
    · rw [ht2, ht, hcyc, consumed_append]
    · rw [hcyc, consumed_append]; omega
    · intro c' hc'
      rw [hcyc, List.mem_append, List.mem_singleton] at hc'
      rcases hc' with hc' | rfl
      · exact hall c' hc'
      · exact hused
  · obtain ⟨h1, h2, h3⟩ := h0
    rw [h1, h2, h3]
    refine ⟨rfl, rfl, ?_, ?_⟩
    · show 0 < ds + esm
      omega
    · intro c hc; cases hc

/-- An install keeps the invariant when the cursor is 0. -/
theorem init_bgm_invariant_of_zero {σ : Type} (Atrac9 : Nat → Atrac9DecoderState σ)
    (fuel : Nat) (file : Option (List Nat)) (pcm_data : PcmData) (b : BgmReport)
    (h0 : pcm_data.position = 0) (h : init_bgm Atrac9 fuel file pcm_data = some b) :
    b.pcm_data.position = 0 := by
  cases file with
  | none => cases h; exact h0
  | some buf =>
    simp only [init_bgm, Option.map_eq_some'] at h
    obtain ⟨r, hr, rfl⟩ := h
    rcases load_bgm_pcm_data Atrac9 fuel buf pcm_data r hr with ⟨_, hp⟩ | ⟨_, _, hp⟩
    · simp only [hp, h0]
    · simp only [hp, h0]

theorem run_ops_invariant {σ : Type} (Atrac9 : Nat → Atrac9DecoderState σ) :
    ∀ (ops : List BufferOp) (armed : Bool) (pcm_data s : PcmData),
      pcm_invariant pcm_data → (armed = true → pcm_data = { data := [], position := 0 }) →
      reset_before_install armed ops = true → run_ops Atrac9 ops pcm_data = some s →
      pcm_invariant s := by
  intro ops
  induction ops with
  | nil =>
    intro armed pcm_data s hinv _ _ hrun
    cases hrun; exact hinv
  | cons op ops ih =>
    intro armed pcm_data s hinv harmed hord hrun
    cases op with
    | callback F =>
      simp only [run_ops, apply_op] at hrun
      refine ih armed _ s ?_ ?_ hord hrun
      · exact data_callback_position_le pcm_data F
      · intro ha
        rw [harmed ha]; exact data_callback_empty 0 F
    | reset =>
      simp only [run_ops, apply_op] at hrun
      exact ih true (clear_pcm pcm_data) s (Nat.le_refl 0) (fun _ => rfl) hord hrun
    | install fuel file =>
      simp only [reset_before_install, Bool.and_eq_true] at hord
      obtain ⟨ha, hord⟩ := hord
      simp only [run_ops, apply_op] at hrun
      cases hb : init_bgm Atrac9 fuel file pcm_data with
      | none => rw [hb] at hrun; cases hrun
      | some b =>
        rw [hb] at hrun
        have hz : b.pcm_data.position = 0 :=
          init_bgm_invariant_of_zero Atrac9 fuel file pcm_data b (by rw [harmed ha]) hb
        refine ih false _ s ?_ (fun h => by cases h) hord hrun
        show b.pcm_data.position ≤ _
        rw [hz]; exact Nat.zero_le _

/-- C3 as stated fails: starting from the initial buffer, an install of 8 PCM
bytes, a callback of 2 frames (cursor 8) and an install of 4 PCM bytes leave
the cursor at 8 in a buffer of length 4. -/
theorem pcm_invariant_counterexample :
    pcm_invariant pcm_initial
      ∧ run_ops sample_decoder
          [.install 1 (some (sample_asset [4, 0, 2, 0] [2, 0, 0, 0])), .callback 2,
           .install 1 (some (sample_asset [4, 0, 2, 0] [1, 0, 0, 0]))] pcm_initial
        = some ⟨[7, 7, 7, 7], 8⟩
      ∧ ¬ pcm_invariant ⟨[7, 7, 7, 7], 8⟩ := by
  decide

/-- C3 amended. The invariant `position <= length` holds in the initial state
and is preserved by every sequence of `data_callback` invocations, `init_theme`
resets and `load_bgm` installs in which each install follows a reset with only
callbacks in between, as in `init_theme`. -/
theorem pcm_invariant_preserved {σ : Type} (Atrac9 : Nat → Atrac9DecoderState σ)
    (ops : List BufferOp) (pcm_data s : PcmData) (hinv : pcm_invariant pcm_data)
    (hord : reset_before_install false ops = true)
    (hrun : run_ops Atrac9 ops pcm_data = some s) :
    pcm_invariant pcm_initial ∧ pcm_invariant s :=
  ⟨Nat.le_refl 0, run_ops_invariant Atrac9 ops false pcm_data s hinv (fun h => by cases h) hord hrun⟩

/-- C3 amended, at a concrete run: reset, callback, install of 8 bytes, two
callbacks, reset, callback, install of 4 bytes, callback. -/
theorem pcm_invariant_preserved_witness :
    pcm_invariant pcm_initial ∧ pcm_invariant ⟨[7, 7, 7, 7], 4⟩ :=
  pcm_invariant_preserved sample_decoder
    [.reset, .callback 3, .install 1 (some (sample_asset [4, 0, 2, 0] [2, 0, 0, 0])),
     .callback 1, .callback 1, .reset, .callback 5,
     .install 1 (some (sample_asset [4, 0, 2, 0] [1, 0, 0, 0])), .callback 2]
    pcm_initial { data := [7, 7, 7, 7], position := 4 } (by decide) (by decide) (by decide)

/-- C4 as stated fails on the cursor: a successful load on a buffer whose cursor
is 5 installs the 8 decoded bytes and leaves the cursor at 5. -/
theorem load_bgm_cursor_counterexample :
    (load_bgm sample_decoder 1 (sample_asset [4, 0, 2, 0] [2, 0, 0, 0]) ⟨[9, 9, 9, 9, 9, 9], 5⟩).map
        (fun r => (r.result, r.pcm_data))
      = some (.installed, ⟨[7, 7, 7, 7, 7, 7, 7, 7], 5⟩)
    ∧ (5 : Nat) ≠ 0 := by
  decide

/-- C4 amended. When the decode succeeds with non-empty PCM, whatever the buffer
held before, after `load_bgm` the data is the full accumulated PCM (the slices
of all iterations, in order) and the cursor is the one from before the call;
when `load_bgm` is reached through `init_theme`, whose reset comes first, the
cursor is 0. -/
theorem load_bgm_install {σ : Type} (Atrac9 : Nat → Atrac9DecoderState σ) (fuel : Nat)
    (at9_data : List Nat) (pcm_data : PcmData) (r : LoadReport)
    (h : load_bgm Atrac9 fuel at9_data pcm_data = some r) (hok : r.result = .installed) :
    r.pcm_data.data = accumulated r.cycles
      ∧ r.pcm_data.data ≠ []
      ∧ r.pcm_data.position = pcm_data.position
      ∧ ∃ b, init_theme Atrac9 fuel (some at9_data) pcm_data = some b
          ∧ b.result = .loaded .installed
          ∧ b.pcm_data = ⟨accumulated r.cycles, 0⟩ := by
  have hacc := load_bgm_accumulated Atrac9 fuel at9_data pcm_data r h (Or.inl hok)
  rcases load_bgm_pcm_data Atrac9 fuel at9_data pcm_data r h with ⟨hne, _⟩ | ⟨_, hne, hp⟩
  · exact absurd hok hne
  · refine ⟨by rw [hp, hacc], by rw [hp]; exact hne, by rw [hp], ?_⟩
    obtain ⟨hlen, s, hloop, hd, hf, hc⟩ :=
      load_bgm_finished Atrac9 fuel at9_data pcm_data r h (Or.inl hok)
    have hs : ¬ s.data_bgm = [] := hd ▸ hne
    refine ⟨⟨.loaded .installed, ⟨s.data_bgm, 0⟩⟩, ?_, rfl, ?_⟩
    · simp only [init_theme, init_bgm]
      rw [load_bgm_of_finished Atrac9 fuel at9_data _ s hlen hloop, if_neg hs]
      rfl
    · rw [← hd, hacc]

/-- C4 amended, at a concrete input: the sample asset of one super-frame with
two samples, loaded over a buffer whose cursor is 5. -/
theorem load_bgm_install_witness :
    (⟨[7, 7, 7, 7, 7, 7, 7, 7], 5⟩ : PcmData).data
        = accumulated [⟨0, 168, 4, 4, 4, 2, [7, 7, 7, 7, 7, 7, 7, 7], 8⟩]
      ∧ (⟨[7, 7, 7, 7, 7, 7, 7, 7], 5⟩ : PcmData).data ≠ []
      ∧ (⟨[7, 7, 7, 7, 7, 7, 7, 7], 5⟩ : PcmData).position
        = (⟨[9, 9, 9, 9, 9, 9], 5⟩ : PcmData).position
      ∧ ∃ b, init_theme sample_decoder 1 (some (sample_asset [4, 0, 2, 0] [2, 0, 0, 0]))
            ⟨[9, 9, 9, 9, 9, 9], 5⟩ = some b
          ∧ b.result = .loaded .installed
          ∧ b.pcm_data = ⟨accumulated [⟨0, 168, 4, 4, 4, 2, [7, 7, 7, 7, 7, 7, 7, 7], 8⟩], 0⟩ :=
  load_bgm_install sample_decoder 1 (sample_asset [4, 0, 2, 0] [2, 0, 0, 0])
    ⟨[9, 9, 9, 9, 9, 9], 5⟩
    ⟨.installed, ⟨[7, 7, 7, 7, 7, 7, 7, 7], 5⟩, [7, 7, 7, 7, 7, 7, 7, 7], [(168, 4)],
      [⟨0, 168, 4, 4, 4, 2, [7, 7, 7, 7, 7, 7, 7, 7], 8⟩]⟩
    (by decide) rfl

/-- C5 fails on the code: `load_bgm` has no length test. On a 10-byte buffer the
copy of the 68 header bytes reads outside the buffer, and `data_size` wraps to
`10 - 168 + 2^32`, so the loop condition `0 < data_size` holds. -/
theorem load_bgm_short_buffer_reads_outside :
    sizeof_At9Header = 68
      ∧ (List.replicate 10 0).length < sizeof_At9Header
      ∧ load_bgm sample_decoder 0 (List.replicate 10 0) ⟨[9], 0⟩
          = some ⟨.out_of_bounds, ⟨[9], 0⟩, [], [], []⟩
      ∧ data_size (List.replicate 10 0) = 4294967138 := by
  decide

/-- C6. Decode failure is atomic, for every asset and every prior `pcm_data`.
When `load_bgm` reports a `send` or `receive` failure (`decode_error`), then
`pcm_data` (data and cursor) is exactly as before the call, and the same
report is given with every larger bound on the iterations. And when, after any
number `k` of completed iterations, the next `send` or `receive` returns false,
`load_bgm` does return, with that report, with `pcm_data` unchanged and without
installing the PCM accumulated so far. -/
theorem load_bgm_decode_failure_atomic {σ : Type} (Atrac9 : Nat → Atrac9DecoderState σ)
    (fuel : Nat) (at9_data : List Nat) (pcm_data : PcmData) :
    (∀ r offset bytes, load_bgm Atrac9 fuel at9_data pcm_data = some r →
        r.result = .decode_error offset bytes →
        r.pcm_data = pcm_data ∧ ∀ k, load_bgm Atrac9 (fuel + k) at9_data pcm_data = some r)
      ∧ ∀ (dec : Atrac9DecoderState σ) (k : Nat) (s : DecodeState σ),
          dec = Atrac9 (read_header at9_data).config_data →
          ¬ at9_data.length < sizeof_At9Header →
          completed_iterations dec at9_data (es_size_max dec) (data_size at9_data)
            (max_pcm_size dec) k (decode_start dec) = some s →
          s.total_bytes_read < data_size at9_data →
          s.es_data + min (es_size_max dec) (sub32 (data_size at9_data) s.total_bytes_read)
            ≤ at9_data.length →
          ((dec.send s.decoder (bytes_at at9_data s.es_data
              (min (es_size_max dec) (sub32 (data_size at9_data) s.total_bytes_read)))).1 = false
            ∨ (dec.receive (dec.send s.decoder (bytes_at at9_data s.es_data
              (min (es_size_max dec)
                (sub32 (data_size at9_data) s.total_bytes_read)))).2).1 = false) →
          ∃ r, load_bgm Atrac9 (k + (fuel + 1)) at9_data pcm_data = some r
            ∧ r.result = .decode_error s.total_bytes_read
                (min (es_size_max dec) (sub32 (data_size at9_data) s.total_bytes_read))
            ∧ r.data_bgm = s.data_bgm
            ∧ r.pcm_data = pcm_data := by
  constructor
  · intro r offset bytes h hfail
    refine ⟨?_, load_bgm_mono Atrac9 fuel at9_data pcm_data r h⟩
    rcases load_bgm_pcm_data Atrac9 fuel at9_data pcm_data r h with ⟨_, hp⟩ | ⟨hi, _, _⟩
    · exact hp
    · rw [hfail] at hi; cases hi
  · intro dec k s hdec hlen hk hc hin hfails
    subst hdec
    obtain ⟨s', hit, hd, _⟩ := decode_iteration_fails _ at9_data _ _
      (max_pcm_size (Atrac9 (read_header at9_data).config_data)) s hin hfails
    have hloop := decode_loop_after_iterations _ at9_data _ _ _ k (fuel + 1) _ s hk
    rw [decode_loop, if_pos hc, hit] at hloop
    refine ⟨⟨.decode_error s.total_bytes_read _, pcm_data, s'.data_bgm, s'.feeds, s'.cycles⟩,
      ?_, rfl, hd, rfl⟩
    unfold load_bgm
    rw [if_neg hlen]
    dsimp only
    rw [hloop]

/-- C6, at a concrete input: the second super-frame is refused by `send` after
the first one produced 8 bytes of PCM; the buffer keeps its 6 bytes and cursor 5. -/
theorem load_bgm_decode_failure_atomic_witness :
    ∃ r, load_bgm sample_decoder 2 (sample_asset [4, 0, 2, 0] [2, 0, 0, 0, 255, 0, 0, 0])
          ⟨[9, 9, 9, 9, 9, 9], 5⟩ = some r
      ∧ r.result = .decode_error 4 4
      ∧ r.data_bgm = [7, 7, 7, 7, 7, 7, 7, 7]
      ∧ r.pcm_data = ⟨[9, 9, 9, 9, 9, 9], 5⟩ :=
  ⟨⟨.decode_error 4 4, ⟨[9, 9, 9, 9, 9, 9], 5⟩, [7, 7, 7, 7, 7, 7, 7, 7], [(168, 4), (172, 4)],
      [⟨0, 168, 4, 4, 4, 2, [7, 7, 7, 7, 7, 7, 7, 7], 8⟩]⟩,
    by decide, rfl, rfl,
    ((load_bgm_decode_failure_atomic sample_decoder 2
      (sample_asset [4, 0, 2, 0] [2, 0, 0, 0, 255, 0, 0, 0]) ⟨[9, 9, 9, 9, 9, 9], 5⟩).1 _ 4 4
      (by decide) rfl).1⟩

/-- C7. Empty output is a failure: `load_bgm` never installs an empty buffer.
When every `send` and `receive` succeeded and the accumulated PCM is empty, the
report is `empty_pcm` and `pcm_data` is unchanged; a buffer of exactly 168 bytes
gives that outcome without any iteration, whatever the bound; and whenever
`load_bgm` changes `pcm_data.data` the new data is non-empty. -/
theorem load_bgm_never_installs_empty {σ : Type} (Atrac9 : Nat → Atrac9DecoderState σ)
    (fuel : Nat) (at9_data : List Nat) (pcm_data : PcmData) :
    (at9_data.length = 168 →
        load_bgm Atrac9 fuel at9_data pcm_data = some ⟨.empty_pcm, pcm_data, [], [], []⟩)
      ∧ (∀ s, ¬ at9_data.length < sizeof_At9Header →
          decode_loop (Atrac9 (read_header at9_data).config_data) at9_data
            (es_size_max (Atrac9 (read_header at9_data).config_data)) (data_size at9_data)
            (max_pcm_size (Atrac9 (read_header at9_data).config_data)) fuel
            (decode_start (Atrac9 (read_header at9_data).config_data)) = some (.finished, s) →
          s.data_bgm = [] →
          load_bgm Atrac9 fuel at9_data pcm_data
            = some ⟨.empty_pcm, pcm_data, [], s.feeds, s.cycles⟩)
      ∧ ∀ r, load_bgm Atrac9 fuel at9_data pcm_data = some r →
          (r.result = .installed → r.pcm_data.data ≠ [])
          ∧ (r.result = .empty_pcm → r.data_bgm = [] ∧ r.pcm_data = pcm_data)
          ∧ (r.pcm_data.data ≠ pcm_data.data → r.pcm_data.data ≠ []) := by
  refine ⟨?_, ?_, ?_⟩
  · intro hN
    have hlen : ¬ at9_data.length < sizeof_At9Header := by rw [hN]; decide
    have hds : data_size at9_data = 0 := by rw [data_size, hN]; decide
    rw [load_bgm_of_finished Atrac9 fuel at9_data pcm_data _ hlen
      (decode_loop_done _ _ _ _ _ _ _ (by rw [hds]; exact Nat.not_lt_zero _))]
    rfl
  · intro s hlen hloop hempty
    rw [load_bgm_of_finished Atrac9 fuel at9_data pcm_data s hlen hloop, if_pos hempty, hempty]
  · intro r h
    rcases load_bgm_pcm_data Atrac9 fuel at9_data pcm_data r h with ⟨hni, hp⟩ | ⟨hi, hne, hp⟩
    · refine ⟨fun hi => absurd hi hni, fun he => ⟨?_, hp⟩, fun hch => absurd (by rw [hp]) hch⟩
      obtain ⟨hlen, s, hloop, hd, _, _⟩ :=
        load_bgm_finished Atrac9 fuel at9_data pcm_data r h (Or.inr he)
      rw [load_bgm_of_finished Atrac9 fuel at9_data pcm_data s hlen hloop] at h
      split at h
      · rename_i hs; rw [hd, hs]
      · cases h; cases he
    · refine ⟨fun _ => by rw [hp]; exact hne, fun he => ?_, fun _ => by rw [hp]; exact hne⟩
      rw [hi] at he; cases he

/-- C7, at concrete inputs: a 168-byte buffer, and a super-frame that decodes to
zero samples; in both cases the 6 bytes and the cursor of the buffer stay. -/
theorem load_bgm_never_installs_empty_witness :
    load_bgm sample_decoder 0 (sample_asset [4, 0, 2, 0] []) ⟨[9, 9, 9, 9, 9, 9], 5⟩
        = some ⟨.empty_pcm, ⟨[9, 9, 9, 9, 9, 9], 5⟩, [], [], []⟩
      ∧ ((⟨.empty_pcm, ⟨[9, 9, 9, 9, 9, 9], 5⟩, [], [(168, 4)],
            [⟨0, 168, 4, 4, 4, 0, [7, 7, 7, 7, 7, 7, 7, 7], 0⟩]⟩ : LoadReport).data_bgm = []
          ∧ (⟨.empty_pcm, ⟨[9, 9, 9, 9, 9, 9], 5⟩, [], [(168, 4)],
            [⟨0, 168, 4, 4, 4, 0, [7, 7, 7, 7, 7, 7, 7, 7], 0⟩]⟩ : LoadReport).pcm_data
              = ⟨[9, 9, 9, 9, 9, 9], 5⟩) :=
  ⟨(load_bgm_never_installs_empty sample_decoder 0 (sample_asset [4, 0, 2, 0] [])
      ⟨[9, 9, 9, 9, 9, 9], 5⟩).1 (by decide),
    ((load_bgm_never_installs_empty sample_decoder 1 (sample_asset [4, 0, 2, 0] [0, 0, 0, 0])
      ⟨[9, 9, 9, 9, 9, 9], 5⟩).2.2 _ (by decide)).2.1 rfl⟩

/-- C8. Bytes consumed by a successful decode. For a valid container of
`168 <= N < 2^32` bytes whose codec reports a super-frame size of at least 1,
`data_size = N - 168`, and when every `send` and `receive` succeeded and the
loop was left, the sum `S` of the per-iteration consumed counts satisfies
`data_size <= S < data_size + min(super_frame_size, 1024)`, each count being
`min(get_es_size(), min(super_frame_size, 1024))`. -/
theorem load_bgm_consumes_payload {σ : Type} (Atrac9 : Nat → Atrac9DecoderState σ)
    (fuel : Nat) (at9_data : List Nat) (pcm_data : PcmData) (r : LoadReport)
    (hN : 168 ≤ at9_data.length) (h32 : at9_data.length < 2 ^ 32)
    (hsf : 1 ≤ (Atrac9 (read_header at9_data).config_data).get .AT9_SUPERFRAME_SIZE)
    (h : load_bgm Atrac9 fuel at9_data pcm_data = some r)
    (hok : r.result = .installed ∨ r.result = .empty_pcm) :
    data_size at9_data = at9_data.length - 168
      ∧ data_size at9_data ≤ consumed r.cycles
      ∧ consumed r.cycles < data_size at9_data
          + min ((Atrac9 (read_header at9_data).config_data).get .AT9_SUPERFRAME_SIZE) 1024
      ∧ ∀ c ∈ r.cycles, c.es_size_used = min c.es_size
          (min ((Atrac9 (read_header at9_data).config_data).get .AT9_SUPERFRAME_SIZE) 1024) := by
  obtain ⟨_, s, hloop, _, _, hc⟩ := load_bgm_finished Atrac9 fuel at9_data pcm_data r h hok
  have hds : data_size at9_data = at9_data.length - 168 := by
    unfold data_size data_start
    rw [u32_eq h32, sub32_eq hN h32]
  refine ⟨hds, ?_⟩
  rw [hc]
  exact decode_loop_consumed _ at9_data _ _ _ fuel _ s h32
    (by omega) ⟨rfl, rfl, rfl⟩ hloop

/-- C8, at a concrete input: a payload of 6 bytes with super-frames of 4 bytes;
the second, partial frame is counted as 4 bytes, so `S = 8` and `6 <= 8 < 6 + 4`. -/
theorem load_bgm_consumes_payload_witness :
    data_size (sample_asset [4, 0, 2, 0] [2, 0, 0, 0, 1, 0])
        = (sample_asset [4, 0, 2, 0] [2, 0, 0, 0, 1, 0]).length - 168
      ∧ data_size (sample_asset [4, 0, 2, 0] [2, 0, 0, 0, 1, 0])
        ≤ consumed [⟨0, 168, 4, 4, 4, 2, [7, 7, 7, 7, 7, 7, 7, 7], 8⟩,
            ⟨4, 172, 2, 4, 4, 1, [7, 7, 7, 7, 7, 7, 7, 7], 4⟩]
      ∧ consumed [⟨0, 168, 4, 4, 4, 2, [7, 7, 7, 7, 7, 7, 7, 7], 8⟩,
            ⟨4, 172, 2, 4, 4, 1, [7, 7, 7, 7, 7, 7, 7, 7], 4⟩]
        < data_size (sample_asset [4, 0, 2, 0] [2, 0, 0, 0, 1, 0])
          + min ((sample_decoder
              (read_header (sample_asset [4, 0, 2, 0] [2, 0, 0, 0, 1, 0])).config_data).get
                .AT9_SUPERFRAME_SIZE) 1024
      ∧ ∀ c ∈ [(⟨0, 168, 4, 4, 4, 2, [7, 7, 7, 7, 7, 7, 7, 7], 8⟩ : Cycle),
            ⟨4, 172, 2, 4, 4, 1, [7, 7, 7, 7, 7, 7, 7, 7], 4⟩],
          c.es_size_used = min c.es_size
            (min ((sample_decoder
              (read_header (sample_asset [4, 0, 2, 0] [2, 0, 0, 0, 1, 0])).config_data).get
                .AT9_SUPERFRAME_SIZE) 1024) :=
  load_bgm_consumes_payload sample_decoder 2 (sample_asset [4, 0, 2, 0] [2, 0, 0, 0, 1, 0])
    ⟨[9, 9, 9, 9, 9, 9], 5⟩
    ⟨.installed, ⟨[7, 7, 7, 7, 7, 7, 7, 7, 7, 7, 7, 7], 5⟩, [7, 7, 7, 7, 7, 7, 7, 7, 7, 7, 7, 7],
      [(168, 4), (172, 2)],
      [⟨0, 168, 4, 4, 4, 2, [7, 7, 7, 7, 7, 7, 7, 7], 8⟩,
       ⟨4, 172, 2, 4, 4, 1, [7, 7, 7, 7, 7, 7, 7, 7], 4⟩]⟩
    (by decide) (by decide) (by decide) (by decide) (Or.inl rfl)

/-- C9 as stated fails: with a decoder whose `send` and `receive` always succeed,
which reports 4 consumed bytes and drains 0 samples (at most the 2 samples per
frame), a buffer with a 4-byte payload gives one cycle and no install: the
report is `empty_pcm` and the buffer keeps its 10 bytes, more than `2 * 2 * 2`. -/
theorem load_bgm_single_cycle_counterexample :
    (∀ s chunk, ((quiet_decoder 131076).send s chunk).1 = true)
      ∧ (∀ s, ((quiet_decoder 131076).receive s).1 = true)
      ∧ (∀ s, (sample_asset [4, 0, 2, 0] [0, 0, 0, 0]).length - 168
          ≤ (quiet_decoder 131076).get_es_size s)
      ∧ (∀ s, (quiet_decoder 131076).samples s
          ≤ (quiet_decoder 131076).get .AT9_SAMPLE_PER_FRAME)
      ∧ (read_header (sample_asset [4, 0, 2, 0] [0, 0, 0, 0])).config_data = 131076
      ∧ 0 < (sample_asset [4, 0, 2, 0] [0, 0, 0, 0]).length - 168
      ∧ (sample_asset [4, 0, 2, 0] [0, 0, 0, 0]).length - 168
          ≤ min ((quiet_decoder 131076).get .AT9_SUPERFRAME_SIZE) 1024
      ∧ load_bgm quiet_decoder 1 (sample_asset [4, 0, 2, 0] [0, 0, 0, 0])
          ⟨[9, 9, 9, 9, 9, 9, 9, 9, 9, 9], 5⟩
        = some ⟨.empty_pcm, ⟨[9, 9, 9, 9, 9, 9, 9, 9, 9, 9], 5⟩, [], [(168, 4)],
            [⟨0, 168, 4, 4, 4, 0, [0, 0, 0, 0, 0, 0, 0, 0], 0⟩]⟩
      ∧ ¬ ([9, 9, 9, 9, 9, 9, 9, 9, 9, 9].length
          ≤ (quiet_decoder 131076).get .AT9_SAMPLE_PER_FRAME
            * (quiet_decoder 131076).get .CHANNELS * 2) := by
  refine ⟨fun _ _ => rfl, fun _ => rfl, fun _ => ?_, fun _ => ?_, by decide,
    by decide, by decide, by decide, by decide⟩
  · exact (by decide : (sample_asset [4, 0, 2, 0] [0, 0, 0, 0]).length - 168
      ≤ (quiet_decoder 131076).get_es_size 0)
  · exact (by decide : (quiet_decoder 131076).samples 0
      ≤ (quiet_decoder 131076).get .AT9_SAMPLE_PER_FRAME)

/-- C9 amended. Single super-frame: when the payload size `N - 168` is positive
and at most `min(super_frame_size, 1024)`, the `send` and the `receive` of the
payload succeed, the reported consumed bytes are at least the payload size, the
drained sample count is at most the samples per frame and
`samples_per_frame * channels < 2^32`, then `load_bgm` performs exactly one
feed/drain cycle and accumulates `samples * channels * 2` bytes of PCM, at most
`samples_per_frame * channels * 2`; it installs them when they are not empty
and leaves `pcm_data` unchanged when they are. -/
theorem load_bgm_single_super_frame {σ : Type} (Atrac9 : Nat → Atrac9DecoderState σ)
    (dec : Atrac9DecoderState σ) (fuel : Nat) (at9_data : List Nat) (pcm_data : PcmData)
    (hdec : dec = Atrac9 (read_header at9_data).config_data)
    (hpos : 0 < at9_data.length - 168)
    (hmax : at9_data.length - 168 ≤ min (dec.get .AT9_SUPERFRAME_SIZE) 1024)
    (hsend : (dec.send dec.init (bytes_at at9_data 168 (at9_data.length - 168))).1 = true)
    (hrecv : (dec.receive
      (dec.send dec.init (bytes_at at9_data 168 (at9_data.length - 168))).2).1 = true)
    (hes : at9_data.length - 168 ≤ dec.get_es_size (dec.receive
      (dec.send dec.init (bytes_at at9_data 168 (at9_data.length - 168))).2).2.1)
    (hsamples : dec.samples (dec.send dec.init (bytes_at at9_data 168 (at9_data.length - 168))).2
      ≤ dec.get .AT9_SAMPLE_PER_FRAME)
    (hprod : dec.get .AT9_SAMPLE_PER_FRAME * dec.get .CHANNELS < 2 ^ 32) :
    ∃ r, load_bgm Atrac9 (fuel + 1) at9_data pcm_data = some r
      ∧ r.cycles.length = 1
      ∧ r.feeds = [(168, at9_data.length - 168)]
      ∧ r.data_bgm.length
          = dec.samples (dec.send dec.init (bytes_at at9_data 168 (at9_data.length - 168))).2
            * dec.get .CHANNELS * 2
      ∧ r.data_bgm.length ≤ dec.get .AT9_SAMPLE_PER_FRAME * dec.get .CHANNELS * 2
      ∧ (r.data_bgm ≠ [] → r.result = .installed ∧ r.pcm_data = ⟨r.data_bgm, pcm_data.position⟩)
      ∧ (r.data_bgm = [] → r.result = .empty_pcm ∧ r.pcm_data = pcm_data) := by
  subst hdec
  generalize hd : Atrac9 (read_header at9_data).config_data = dec at *
  have hlen : ¬ at9_data.length < sizeof_At9Header := by
    have : sizeof_At9Header = 68 := rfl
    omega
  have h32 : at9_data.length < 2 ^ 32 := by omega
  have hds : data_size at9_data = at9_data.length - 168 := by
    unfold data_size data_start
    rw [u32_eq h32, sub32_eq (by omega) h32]
  have hb : min (es_size_max dec) (sub32 (data_size at9_data)
      (decode_start dec).total_bytes_read) = at9_data.length - 168 := by
    show min (min (dec.get .AT9_SUPERFRAME_SIZE) 1024) (sub32 (data_size at9_data) 0) = _
    rw [hds, sub32_eq (Nat.zero_le _) (by omega)]
    omega
  have hmul : dec.samples (dec.send dec.init
      (bytes_at at9_data 168 (at9_data.length - 168))).2 * dec.get .CHANNELS
      ≤ dec.get .AT9_SAMPLE_PER_FRAME * dec.get .CHANNELS :=
    Nat.mul_le_mul_right _ hsamples
  have hu : u32 (dec.samples (dec.send dec.init
      (bytes_at at9_data 168 (at9_data.length - 168))).2 * dec.get .CHANNELS)
      = dec.samples (dec.send dec.init
        (bytes_at at9_data 168 (at9_data.length - 168))).2 * dec.get .CHANNELS :=
    u32_eq (by omega)
  obtain ⟨s1, hit⟩ := decode_iteration_succeeds dec at9_data (es_size_max dec)
    (data_size at9_data) (max_pcm_size dec) (decode_start dec)
    (by rw [hb]; show 168 + _ ≤ _; omega) (by rw [hb]; exact hsend) (by rw [hb]; exact hrecv)
    (by
      rw [hb]
      show u32 (dec.samples (dec.send dec.init
        (bytes_at at9_data 168 (at9_data.length - 168))).2 * dec.get .CHANNELS) * 2
          ≤ u32 (dec.get .AT9_SAMPLE_PER_FRAME * dec.get .CHANNELS) * 2
      rw [hu, u32_eq hprod]; omega)
  obtain ⟨c, -, -, hbts, hused, hbuf, hgiven, -, ht, -, hdata, hfeeds, hcyc, hsam, hpsg, hesz⟩ :=
    decode_iteration_ok _ _ _ _ _ _ _ hit
  rw [hb] at hbts
  rw [hbts] at hsam hesz hfeeds
  have hs0 : (decode_start dec).total_bytes_read = 0 := rfl
  have hdone : ¬ s1.total_bytes_read < data_size at9_data := by
    rw [ht, hs0, hds, hused, hesz]
    have hle : min (dec.get_es_size (dec.receive (dec.send (decode_start dec).decoder
        (bytes_at at9_data (decode_start dec).es_data (at9_data.length - 168))).2).2.1)
        (es_size_max dec) < 2 ^ 32 := by
      have : es_size_max dec ≤ 1024 := Nat.min_le_right _ _
      omega
    rw [Nat.zero_add, u32_eq hle]
    have h1 : at9_data.length - 168 ≤ es_size_max dec := hmax
    have h2 : at9_data.length - 168 ≤ dec.get_es_size (dec.receive (dec.send
        (decode_start dec).decoder
        (bytes_at at9_data (decode_start dec).es_data (at9_data.length - 168))).2).2.1 := hes
    omega
  have hloop : decode_loop dec at9_data (es_size_max dec) (data_size at9_data)
      (max_pcm_size dec) (fuel + 1) (decode_start dec) = some (.finished, s1) := by
    rw [decode_loop, if_pos (by rw [hs0, hds]; exact hpos), hit]
    exact decode_loop_done _ _ _ _ _ _ _ hdone
  have hlen1 : s1.data_bgm.length
      = dec.samples (dec.send dec.init (bytes_at at9_data 168 (at9_data.length - 168))).2
        * dec.get .CHANNELS * 2 := by
    rw [hdata]
    show ([] ++ c.pcm_buffer.take c.pcm_size_given).length = _
    rw [List.nil_append, List.length_take, hbuf, Nat.min_eq_left hgiven, hpsg, hsam]
    exact congrArg (· * 2) hu
  have hload := load_bgm_of_finished Atrac9 (fuel + 1) at9_data pcm_data s1
    hlen (by rw [hd]; exact hloop)
  by_cases hempty : s1.data_bgm = []
  · rw [if_pos hempty] at hload
    refine ⟨_, hload, ?_, ?_, hlen1, ?_, fun h => absurd hempty h, fun _ => ⟨rfl, rfl⟩⟩
    · show s1.cycles.length = 1
      rw [hcyc]; rfl
    · exact hfeeds
    · show s1.data_bgm.length ≤ _
      rw [hlen1]; omega
  · rw [if_neg hempty] at hload
    refine ⟨_, hload, ?_, ?_, hlen1, ?_, fun _ => ⟨rfl, rfl⟩, fun h => absurd h hempty⟩
    · show s1.cycles.length = 1
      rw [hcyc]; rfl
    · exact hfeeds
    · show s1.data_bgm.length ≤ _
      rw [hlen1]; omega

/-- C9 amended, at the scenario of the specification: a 424-byte buffer (168 +
256), super-frame size 256, 256 samples per frame, 2 channels: one feed/drain
cycle over the bytes `[168, 424)` and at most 1024 bytes of PCM. -/
theorem load_bgm_single_super_frame_witness :
    (sample_asset [0, 1, 0, 1] (1 :: List.replicate 255 0)).length = 424
      ∧ (sample_decoder 16777472).get .AT9_SUPERFRAME_SIZE = 256
      ∧ (sample_decoder 16777472).get .AT9_SAMPLE_PER_FRAME = 256
      ∧ (sample_decoder 16777472).get .CHANNELS = 2
      ∧ ∃ r, load_bgm sample_decoder 1 (sample_asset [0, 1, 0, 1] (1 :: List.replicate 255 0))
            ⟨[9, 9, 9, 9, 9, 9], 5⟩ = some r
          ∧ r.cycles.length = 1
          ∧ r.feeds = [(168, 256)]
          ∧ r.data_bgm.length ≤ 1024 := by
  have hN : (sample_asset [0, 1, 0, 1] (1 :: List.replicate 255 0)).length = 424 := by
    simp [sample_asset]
  have hcfg : (read_header (sample_asset [0, 1, 0, 1] (1 :: List.replicate 255 0))).config_data
      = 16777472 := by
    simp [read_header, sample_asset, bytes_at, le_value]
  have hchunk : (bytes_at (sample_asset [0, 1, 0, 1] (1 :: List.replicate 255 0)) 168
      ((sample_asset [0, 1, 0, 1] (1 :: List.replicate 255 0)).length - 168)).headD 0 = 1 := by
    rw [hN]
    simp [sample_asset, bytes_at, List.drop_append_eq_append_drop]
  have hsent : (sample_decoder 16777472).send (sample_decoder 16777472).init
      (bytes_at (sample_asset [0, 1, 0, 1] (1 :: List.replicate 255 0)) 168
        ((sample_asset [0, 1, 0, 1] (1 :: List.replicate 255 0)).length - 168)) = (true, 1) := by
    show (decide (_ ≠ 255), _) = _
    rw [hchunk]; rfl
  obtain ⟨r, h1, h2, h3, -, h5, -⟩ :=
    load_bgm_single_super_frame sample_decoder (sample_decoder 16777472) 0
      (sample_asset [0, 1, 0, 1] (1 :: List.replicate 255 0)) ⟨[9, 9, 9, 9, 9, 9], 5⟩
      (by rw [hcfg]) (by rw [hN]; decide) (by rw [hN]; decide) (by rw [hsent])
      (by rw [hsent]; rfl) (by rw [hsent, hN]; decide) (by rw [hsent]; decide) (by decide)
  rw [hN] at h3
  exact ⟨hN, by decide, by decide, by decide, r, h1, h2, h3, h5⟩

/-- C10 as stated fails for frame counts whose byte count does not fit 32 bits:
after an `init_theme` whose asset is not found the buffer is empty with cursor
0, but a callback requesting `2^30` frames has `bytes_to_copy = 0` and stores no
byte at all, not `4 * 2^30` zero bytes. -/
theorem init_theme_silence_counterexample :
    init_theme sample_decoder 0 none ⟨[9, 9, 9, 9, 9, 9], 5⟩ = some ⟨.read_failed, ⟨[], 0⟩⟩
      ∧ (data_callback ⟨[], 0⟩ (2 ^ 30)).output = []
      ∧ (data_callback ⟨[], 0⟩ (2 ^ 30)).output.length ≠ 4 * 2 ^ 30 := by
  decide

/-- C10 amended. A failed load means silence: whatever the buffer held before,
after an `init_theme` whose asset is not read, or whose decode fails (a `send`
or `receive` failure, or empty PCM), the buffer is empty with cursor 0, and
every later `data_callback` requesting `F` frames with `4 * F < 2^32`, after
any callbacks in between, stores `4 * F` zero bytes, returns `F` and leaves
the cursor at 0. An asset that is not read always gives this outcome. -/
theorem init_theme_failed_load_is_silent {σ : Type} (Atrac9 : Nat → Atrac9DecoderState σ)
    (fuel : Nat) (file : Option (List Nat)) (pcm_data : PcmData) (b : BgmReport)
    (h : init_theme Atrac9 fuel file pcm_data = some b)
    (hfail : b.result = .read_failed ∨ b.result = .loaded .empty_pcm
      ∨ ∃ offset bytes, b.result = .loaded (.decode_error offset bytes)) :
    init_theme Atrac9 fuel none pcm_data = some ⟨.read_failed, ⟨[], 0⟩⟩
      ∧ b.pcm_data = ⟨[], 0⟩
      ∧ ∀ (between : List Nat) (F : Nat), 4 * F < 2 ^ 32 →
          (data_callback (callbacks b.pcm_data between) F).output = List.replicate (4 * F) 0
          ∧ (data_callback (callbacks b.pcm_data between) F).frames = F
          ∧ (data_callback (callbacks b.pcm_data between) F).pcm = ⟨[], 0⟩ := by
  have hb : b.pcm_data = ⟨[], 0⟩ := by
    cases file with
    | none => cases h; rfl
    | some buf =>
      simp only [init_theme, init_bgm, Option.map_eq_some'] at h
      obtain ⟨r, hr, rfl⟩ := h
      rcases load_bgm_pcm_data Atrac9 fuel buf _ r hr with ⟨_, hp⟩ | ⟨hi, _, _⟩
      · exact hp
      · simp [hi] at hfail
  refine ⟨rfl, hb, ?_⟩
  intro between F hF
  have hstay : callbacks b.pcm_data between = ⟨[], 0⟩ := by
    rw [hb]
    induction between with
    | nil => rfl
    | cons F' rest ih =>
      show callbacks (data_callback ⟨[], 0⟩ F').pcm rest = _
      rw [data_callback_empty 0 F']; exact ih
  rw [hstay]
  obtain ⟨hout, hpos⟩ := data_callback_spec [] 0 F (by decide) hF
  refine ⟨?_, rfl, data_callback_empty 0 F⟩
  rw [hout]
  simp [bytes_at]

/-- C10 amended, at a concrete input: the second super-frame of the asset is
refused by `send`; afterwards a callback of 2 frames, coming after callbacks of
3 and 1 frames, stores 8 zero bytes. -/
theorem init_theme_failed_load_is_silent_witness :
    init_theme sample_decoder 2 none ⟨[9, 9, 9, 9, 9, 9], 5⟩ = some ⟨.read_failed, ⟨[], 0⟩⟩
      ∧ (⟨.loaded (.decode_error 4 4), ⟨[], 0⟩⟩ : BgmReport).pcm_data = ⟨[], 0⟩
      ∧ (data_callback (callbacks ⟨[], 0⟩ [3, 1]) 2).output = List.replicate (4 * 2) 0
      ∧ (data_callback (callbacks ⟨[], 0⟩ [3, 1]) 2).frames = 2
      ∧ (data_callback (callbacks ⟨[], 0⟩ [3, 1]) 2).pcm = ⟨[], 0⟩ :=
  have key := init_theme_failed_load_is_silent sample_decoder 2
    (some (sample_asset [4, 0, 2, 0] [2, 0, 0, 0, 255, 0, 0, 0])) ⟨[9, 9, 9, 9, 9, 9], 5⟩
    ⟨.loaded (.decode_error 4 4), ⟨[], 0⟩⟩ (by decide) (Or.inr (Or.inr ⟨4, 4, rfl⟩))
  ⟨key.1, key.2.1, key.2.2 [3, 1] 2 (by decide)⟩

/-! ## Short buffers: one fragment per callback -/

/-- One callback on a short buffer whose cursor is 0 or at the end. -/
theorem data_callback_short_step (data : List Nat) (F p : Nat) (hL : 0 < data.length)
    (hF : data.length < 4 * F) (h32 : 4 * F < 2 ^ 32) (hp : p = 0 ∨ p = data.length) :
    (data_callback ⟨data, p⟩ F).output = data ++ List.replicate (4 * F - data.length) 0
      ∧ (data_callback ⟨data, p⟩ F).pcm = ⟨data, data.length⟩ := by
  obtain ⟨hout, hpos⟩ := data_callback_spec data p F (by omega) h32
  have hw : wrapped data p = 0 := by
    unfold wrapped; rcases hp with rfl | rfl
    · rw [if_neg (by omega)]
    · rw [if_pos (Nat.le_refl _)]
  have hmin : min (4 * F) (data.length - 0) = data.length := by omega
  rw [hw, hmin] at hout hpos
  have hb : bytes_at data 0 data.length = data := by simp [bytes_at]
  rw [hb] at hout
  refine ⟨hout, ?_⟩
  have hd : (data_callback ⟨data, p⟩ F).pcm.data = data := rfl
  cases hpcm : (data_callback ⟨data, p⟩ F).pcm with
  | mk d q =>
    rw [hpcm] at hd hpos
    simp only at hd hpos
    rw [hd, hpos, Nat.zero_add]

/-- After one or more callbacks on a short buffer the cursor rests at the end. -/
theorem callbacks_short (data : List Nat) (F : Nat) (hL : 0 < data.length)
    (hF : data.length < 4 * F) (h32 : 4 * F < 2 ^ 32) :
    ∀ (k p : Nat), (p = 0 ∨ p = data.length) →
      callbacks ⟨data, p⟩ (List.replicate (k + 1) F) = ⟨data, data.length⟩ := by
  intro k
  induction k with
  | zero =>
    intro p hp
    exact (data_callback_short_step data F p hL hF h32 hp).2
  | succ k ih =>
    intro p hp
    show callbacks (data_callback ⟨data, p⟩ F).pcm (List.replicate (k + 1) F) = _
    rw [(data_callback_short_step data F p hL hF h32 hp).2]
    exact ih _ (Or.inr rfl)

/-- C15 as stated fails for frame counts whose byte count does not fit 32 bits:
with 4 data bytes, cursor 0 and `2^30` frames (so `0 < L < 4 * F`), the 32-bit
`bytes_to_copy` is 0; the callback stores nothing and leaves the cursor at 0,
not at `L = 4`. -/
theorem data_callback_no_loop_counterexample :
    0 < [1, 2, 3, 4].length ∧ [1, 2, 3, 4].length < 4 * 2 ^ 30
      ∧ (data_callback ⟨[1, 2, 3, 4], 0⟩ (2 ^ 30)).output = []
      ∧ (data_callback ⟨[1, 2, 3, 4], 0⟩ (2 ^ 30)).pcm.position = 0
      ∧ (data_callback ⟨[1, 2, 3, 4], 0⟩ (2 ^ 30)).pcm.position ≠ [1, 2, 3, 4].length := by
  decide

/-- C15 amended. No looping inside a callback: for a buffer with
`0 < L < 4 * F < 2^32` and the cursor initially 0, the invocation that follows
any number `k` of earlier invocations, all requesting `F` frames, stores the
`L` data bytes once, followed by `4 * F - L` zero bytes, and leaves the cursor
at `L`; the cursor rests at `L` between invocations and is wrapped to 0 by the
test at the start of the next one. -/
theorem data_callback_no_loop_inside_callback (data : List Nat) (F k : Nat)
    (hL : 0 < data.length) (hF : data.length < 4 * F) (h32 : 4 * F < 2 ^ 32) :
    (data_callback (callbacks ⟨data, 0⟩ (List.replicate k F)) F).output
        = data ++ List.replicate (4 * F - data.length) 0
      ∧ (data_callback (callbacks ⟨data, 0⟩ (List.replicate k F)) F).pcm.position = data.length
      ∧ callbacks ⟨data, 0⟩ (List.replicate (k + 1) F) = ⟨data, data.length⟩
      ∧ wrapped data data.length = 0 := by
  have hstate : callbacks ⟨data, 0⟩ (List.replicate k F) = ⟨data, 0⟩
      ∨ callbacks ⟨data, 0⟩ (List.replicate k F) = ⟨data, data.length⟩ := by
    cases k with
    | zero => exact Or.inl rfl
    | succ k => exact Or.inr (callbacks_short data F hL hF h32 k 0 (Or.inl rfl))
  have hw : wrapped data data.length = 0 := by
    unfold wrapped; rw [if_pos (Nat.le_refl _)]
  refine ⟨?_, ?_, callbacks_short data F hL hF h32 k 0 (Or.inl rfl), hw⟩
  · rcases hstate with h | h <;> rw [h]
    · exact (data_callback_short_step data F 0 hL hF h32 (Or.inl rfl)).1
    · exact (data_callback_short_step data F _ hL hF h32 (Or.inr rfl)).1
  · rcases hstate with h | h <;> rw [h]
    · rw [(data_callback_short_step data F 0 hL hF h32 (Or.inl rfl)).2]
    · rw [(data_callback_short_step data F _ hL hF h32 (Or.inr rfl)).2]

/-- C15 amended, at a concrete input: 4 data bytes, 3 frames, the third of
three consecutive invocations. -/
theorem data_callback_no_loop_inside_callback_witness :
    (data_callback (callbacks ⟨[1, 2, 3, 4], 0⟩ (List.replicate 2 3)) 3).output
        = [1, 2, 3, 4] ++ List.replicate (4 * 3 - [1, 2, 3, 4].length) 0
      ∧ (data_callback (callbacks ⟨[1, 2, 3, 4], 0⟩ (List.replicate 2 3)) 3).pcm.position
        = [1, 2, 3, 4].length
      ∧ callbacks ⟨[1, 2, 3, 4], 0⟩ (List.replicate (2 + 1) 3) = ⟨[1, 2, 3, 4], [1, 2, 3, 4].length⟩
      ∧ wrapped [1, 2, 3, 4] [1, 2, 3, 4].length = 0 :=
  data_callback_no_loop_inside_callback [1, 2, 3, 4] 3 2 (by decide) (by decide) (by decide)

/-! ## Every exit of the decode loop -/

/-- What an iteration that leaves the function has logged. -/
theorem decode_iteration_error_log {σ : Type} (dec : Atrac9DecoderState σ) (at9_data : List Nat)
    (esm ds mps : Nat) (s s' : DecodeState σ) (e : LoopExit)
    (h : decode_iteration dec at9_data esm ds mps s = .error (e, s')) :
    s'.feeds = s.feeds ++ [(s.es_data, min esm (sub32 ds s.total_bytes_read))]
      ∧ (s'.cycles = s.cycles
        ∨ ∃ c : Cycle, s'.cycles = s.cycles ++ [c] ∧ c.offset = s.total_bytes_read
            ∧ c.es_data = s.es_data
            ∧ c.bytes_to_send = min esm (sub32 ds s.total_bytes_read)
            ∧ c.es_size_used = min c.es_size esm
            ∧ c.es_size = dec.get_es_size (dec.receive (dec.send s.decoder
                (bytes_at at9_data s.es_data c.bytes_to_send)).2).2.1) := by
  unfold decode_iteration at h
  dsimp only at h
  split_ifs at h with h1 h2 h3 h4 <;> cases h
  · exact ⟨rfl, Or.inl rfl⟩
  · exact ⟨rfl, Or.inl rfl⟩
  · exact ⟨rfl, Or.inl rfl⟩
  · exact ⟨rfl, Or.inr ⟨_, rfl, rfl, rfl, rfl, rfl, rfl⟩⟩

/-- A property `P` kept by every completed iteration, and a property `R` that
follows from `P` and holds after an iteration that leaves the function from a
state with `P`, give `R` at every exit of the loop. -/
theorem decode_loop_exit {σ : Type} (dec : Atrac9DecoderState σ) (at9_data : List Nat)
    (esm ds mps : Nat) (P : DecodeState σ → Prop) (R : LoopExit → DecodeState σ → Prop)
    (hok : ∀ s s', s.total_bytes_read < ds → P s →
      decode_iteration dec at9_data esm ds mps s = .ok s' → P s')
    (herr : ∀ s e s', s.total_bytes_read < ds → P s →
      decode_iteration dec at9_data esm ds mps s = .error (e, s') → R e s')
    (hfin : ∀ s, P s → R .finished s) :
    ∀ (fuel : Nat) (s s' : DecodeState σ) (e : LoopExit), P s →
      decode_loop dec at9_data esm ds mps fuel s = some (e, s') → R e s' := by
  intro fuel
  induction fuel with
  | zero =>
    intro s s' e hP h
    by_cases hc : s.total_bytes_read < ds
    · simp [decode_loop, hc] at h
    · rw [decode_loop_done _ _ _ _ _ _ _ hc] at h
      cases h; exact hfin _ hP
  | succ fuel ih =>
    intro s s' e hP h
    by_cases hc : s.total_bytes_read < ds
    · rw [decode_loop, if_pos hc] at h
      cases hit : decode_iteration dec at9_data esm ds mps s with
      | error x =>
        rw [hit] at h
        obtain ⟨e1, s1⟩ := x
        cases h
        exact herr s e s' hc hP hit
      | ok s1 =>
        rw [hit] at h
        exact ih s1 s' e (hok s s1 hc hP hit) h
    · rw [decode_loop_done _ _ _ _ _ _ _ hc] at h
      cases h; exact hfin _ hP

/-- A property kept by every completed iteration holds after any number of them. -/
theorem completed_iterations_invariant {σ : Type} (dec : Atrac9DecoderState σ)
    (at9_data : List Nat) (esm ds mps : Nat) (P : DecodeState σ → Prop)
    (hok : ∀ s s', s.total_bytes_read < ds → P s →
      decode_iteration dec at9_data esm ds mps s = .ok s' → P s') :
    ∀ (k : Nat) (s s' : DecodeState σ), P s →
      completed_iterations dec at9_data esm ds mps k s = some s' → P s' := by
  intro k
  induction k with
  | zero => intro s s' hP h; cases h; exact hP
  | succ k ih =>
    intro s s' hP h
    rw [completed_iterations] at h
    split_ifs at h with hc
    cases hit : decode_iteration dec at9_data esm ds mps s with
    | error x => rw [hit] at h; cases h
    | ok s1 =>
      rw [hit] at h
      exact ih s1 s' (hok s s1 hc hP hit) h

/-- The report of `load_bgm` carries the logs of the loop state at its exit. -/
theorem load_bgm_logs {σ : Type} (Atrac9 : Nat → Atrac9DecoderState σ) (fuel : Nat)
    (at9_data : List Nat) (pcm_data : PcmData) (r : LoadReport)
    (h : load_bgm Atrac9 fuel at9_data pcm_data = some r) :
    (r.feeds = [] ∧ r.cycles = [])
      ∨ ∃ e s, decode_loop (Atrac9 (read_header at9_data).config_data) at9_data
            (es_size_max (Atrac9 (read_header at9_data).config_data)) (data_size at9_data)
            (max_pcm_size (Atrac9 (read_header at9_data).config_data)) fuel
            (decode_start (Atrac9 (read_header at9_data).config_data)) = some (e, s)
          ∧ r.feeds = s.feeds ∧ r.cycles = s.cycles := by
  unfold load_bgm at h
  split at h
  · cases h; exact Or.inl ⟨rfl, rfl⟩
  · dsimp only at h
    split at h
    · cases h
    · rename_i s hloop; cases h; exact Or.inr ⟨_, s, hloop, rfl, rfl⟩
    · rename_i o b s hloop; cases h; exact Or.inr ⟨_, s, hloop, rfl, rfl⟩
    · rename_i s hloop
      split at h <;> cases h <;> exact Or.inr ⟨_, s, hloop, rfl, rfl⟩

/-- The loop invariant behind the chunk bound: while the 32-bit counter cannot
wrap, the read pointer is `data_start + total_bytes_read` and every feed and
every completed cycle took its chunk as the loop prescribes. -/
theorem decode_iteration_feeds {σ : Type} (dec : Atrac9DecoderState σ) (at9_data : List Nat)
    (esm mps : Nat) (hN : 168 ≤ at9_data.length) (h32 : at9_data.length + 1024 ≤ 2 ^ 32)
    (hesm : esm ≤ 1024) (s s' : DecodeState σ)
    (hc : s.total_bytes_read < at9_data.length - 168)
    (hP : s.es_data = data_start + s.total_bytes_read
      ∧ (∀ f ∈ s.feeds, ∃ b, b < at9_data.length - 168 ∧ f.1 = 168 + b
          ∧ f.2 = min esm (at9_data.length - 168 - b))
      ∧ ∀ c ∈ s.cycles, c.offset < at9_data.length - 168 ∧ c.es_data = 168 + c.offset
          ∧ c.bytes_to_send = min esm (at9_data.length - 168 - c.offset))
    (hit : decode_iteration dec at9_data esm (at9_data.length - 168) mps s = .ok s') :
    s'.es_data = data_start + s'.total_bytes_read
      ∧ (∀ f ∈ s'.feeds, ∃ b, b < at9_data.length - 168 ∧ f.1 = 168 + b
          ∧ f.2 = min esm (at9_data.length - 168 - b))
      ∧ ∀ c ∈ s'.cycles, c.offset < at9_data.length - 168 ∧ c.es_data = 168 + c.offset
          ∧ c.bytes_to_send = min esm (at9_data.length - 168 - c.offset) := by
  obtain ⟨hes, hfeeds, hcycles⟩ := hP
  obtain ⟨c, hoff, hced, hbts, hused, -, -, -, ht, hes2, -, hf2, hcyc, -⟩ :=
    decode_iteration_ok _ _ _ _ _ _ _ hit
  have hsub : sub32 (at9_data.length - 168) s.total_bytes_read
      = at9_data.length - 168 - s.total_bytes_read := sub32_eq (by omega) (by omega)
  rw [hsub] at hbts
  have hdata_start : data_start = 168 := rfl
  refine ⟨?_, ?_, ?_⟩
  · rw [hes2, ht, hes, u32_eq (by omega)]; omega
  · intro f hf
    rw [hf2, List.mem_append, List.mem_singleton] at hf
    rcases hf with hf | rfl
    · exact hfeeds f hf
    · exact ⟨s.total_bytes_read, hc, by rw [hes, hdata_start], by rw [hbts]⟩
  · intro c' hc'
    rw [hcyc, List.mem_append, List.mem_singleton] at hc'
    rcases hc' with hc' | rfl
    · exact hcycles c' hc'
    · exact ⟨by rw [hoff]; exact hc, by rw [hced, hoff, hes, hdata_start], by rw [hbts, hoff]⟩

/-- The same, for an iteration that leaves the function. -/
theorem decode_iteration_feeds_error {σ : Type} (dec : Atrac9DecoderState σ)
    (at9_data : List Nat) (esm mps : Nat) (hN : 168 ≤ at9_data.length)
    (h32 : at9_data.length + 1024 ≤ 2 ^ 32) (s s' : DecodeState σ) (e : LoopExit)
    (hc : s.total_bytes_read < at9_data.length - 168)
    (hP : s.es_data = data_start + s.total_bytes_read
      ∧ (∀ f ∈ s.feeds, ∃ b, b < at9_data.length - 168 ∧ f.1 = 168 + b
          ∧ f.2 = min esm (at9_data.length - 168 - b))
      ∧ ∀ c ∈ s.cycles, c.offset < at9_data.length - 168 ∧ c.es_data = 168 + c.offset
          ∧ c.bytes_to_send = min esm (at9_data.length - 168 - c.offset))
    (hit : decode_iteration dec at9_data esm (at9_data.length - 168) mps s = .error (e, s')) :
    (∀ f ∈ s'.feeds, ∃ b, b < at9_data.length - 168 ∧ f.1 = 168 + b
          ∧ f.2 = min esm (at9_data.length - 168 - b))
      ∧ ∀ c ∈ s'.cycles, c.offset < at9_data.length - 168 ∧ c.es_data = 168 + c.offset
          ∧ c.bytes_to_send = min esm (at9_data.length - 168 - c.offset) := by
  obtain ⟨hes, hfeeds, hcycles⟩ := hP
  obtain ⟨hf2, hcyc⟩ := decode_iteration_error_log _ _ _ _ _ _ _ _ hit
  have hsub : sub32 (at9_data.length - 168) s.total_bytes_read
      = at9_data.length - 168 - s.total_bytes_read := sub32_eq (by omega) (by omega)
  rw [hsub] at hf2 hcyc
  have hdata_start : data_start = 168 := rfl
  refine ⟨?_, ?_⟩
  · intro f hf
    rw [hf2, List.mem_append, List.mem_singleton] at hf
    rcases hf with hf | rfl
    · exact hfeeds f hf
    · exact ⟨s.total_bytes_read, hc, by rw [hes, hdata_start], rfl⟩
  · rcases hcyc with hcyc | ⟨c, hcyc, hoff, hced, hbts, -⟩
    · rw [hcyc]; exact hcycles
    · intro c' hc'
      rw [hcyc, List.mem_append, List.mem_singleton] at hc'
      rcases hc' with hc' | rfl
      · exact hcycles c' hc'
      · exact ⟨by rw [hoff]; exact hc, by rw [hced, hoff, hes, hdata_start], by rw [hbts, hoff]⟩

/-- The value of `data_size` when the buffer size fits 32 bits. -/
theorem data_size_eq {at9_data : List Nat} (hN : 168 ≤ at9_data.length)
    (h32 : at9_data.length < 2 ^ 32) : data_size at9_data = at9_data.length - 168 := by
  unfold data_size data_start
  rw [u32_eq h32, sub32_eq hN h32]

theorem es_size_max_le {σ : Type} (dec : Atrac9DecoderState σ) : es_size_max dec ≤ 1024 :=
  Nat.min_le_right _ _

/-- A buffer of `2^32 + 170` bytes: the 32-bit `es_size` is 170, `data_size` is 2
and the only chunk fed has 2 bytes. -/
theorem load_bgm_truncated_size (at9_data : List Nat) (pcm_data : PcmData)
    (hN : at9_data.length = 2 ^ 32 + 170) :
    ∃ r, load_bgm (fun _ => quiet_decoder 131076) 1 at9_data pcm_data = some r
      ∧ r.feeds = [(168, 2)] := by
  have hds : data_size at9_data = 2 := by
    unfold data_size u32 sub32 data_start; rw [hN]; norm_num
  have hesm : es_size_max (quiet_decoder 131076) = 4 := by decide
  have hb : min (es_size_max (quiet_decoder 131076)) (sub32 (data_size at9_data)
      (decode_start (quiet_decoder 131076)).total_bytes_read) = 2 := by
    rw [hds, hesm]; decide
  obtain ⟨s1, hit⟩ := decode_iteration_succeeds (quiet_decoder 131076) at9_data
    (es_size_max (quiet_decoder 131076)) (data_size at9_data)
    (max_pcm_size (quiet_decoder 131076)) (decode_start (quiet_decoder 131076))
    (by rw [hb, hN]; show 168 + 2 ≤ _; norm_num) rfl rfl
    (by
      have h0 : ∀ x, (quiet_decoder 131076).samples x = 0 := fun _ => rfl
      rw [h0]; decide)
  obtain ⟨c, -, -, hbts, hused, -, -, -, ht, -, -, hfeeds, -, -, -, hesz⟩ :=
    decode_iteration_ok _ _ _ _ _ _ _ hit
  have hes4 : ∀ x, (quiet_decoder 131076).get_es_size x = 4 := fun _ => rfl
  rw [hes4] at hesz
  rw [hb] at hbts
  have hdone : ¬ s1.total_bytes_read < data_size at9_data := by
    rw [ht, hused, hesz, hds, hesm]; decide
  have hloop : decode_loop (quiet_decoder 131076) at9_data (es_size_max (quiet_decoder 131076))
      (data_size at9_data) (max_pcm_size (quiet_decoder 131076)) 1
      (decode_start (quiet_decoder 131076)) = some (.finished, s1) := by
    rw [decode_loop, if_pos (by rw [hds]; decide), hit]
    exact decode_loop_done _ _ _ _ _ _ _ hdone
  have hlen : ¬ at9_data.length < sizeof_At9Header := by
    rw [hN]; decide
  have hload := load_bgm_of_finished (fun _ => quiet_decoder 131076) 1 at9_data pcm_data s1
    hlen hloop
  have hf : s1.feeds = [(168, 2)] := by rw [hfeeds, hbts]; rfl
  by_cases hempty : s1.data_bgm = []
  · rw [if_pos hempty] at hload
    exact ⟨_, hload, hf⟩
  · rw [if_neg hempty] at hload
    exact ⟨_, hload, hf⟩

/-- C16 as stated fails when the buffer size does not fit 32 bits: for a buffer
of `N = 2^32 + 170` bytes and a super-frame size of 4, the first chunk (at
`bytes_consumed = 0`) has 2 bytes, not `min(min(4, 1024), N - 168 - 0) = 4`. -/
theorem load_bgm_chunk_counterexample :
    (List.replicate (2 ^ 32 + 170) 0).length = 2 ^ 32 + 170
      ∧ 168 ≤ 2 ^ 32 + 170
      ∧ (∃ r, load_bgm (fun _ => quiet_decoder 131076) 1 (List.replicate (2 ^ 32 + 170) 0)
            ⟨[], 0⟩ = some r
          ∧ r.feeds = [(168, 2)])
      ∧ min (min ((quiet_decoder 131076).get .AT9_SUPERFRAME_SIZE) 1024)
          (2 ^ 32 + 170 - 168 - 0) = 4 :=
  ⟨List.length_replicate _ _, by norm_num,
    load_bgm_truncated_size _ _ (List.length_replicate _ _), by decide⟩

/-- C16 amended. Chunk bound and in-bounds feeding: for every buffer of
`168 <= N <= 2^32 - 1024` bytes and every decoder behaviour, each chunk fed by
the decode loop is fed at some `bytes_consumed = b < N - 168`, from offset
`168 + b`, with length `c = min(min(super_frame_size, 1024), N - 168 - b)`, so
`c <= 1024` and the fed range `[168 + b, 168 + b + c)` lies inside `[0, N)`.
This holds for the feeds of every returning `load_bgm` (whatever its exit) and
for the feeds made after any number of completed iterations; in each completed
cycle `b` is the value of `total_bytes_read` on entry. -/
theorem load_bgm_chunks_in_bounds {σ : Type} (Atrac9 : Nat → Atrac9DecoderState σ)
    (fuel : Nat) (at9_data : List Nat) (pcm_data : PcmData) (hN : 168 ≤ at9_data.length)
    (h32 : at9_data.length + 1024 ≤ 2 ^ 32) :
    (∀ r, load_bgm Atrac9 fuel at9_data pcm_data = some r →
        (∀ f ∈ r.feeds, ∃ b, b < at9_data.length - 168 ∧ f.1 = 168 + b
          ∧ f.2 = min (min ((Atrac9 (read_header at9_data).config_data).get
              .AT9_SUPERFRAME_SIZE) 1024) (at9_data.length - 168 - b)
          ∧ f.2 ≤ 1024 ∧ f.1 + f.2 ≤ at9_data.length)
        ∧ ∀ c ∈ r.cycles, c.offset < at9_data.length - 168 ∧ c.es_data = 168 + c.offset
          ∧ c.bytes_to_send = min (min ((Atrac9 (read_header at9_data).config_data).get
              .AT9_SUPERFRAME_SIZE) 1024) (at9_data.length - 168 - c.offset))
      ∧ ∀ k s, completed_iterations (Atrac9 (read_header at9_data).config_data) at9_data
            (es_size_max (Atrac9 (read_header at9_data).config_data)) (data_size at9_data)
            (max_pcm_size (Atrac9 (read_header at9_data).config_data)) k
            (decode_start (Atrac9 (read_header at9_data).config_data)) = some s →
          ∀ f ∈ s.feeds, ∃ b, b < at9_data.length - 168 ∧ f.1 = 168 + b
            ∧ f.2 = min (min ((Atrac9 (read_header at9_data).config_data).get
                .AT9_SUPERFRAME_SIZE) 1024) (at9_data.length - 168 - b)
            ∧ f.2 ≤ 1024 ∧ f.1 + f.2 ≤ at9_data.length := by
  generalize hd : Atrac9 (read_header at9_data).config_data = dec
  have hds : data_size at9_data = at9_data.length - 168 := data_size_eq hN (by omega)
  have hesm : es_size_max dec ≤ 1024 := es_size_max_le dec
  have hstart : (decode_start dec).es_data = data_start + (decode_start dec).total_bytes_read
      ∧ (∀ f ∈ (decode_start dec).feeds, ∃ b, b < at9_data.length - 168 ∧ f.1 = 168 + b
          ∧ f.2 = min (es_size_max dec) (at9_data.length - 168 - b))
      ∧ ∀ c ∈ (decode_start dec).cycles, c.offset < at9_data.length - 168
          ∧ c.es_data = 168 + c.offset
          ∧ c.bytes_to_send = min (es_size_max dec) (at9_data.length - 168 - c.offset) :=
    ⟨rfl, fun f hf => (by cases hf), fun c hc => (by cases hc)⟩
  have hbound : ∀ f : Nat × Nat, (∃ b, b < at9_data.length - 168 ∧ f.1 = 168 + b
        ∧ f.2 = min (es_size_max dec) (at9_data.length - 168 - b)) →
      ∃ b, b < at9_data.length - 168 ∧ f.1 = 168 + b
        ∧ f.2 = min (min (dec.get .AT9_SUPERFRAME_SIZE) 1024) (at9_data.length - 168 - b)
        ∧ f.2 ≤ 1024 ∧ f.1 + f.2 ≤ at9_data.length := by
    rintro f ⟨b, hb, h1, h2⟩
    refine ⟨b, hb, h1, h2, ?_, ?_⟩
    · rw [h2]; omega
    · rw [h1, h2]; omega
  constructor
  · intro r h
    rcases load_bgm_logs Atrac9 fuel at9_data pcm_data r h with ⟨hf, hc⟩ | ⟨e, s, hloop, hf, hc⟩
    · rw [hf, hc]
      exact ⟨fun f hf => (by cases hf), fun c hc => (by cases hc)⟩
    · rw [hd, hds] at hloop
      have key := decode_loop_exit dec at9_data (es_size_max dec) (at9_data.length - 168)
        (max_pcm_size dec) _
        (fun _ s => (∀ f ∈ s.feeds, ∃ b, b < at9_data.length - 168 ∧ f.1 = 168 + b
            ∧ f.2 = min (es_size_max dec) (at9_data.length - 168 - b))
          ∧ ∀ c ∈ s.cycles, c.offset < at9_data.length - 168 ∧ c.es_data = 168 + c.offset
            ∧ c.bytes_to_send = min (es_size_max dec) (at9_data.length - 168 - c.offset))
        (fun s s' hc hP hit => decode_iteration_feeds dec at9_data _ _ hN h32 hesm s s' hc hP hit)
        (fun s e s' hc hP hit =>
          decode_iteration_feeds_error dec at9_data _ _ hN h32 s s' e hc hP hit)
        (fun s hP => hP.2) fuel _ s e hstart hloop
      rw [hf, hc]
      exact ⟨fun f hf => hbound f (key.1 f hf), key.2⟩
  · intro k s hk
    rw [hds] at hk
    have key := completed_iterations_invariant dec at9_data (es_size_max dec)
      (at9_data.length - 168) (max_pcm_size dec) _
      (fun s s' hc hP hit => decode_iteration_feeds dec at9_data _ _ hN h32 hesm s s' hc hP hit)
      k _ s hstart hk
    exact fun f hf => hbound f (key.2.1 f hf)

/-- C16 amended, at a concrete input: a payload of 6 bytes with super-frames of
4 bytes is fed as the chunks `[168, 172)` and `[172, 174)`. -/
theorem load_bgm_chunks_in_bounds_witness :
    load_bgm sample_decoder 2 (sample_asset [4, 0, 2, 0] [2, 0, 0, 0, 1, 0]) ⟨[9, 9, 9, 9, 9, 9], 5⟩
        = some ⟨.installed, ⟨[7, 7, 7, 7, 7, 7, 7, 7, 7, 7, 7, 7], 5⟩,
            [7, 7, 7, 7, 7, 7, 7, 7, 7, 7, 7, 7], [(168, 4), (172, 2)],
            [⟨0, 168, 4, 4, 4, 2, [7, 7, 7, 7, 7, 7, 7, 7], 8⟩,
             ⟨4, 172, 2, 4, 4, 1, [7, 7, 7, 7, 7, 7, 7, 7], 4⟩]⟩
      ∧ ∀ f ∈ ([(168, 4), (172, 2)] : List (Nat × Nat)),
        ∃ b, b < (sample_asset [4, 0, 2, 0] [2, 0, 0, 0, 1, 0]).length - 168 ∧ f.1 = 168 + b
          ∧ f.2 = min (min ((sample_decoder
              (read_header (sample_asset [4, 0, 2, 0] [2, 0, 0, 0, 1, 0])).config_data).get
                .AT9_SUPERFRAME_SIZE) 1024)
              ((sample_asset [4, 0, 2, 0] [2, 0, 0, 0, 1, 0]).length - 168 - b)
          ∧ f.2 ≤ 1024
          ∧ f.1 + f.2 ≤ (sample_asset [4, 0, 2, 0] [2, 0, 0, 0, 1, 0]).length :=
  ⟨by decide,
    ((load_bgm_chunks_in_bounds sample_decoder 2 (sample_asset [4, 0, 2, 0] [2, 0, 0, 0, 1, 0])
      ⟨[9, 9, 9, 9, 9, 9], 5⟩ (by decide) (by decide)).1
      ⟨.installed, ⟨[7, 7, 7, 7, 7, 7, 7, 7, 7, 7, 7, 7], 5⟩, [7, 7, 7, 7, 7, 7, 7, 7, 7, 7, 7, 7],
        [(168, 4), (172, 2)],
        [⟨0, 168, 4, 4, 4, 2, [7, 7, 7, 7, 7, 7, 7, 7], 8⟩,
         ⟨4, 172, 2, 4, 4, 1, [7, 7, 7, 7, 7, 7, 7, 7], 4⟩]⟩
      (by decide)).1⟩

/-! ## The accumulated PCM, frame by frame -/

theorem drained_cons (c : Cycle) (cycles : List Cycle) :
    drained (c :: cycles) = c.samples + drained cycles := by
  simp [drained]

/-- When every completed cycle appended `samples * channels * 2` bytes that its
scratch buffer holds, the accumulated PCM is the concatenation of the frame
slices and has `2 * channels * (sum of samples)` bytes. -/
theorem accumulated_eq_frame_slices (channels : Nat) :
    ∀ cycles : List Cycle,
      (∀ c ∈ cycles, c.pcm_size_given = c.samples * channels * 2
        ∧ c.samples * channels * 2 ≤ c.pcm_buffer.length) →
      accumulated cycles = frame_slices channels cycles
        ∧ (frame_slices channels cycles).length = 2 * channels * drained cycles := by
  intro cycles
  induction cycles with
  | nil => intro _; exact ⟨rfl, by simp [frame_slices, drained]⟩
  | cons c cycles ih =>
    intro h
    obtain ⟨h1, h2⟩ := h c (List.mem_cons_self _ _)
    obtain ⟨ih1, ih2⟩ := ih (fun d hd => h d (List.mem_cons_of_mem _ hd))
    refine ⟨?_, ?_⟩
    · show c.pcm_buffer.take c.pcm_size_given ++ accumulated cycles = _
      rw [h1, ih1]; rfl
    · show (c.pcm_buffer.take (c.samples * channels * 2) ++ frame_slices channels cycles).length = _
      rw [List.length_append, List.length_take, Nat.min_eq_left h2, ih2, drained_cons]
      ring

/-- C17 as stated fails when the 32-bit product `samples_per_frame * channels`
wraps: with `2^31 + 1` samples per frame and 2 channels the scratch buffer has
4 bytes, not `(2^31 + 1) * 2 * 2`; a decode draining 1 and then `2^31` samples
(both at most the samples per frame) succeeds and installs 4 bytes, not
`2 * 2 * (1 + 2^31)`. -/
theorem load_bgm_concatenation_counterexample :
    load_bgm (fun _ => wide_decoder) 2 (sample_asset [0, 0, 0, 0] [1, 0, 0, 0, 0, 0, 0, 0])
        ⟨[], 0⟩
      = some ⟨.installed, ⟨[7, 7, 7, 7], 0⟩, [7, 7, 7, 7], [(168, 4), (172, 4)],
          [⟨0, 168, 4, 4, 4, 1, [7, 7, 7, 7], 4⟩, ⟨4, 172, 4, 4, 4, 2 ^ 31, [7, 7, 7, 7], 0⟩]⟩
      ∧ (1 ≤ wide_decoder.get .AT9_SAMPLE_PER_FRAME
        ∧ 2 ^ 31 ≤ wide_decoder.get .AT9_SAMPLE_PER_FRAME)
      ∧ [7, 7, 7, 7].length
          ≠ wide_decoder.get .AT9_SAMPLE_PER_FRAME * wide_decoder.get .CHANNELS * 2
      ∧ [7, 7, 7, 7].length ≠ 2 * wide_decoder.get .CHANNELS * (1 + 2 ^ 31) := by
  decide

/-- C17 amended. For every successful decode in which each drained sample count
is at most `samples_per_frame`, with `samples_per_frame * channels < 2^32`, the
installed PCM is the concatenation, in iteration order, of the first
`samples_i * channels * 2` bytes of the i-th scratch buffer; each scratch buffer
has `samples_per_frame * channels * 2` bytes, so no slice exceeds it, and the
installed length is `2 * channels * (sum of the samples_i)`. -/
theorem load_bgm_pcm_concatenation {σ : Type} (Atrac9 : Nat → Atrac9DecoderState σ)
    (dec : Atrac9DecoderState σ) (fuel : Nat) (at9_data : List Nat) (pcm_data : PcmData)
    (r : LoadReport) (hdec : dec = Atrac9 (read_header at9_data).config_data)
    (hprod : dec.get .AT9_SAMPLE_PER_FRAME * dec.get .CHANNELS < 2 ^ 32)
    (h : load_bgm Atrac9 fuel at9_data pcm_data = some r) (hok : r.result = .installed)
    (hsamples : ∀ c ∈ r.cycles, c.samples ≤ dec.get .AT9_SAMPLE_PER_FRAME) :
    r.pcm_data.data = frame_slices (dec.get .CHANNELS) r.cycles
      ∧ r.pcm_data.data.length = 2 * dec.get .CHANNELS * drained r.cycles
      ∧ ∀ c ∈ r.cycles,
          c.pcm_buffer.length = dec.get .AT9_SAMPLE_PER_FRAME * dec.get .CHANNELS * 2
          ∧ c.samples * dec.get .CHANNELS * 2 ≤ c.pcm_buffer.length := by
  subst hdec
  generalize hd : Atrac9 (read_header at9_data).config_data = dec at *
  obtain ⟨_, s, hloop, _, _, hc⟩ :=
    load_bgm_finished Atrac9 fuel at9_data pcm_data r h (Or.inl hok)
  rw [hd] at hloop
  have hmps : max_pcm_size dec = dec.get .AT9_SAMPLE_PER_FRAME * dec.get .CHANNELS * 2 := by
    unfold max_pcm_size; rw [u32_eq hprod]
  have hcyc : ∀ c ∈ s.cycles, c.pcm_buffer.length = max_pcm_size dec
      ∧ c.pcm_size_given = u32 (c.samples * dec.get .CHANNELS) * 2 := by
    refine (decode_loop_finished dec at9_data _ _ _
      (fun s => ∀ c ∈ s.cycles, c.pcm_buffer.length = max_pcm_size dec
        ∧ c.pcm_size_given = u32 (c.samples * dec.get .CHANNELS) * 2) ?_
      fuel _ s (fun c hc => by cases hc) hloop).1
    intro s1 s2 _ hP hit
    obtain ⟨c, -, -, -, -, hbuf, -, -, -, -, -, -, hcyc, -, hpsg, -⟩ :=
      decode_iteration_ok _ _ _ _ _ _ _ hit
    intro c' hc'
    rw [hcyc, List.mem_append, List.mem_singleton] at hc'
    rcases hc' with hc' | rfl
    · exact hP c' hc'
    · exact ⟨hbuf, hpsg⟩
  rw [← hc] at hcyc
  have hall : ∀ c ∈ r.cycles, c.pcm_size_given = c.samples * dec.get .CHANNELS * 2
      ∧ c.samples * dec.get .CHANNELS * 2 ≤ c.pcm_buffer.length := by
    intro c hcm
    obtain ⟨hbuf, hpsg⟩ := hcyc c hcm
    have hle : c.samples * dec.get .CHANNELS
        ≤ dec.get .AT9_SAMPLE_PER_FRAME * dec.get .CHANNELS :=
      Nat.mul_le_mul_right _ (hsamples c hcm)
    rw [hpsg, u32_eq (by omega), hbuf, hmps]
    exact ⟨rfl, by omega⟩
  obtain ⟨hacc, hlen⟩ := accumulated_eq_frame_slices (dec.get .CHANNELS) r.cycles hall
  have hdata : r.pcm_data.data = accumulated r.cycles := by
    rw [← load_bgm_accumulated Atrac9 fuel at9_data pcm_data r h (Or.inl hok)]
    rcases load_bgm_pcm_data Atrac9 fuel at9_data pcm_data r h with ⟨hne, _⟩ | ⟨_, _, hp⟩
    · exact absurd hok hne
    · rw [hp]
  refine ⟨by rw [hdata, hacc], by rw [hdata, hacc, hlen], ?_⟩
  intro c hcm
  exact ⟨by rw [(hcyc c hcm).1, hmps], (hall c hcm).2⟩

/-- C17 amended, at a concrete input: two super-frames draining 2 and 1
samples with 2 samples per frame and 2 channels give `8 + 4` bytes. -/
theorem load_bgm_pcm_concatenation_witness :
    (⟨[7, 7, 7, 7, 7, 7, 7, 7, 7, 7, 7, 7], 5⟩ : PcmData).data
        = frame_slices ((sample_decoder 131076).get .CHANNELS)
            [⟨0, 168, 4, 4, 4, 2, [7, 7, 7, 7, 7, 7, 7, 7], 8⟩,
             ⟨4, 172, 4, 4, 4, 1, [7, 7, 7, 7, 7, 7, 7, 7], 4⟩]
      ∧ (⟨[7, 7, 7, 7, 7, 7, 7, 7, 7, 7, 7, 7], 5⟩ : PcmData).data.length
        = 2 * (sample_decoder 131076).get .CHANNELS
          * drained [⟨0, 168, 4, 4, 4, 2, [7, 7, 7, 7, 7, 7, 7, 7], 8⟩,
             ⟨4, 172, 4, 4, 4, 1, [7, 7, 7, 7, 7, 7, 7, 7], 4⟩]
      ∧ ∀ c ∈ [(⟨0, 168, 4, 4, 4, 2, [7, 7, 7, 7, 7, 7, 7, 7], 8⟩ : Cycle),
             ⟨4, 172, 4, 4, 4, 1, [7, 7, 7, 7, 7, 7, 7, 7], 4⟩],
          c.pcm_buffer.length = (sample_decoder 131076).get .AT9_SAMPLE_PER_FRAME
            * (sample_decoder 131076).get .CHANNELS * 2
          ∧ c.samples * (sample_decoder 131076).get .CHANNELS * 2 ≤ c.pcm_buffer.length :=
  load_bgm_pcm_concatenation sample_decoder (sample_decoder 131076) 2
    (sample_asset [4, 0, 2, 0] [2, 0, 0, 0, 1, 0, 0, 0]) ⟨[9, 9, 9, 9, 9, 9], 5⟩
    ⟨.installed, ⟨[7, 7, 7, 7, 7, 7, 7, 7, 7, 7, 7, 7], 5⟩, [7, 7, 7, 7, 7, 7, 7, 7, 7, 7, 7, 7],
      [(168, 4), (172, 4)],
      [⟨0, 168, 4, 4, 4, 2, [7, 7, 7, 7, 7, 7, 7, 7], 8⟩,
       ⟨4, 172, 4, 4, 4, 1, [7, 7, 7, 7, 7, 7, 7, 7], 4⟩]⟩
    (congrArg sample_decoder (by decide : 131076
      = (read_header (sample_asset [4, 0, 2, 0] [2, 0, 0, 0, 1, 0, 0, 0])).config_data))
    (by decide) (by decide) rfl (by decide)

/-! ## Termination of the decode loop -/

/-- Every iteration entered logs one feed: at most `fuel` are added. -/
theorem decode_loop_feeds_length {σ : Type} (dec : Atrac9DecoderState σ) (at9_data : List Nat)
    (esm ds mps : Nat) :
    ∀ (fuel : Nat) (s s' : DecodeState σ) (e : LoopExit),
      decode_loop dec at9_data esm ds mps fuel s = some (e, s') →
      s'.feeds.length ≤ s.feeds.length + fuel := by
  intro fuel
  induction fuel with
  | zero =>
    intro s s' e h
    by_cases hc : s.total_bytes_read < ds
    · simp [decode_loop, hc] at h
    · rw [decode_loop_done _ _ _ _ _ _ _ hc] at h
      cases h; exact Nat.le_refl _
  | succ fuel ih =>
    intro s s' e h
    by_cases hc : s.total_bytes_read < ds
    · rw [decode_loop, if_pos hc] at h
      cases hit : decode_iteration dec at9_data esm ds mps s with
      | error x =>
        rw [hit] at h
        obtain ⟨e1, s1⟩ := x
        cases h
        rw [(decode_iteration_error_log _ _ _ _ _ _ _ _ hit).1, List.length_append]
        simp only [List.length_singleton]; omega
      | ok s1 =>
        rw [hit] at h
        obtain ⟨c, -, -, -, -, -, -, -, -, -, -, hf, -⟩ := decode_iteration_ok _ _ _ _ _ _ _ hit
        have := ih s1 s' e h
        rw [hf, List.length_append] at this
        simp only [List.length_singleton] at this; omega
    · rw [decode_loop_done _ _ _ _ _ _ _ hc] at h
      cases h; omega

/-- A completed iteration, or one that logged a cycle before leaving the
function, had a successful `send` and a successful `receive`. -/
theorem decode_iteration_fed_drained {σ : Type} (dec : Atrac9DecoderState σ)
    (at9_data : List Nat) (esm ds mps : Nat) (s s' : DecodeState σ)
    (x : Except (LoopExit × DecodeState σ) (DecodeState σ))
    (h : decode_iteration dec at9_data esm ds mps s = x)
    (hx : x = .ok s' ∨ ∃ e, x = .error (e, s') ∧ s'.cycles ≠ s.cycles) :
    (dec.send s.decoder
        (bytes_at at9_data s.es_data (min esm (sub32 ds s.total_bytes_read)))).1 = true
      ∧ (dec.receive (dec.send s.decoder
        (bytes_at at9_data s.es_data (min esm (sub32 ds s.total_bytes_read)))).2).1 = true := by
  unfold decode_iteration at h
  dsimp only at h
  split_ifs at h with h1 h2 h3 h4
  · subst h
    rcases hx with hx | ⟨e, hx, hne⟩
    · cases hx
    · cases hx; exact absurd rfl hne
  · subst h
    rcases hx with hx | ⟨e, hx, hne⟩
    · cases hx
    · cases hx; exact absurd rfl hne
  · subst h
    rcases hx with hx | ⟨e, hx, hne⟩
    · cases hx
    · cases hx; exact absurd rfl hne
  · exact ⟨by simpa using h2, by simpa using h3⟩
  · exact ⟨by simpa using h2, by simpa using h3⟩

/-- One more completed iteration after `k` completed iterations. -/
theorem completed_iterations_snoc {σ : Type} (dec : Atrac9DecoderState σ)
    (at9_data : List Nat) (esm ds mps : Nat) :
    ∀ (k : Nat) (s0 s s1 : DecodeState σ),
      completed_iterations dec at9_data esm ds mps k s0 = some s →
      s.total_bytes_read < ds → decode_iteration dec at9_data esm ds mps s = .ok s1 →
      completed_iterations dec at9_data esm ds mps (k + 1) s0 = some s1 := by
  intro k
  induction k with
  | zero =>
    intro s0 s s1 h hc hit
    cases h
    rw [completed_iterations, if_pos hc, hit]
    rfl
  | succ k ih =>
    intro s0 s s1 h hc hit
    rw [completed_iterations] at h
    split_ifs at h with hc0
    cases hit0 : decode_iteration dec at9_data esm ds mps s0 with
    | error e => rw [hit0] at h; cases h
    | ok s2 =>
      rw [hit0] at h
      rw [completed_iterations, if_pos hc0, hit0]
      exact ih s2 s s1 h hc hit

/-- While the 32-bit counter cannot wrap and every iteration of this run whose
`send` and `receive` succeed reports at least one consumed byte, the loop is
left within `data_size - total_bytes_read` iterations. -/
theorem decode_loop_terminates {σ : Type} (dec : Atrac9DecoderState σ) (at9_data : List Nat)
    (esm ds mps : Nat) (hds : ds + 1024 ≤ 2 ^ 32) (hesm1 : 1 ≤ esm) (hesm : esm ≤ 1024)
    (s0 : DecodeState σ)
    (hes : ∀ k s, completed_iterations dec at9_data esm ds mps k s0 = some s →
      (dec.send s.decoder
        (bytes_at at9_data s.es_data (min esm (sub32 ds s.total_bytes_read)))).1 = true →
      (dec.receive (dec.send s.decoder
        (bytes_at at9_data s.es_data (min esm (sub32 ds s.total_bytes_read)))).2).1 = true →
      1 ≤ dec.get_es_size (dec.receive (dec.send s.decoder
        (bytes_at at9_data s.es_data (min esm (sub32 ds s.total_bytes_read)))).2).2.1) :
    ∀ (fuel k : Nat) (s : DecodeState σ),
      completed_iterations dec at9_data esm ds mps k s0 = some s →
      ds - s.total_bytes_read ≤ fuel →
      ∃ x, decode_loop dec at9_data esm ds mps fuel s = some x := by
  intro fuel
  induction fuel with
  | zero =>
    intro k s _ h
    exact ⟨_, decode_loop_done _ _ _ _ _ _ _ (by omega)⟩
  | succ fuel ih =>
    intro k s hk h
    by_cases hc : s.total_bytes_read < ds
    · rw [decode_loop, if_pos hc]
      cases hit : decode_iteration dec at9_data esm ds mps s with
      | error x => exact ⟨x, rfl⟩
      | ok s1 =>
        obtain ⟨c, -, -, hbts, hused, -, -, -, ht, -, -, -, -, -, -, hesz⟩ :=
          decode_iteration_ok _ _ _ _ _ _ _ hit
        obtain ⟨hsend, hrecv⟩ :=
          decode_iteration_fed_drained _ _ _ _ _ _ _ _ hit (Or.inl rfl)
        have h1 : 1 ≤ c.es_size := by rw [hesz, hbts]; exact hes k s hk hsend hrecv
        have hu : s1.total_bytes_read = s.total_bytes_read + c.es_size_used := by
          rw [ht]; exact u32_eq (by omega)
        exact ih (k + 1) s1 (completed_iterations_snoc _ _ _ _ _ k s0 s s1 hk hc hit) (by omega)
    · exact ⟨_, decode_loop_done _ _ _ _ _ _ _ hc⟩

/-- An iteration that leaves the function with `out_of_bounds` either fed from
outside the buffer or sliced more than the scratch buffer holds. -/
theorem decode_iteration_out_of_bounds {σ : Type} (dec : Atrac9DecoderState σ)
    (at9_data : List Nat) (esm ds mps : Nat) (s s' : DecodeState σ)
    (h : decode_iteration dec at9_data esm ds mps s = .error (.out_of_bounds, s')) :
    at9_data.length < s.es_data + min esm (sub32 ds s.total_bytes_read)
      ∨ ∃ c ∈ s'.cycles, c.pcm_buffer.length < c.pcm_size_given := by
  unfold decode_iteration at h
  dsimp only at h
  split_ifs at h with h1 h2 h3 h4
  · exact Or.inl h1
  · cases h
  · cases h
  · cases h
    exact Or.inr ⟨_, List.mem_append_right _ (List.mem_singleton_self _), h4⟩

/-- Whenever the loop returns, so does `load_bgm`, with the logs of the loop. -/
theorem load_bgm_of_loop {σ : Type} (Atrac9 : Nat → Atrac9DecoderState σ) (fuel : Nat)
    (at9_data : List Nat) (pcm_data : PcmData) (e : LoopExit) (s : DecodeState σ)
    (hlen : ¬ at9_data.length < sizeof_At9Header)
    (hloop : decode_loop (Atrac9 (read_header at9_data).config_data) at9_data
      (es_size_max (Atrac9 (read_header at9_data).config_data)) (data_size at9_data)
      (max_pcm_size (Atrac9 (read_header at9_data).config_data)) fuel
      (decode_start (Atrac9 (read_header at9_data).config_data)) = some (e, s)) :
    ∃ r, load_bgm Atrac9 fuel at9_data pcm_data = some r
      ∧ r.feeds = s.feeds ∧ r.cycles = s.cycles
      ∧ (r.result = .out_of_bounds → e = .out_of_bounds) := by
  unfold load_bgm
  rw [if_neg hlen]
  dsimp only
  rw [hloop]
  cases e with
  | finished =>
    dsimp only
    split
    · exact ⟨_, rfl, rfl, rfl, fun h => by cases h⟩
    · exact ⟨_, rfl, rfl, rfl, fun h => by cases h⟩
  | out_of_bounds => exact ⟨_, rfl, rfl, rfl, fun _ => rfl⟩
  | decode_error o b => exact ⟨_, rfl, rfl, rfl, fun h => by cases h⟩

/-- With a reported consumed byte count of 0 the loop never ends. -/
theorem stalled_loop (at9_data : List Nat) (hN : at9_data.length = 172) :
    ∀ (fuel : Nat) (s : DecodeState Nat), s.total_bytes_read = 0 → s.es_data = 168 →
      decode_loop stalled_decoder at9_data (es_size_max stalled_decoder) (data_size at9_data)
        (max_pcm_size stalled_decoder) fuel s = none := by
  have hds : data_size at9_data = 4 := by
    unfold data_size u32 sub32 data_start; rw [hN]; decide
  have hesm : es_size_max stalled_decoder = 4 := by decide
  intro fuel
  induction fuel with
  | zero =>
    intro s ht _
    rw [decode_loop, if_pos (by rw [ht, hds]; decide)]
  | succ fuel ih =>
    intro s ht hes
    have hb : min (es_size_max stalled_decoder) (sub32 (data_size at9_data) s.total_bytes_read)
        = 4 := by rw [hds, hesm, ht]; decide
    obtain ⟨s1, hit⟩ := decode_iteration_succeeds stalled_decoder at9_data
      (es_size_max stalled_decoder) (data_size at9_data) (max_pcm_size stalled_decoder) s
      (by rw [hb, hN, hes]) rfl rfl
      (by
        have h0 : ∀ x, stalled_decoder.samples x = 0 := fun _ => rfl
        rw [h0]; decide)
    obtain ⟨c, -, -, -, hused, -, -, -, ht1, hes1, -, -, -, -, -, hesz⟩ :=
      decode_iteration_ok _ _ _ _ _ _ _ hit
    have hz : ∀ x, stalled_decoder.get_es_size x = 0 := fun _ => rfl
    rw [hz] at hesz
    have hu : c.es_size_used = 0 := by rw [hused, hesz]; exact Nat.zero_min _
    rw [decode_loop, if_pos (by rw [ht, hds]; decide), hit]
    exact ih s1 (by rw [ht1, ht, hu]; rfl) (by rw [hes1, hes, hu])


/-- The loop with no iteration left. -/
theorem decode_loop_zero {σ : Type} (dec : Atrac9DecoderState σ) (at9_data : List Nat)
    (esm ds mps : Nat) (s : DecodeState σ) (hc : s.total_bytes_read < ds) :
    decode_loop dec at9_data esm ds mps 0 s = none := by
  rw [decode_loop, if_pos hc]

/-- One completed iteration of the loop. -/
theorem decode_loop_succ {σ : Type} (dec : Atrac9DecoderState σ) (at9_data : List Nat)
    (esm ds mps fuel : Nat) (s s1 : DecodeState σ) (hc : s.total_bytes_read < ds)
    (hit : decode_iteration dec at9_data esm ds mps s = .ok s1) :
    decode_loop dec at9_data esm ds mps (fuel + 1) s
      = decode_loop dec at9_data esm ds mps fuel s1 := by
  rw [decode_loop, if_pos hc, hit]

/-- When the loop does not end within the bound, neither does `load_bgm`. -/
theorem load_bgm_of_loop_none {σ : Type} (Atrac9 : Nat → Atrac9DecoderState σ) (fuel : Nat)
    (at9_data : List Nat) (pcm_data : PcmData)
    (hlen : ¬ at9_data.length < sizeof_At9Header)
    (hloop : decode_loop (Atrac9 (read_header at9_data).config_data) at9_data
      (es_size_max (Atrac9 (read_header at9_data).config_data)) (data_size at9_data)
      (max_pcm_size (Atrac9 (read_header at9_data).config_data)) fuel
      (decode_start (Atrac9 (read_header at9_data).config_data)) = none) :
    load_bgm Atrac9 fuel at9_data pcm_data = none := by
  unfold load_bgm
  rw [if_neg hlen]
  dsimp only
  rw [hloop]

/-- The decoder state after a completed iteration. -/
theorem decode_iteration_ok_decoder {σ : Type} (dec : Atrac9DecoderState σ)
    (at9_data : List Nat) (esm ds mps : Nat) (s s' : DecodeState σ)
    (h : decode_iteration dec at9_data esm ds mps s = .ok s') :
    s'.decoder = (dec.receive (dec.send s.decoder
      (bytes_at at9_data s.es_data (min esm (sub32 ds s.total_bytes_read)))).2).2.1 := by
  unfold decode_iteration at h
  dsimp only at h
  split_ifs at h with h1 h2 h3 h4
  cases h
  rfl

/-- On a buffer of `2^32 - 1` bytes the creeping decoder completes one-byte
iterations as long as fewer than `2^32 - 170` bytes are consumed. -/
theorem creeping_iterations (at9_data : List Nat) (hN : at9_data.length = 2 ^ 32 - 1) :
    ∀ (k j : Nat) (s : DecodeState Nat), s.total_bytes_read = j → s.es_data = 168 + j →
      s.decoder = j → j + k ≤ 2 ^ 32 - 170 →
      ∃ s', completed_iterations creeping_decoder at9_data (es_size_max creeping_decoder)
          (data_size at9_data) (max_pcm_size creeping_decoder) k s = some s'
        ∧ s'.total_bytes_read = j + k ∧ s'.es_data = 168 + (j + k) ∧ s'.decoder = j + k := by
  have hds : data_size at9_data = 2 ^ 32 - 169 := by
    unfold data_size u32 sub32 data_start; rw [hN]; decide
  have hesm : es_size_max creeping_decoder = 1024 := by decide
  intro k
  induction k with
  | zero => intro j s ht hes hd _; exact ⟨s, rfl, ht, hes, hd⟩
  | succ k ih =>
    intro j s ht hes hd hj
    have hsub : sub32 (data_size at9_data) s.total_bytes_read = 2 ^ 32 - 169 - j := by
      rw [hds, ht]; exact sub32_eq (by omega) (by omega)
    have hb : min (es_size_max creeping_decoder)
        (sub32 (data_size at9_data) s.total_bytes_read) ≤ 2 ^ 32 - 169 - j := by
      rw [hsub]; exact Nat.min_le_right _ _
    obtain ⟨s1, hit⟩ := decode_iteration_succeeds creeping_decoder at9_data
      (es_size_max creeping_decoder) (data_size at9_data) (max_pcm_size creeping_decoder) s
      (by rw [hN, hes]; omega) rfl rfl
      (by
        have h0 : ∀ x, creeping_decoder.samples x = 0 := fun _ => rfl
        rw [h0]; decide)
    obtain ⟨c, -, -, -, hused, -, -, -, ht1, hes1, -, -, -, -, -, hesz⟩ :=
      decode_iteration_ok _ _ _ _ _ _ _ hit
    have hd1 := decode_iteration_ok_decoder _ _ _ _ _ _ _ hit
    have hstate : ∀ d chunk,
        (creeping_decoder.receive (creeping_decoder.send d chunk).2).2.1 = d + 1 :=
      fun _ _ => rfl
    rw [hstate, hd] at hesz hd1
    have hone : creeping_decoder.get_es_size (j + 1) = 1 := by
      show u32 (if j + 1 = 2 ^ 32 - 169 then 1024 else 1) = 1
      rw [if_neg (by omega)]; rfl
    have hu : c.es_size_used = 1 := by rw [hused, hesz, hone, hesm]; rfl
    rw [completed_iterations, if_pos (by rw [ht, hds]; omega), hit]
    obtain ⟨s', hk, h1, h2, h3⟩ := ih (j + 1) s1
      (by rw [ht1, ht, hu]; exact u32_eq (by omega)) (by rw [hes1, hes, hu]; omega) hd1
      (by omega)
    exact ⟨s', hk, by omega, by omega, by omega⟩

/-- On a buffer of `2^32 - 1` bytes the loop with the creeping decoder has not
ended after `2^32 - 169` iterations: the last of them makes the 32-bit counter
wrap to 854. -/
theorem creeping_load (at9_data : List Nat) (pcm_data : PcmData)
    (hN : at9_data.length = 2 ^ 32 - 1) :
    load_bgm (fun _ => creeping_decoder) (2 ^ 32 - 1 - 168) at9_data pcm_data = none := by
  have hds : data_size at9_data = 2 ^ 32 - 169 := by
    unfold data_size u32 sub32 data_start; rw [hN]; decide
  have hesm : es_size_max creeping_decoder = 1024 := by decide
  obtain ⟨s, hk, ht, hes, hd⟩ := creeping_iterations at9_data hN (2 ^ 32 - 170) 0
    (decode_start creeping_decoder) rfl rfl rfl (by omega)
  rw [Nat.zero_add] at ht hes hd
  have hafter := decode_loop_after_iterations creeping_decoder at9_data
    (es_size_max creeping_decoder) (data_size at9_data) (max_pcm_size creeping_decoder)
    (2 ^ 32 - 170) 1 _ s hk
  have hsub : sub32 (data_size at9_data) s.total_bytes_read = 1 := by
    rw [hds, ht]; decide
  have hb : min (es_size_max creeping_decoder)
      (sub32 (data_size at9_data) s.total_bytes_read) = 1 := by
    rw [hsub, hesm]; decide
  obtain ⟨s1, hit⟩ := decode_iteration_succeeds creeping_decoder at9_data
    (es_size_max creeping_decoder) (data_size at9_data) (max_pcm_size creeping_decoder) s
    (by rw [hb, hN, hes]; decide) rfl rfl
    (by
      have h0 : ∀ x, creeping_decoder.samples x = 0 := fun _ => rfl
      rw [h0]; decide)
  obtain ⟨c, -, -, -, hused, -, -, -, ht1, -, -, -, -, -, -, hesz⟩ :=
    decode_iteration_ok _ _ _ _ _ _ _ hit
  have hstate : ∀ d chunk,
      (creeping_decoder.receive (creeping_decoder.send d chunk).2).2.1 = d + 1 :=
    fun _ _ => rfl
  rw [hstate, hd] at hesz
  have hbig : creeping_decoder.get_es_size (2 ^ 32 - 170 + 1) = 1024 := by decide
  have hu : c.es_size_used = 1024 := by rw [hused, hesz, hbig, hesm]; rfl
  have hloop : decode_loop creeping_decoder at9_data (es_size_max creeping_decoder)
      (data_size at9_data) (max_pcm_size creeping_decoder) (2 ^ 32 - 170 + 1)
      (decode_start creeping_decoder) = none := by
    rw [hafter, decode_loop_succ _ _ _ _ _ 0 s s1 (by rw [ht, hds]; decide) hit]
    exact decode_loop_zero _ _ _ _ _ s1 (by rw [ht1, ht, hu, hds]; decide)
  have hlen : ¬ at9_data.length < sizeof_At9Header := by rw [hN]; decide
  have hfuel : 2 ^ 32 - 1 - 168 = 2 ^ 32 - 170 + 1 := by decide
  exact load_bgm_of_loop_none (fun _ => creeping_decoder) _ at9_data pcm_data hlen
    (hfuel ▸ hloop)

/-- C18 as stated fails for buffers close to `2^32` bytes: with `N = 2^32 - 1`, a
super-frame size of 1024 and a consumed byte count that is always at least 1
(1 in every iteration but the last, 1024 in iteration `N - 168`), the 32-bit
`total_bytes_read` wraps from `2^32 - 170 + 1024` to 854, so the loop
condition still holds after `N - 168` iterations. -/
theorem load_bgm_termination_counterexample :
    (List.replicate (2 ^ 32 - 1) 0).length = 2 ^ 32 - 1
      ∧ 168 ≤ 2 ^ 32 - 1
      ∧ 1 ≤ creeping_decoder.get .AT9_SUPERFRAME_SIZE
      ∧ (∀ s, 1 ≤ creeping_decoder.get_es_size s)
      ∧ load_bgm (fun _ => creeping_decoder) (2 ^ 32 - 1 - 168) (List.replicate (2 ^ 32 - 1) 0)
          ⟨[], 0⟩ = none := by
  refine ⟨List.length_replicate _ _, by decide, by decide, ?_,
    creeping_load _ _ (List.length_replicate _ _)⟩
  intro s
  show 1 ≤ u32 (if s = 2 ^ 32 - 169 then 1024 else 1)
  split_ifs <;> decide

/-- C18 amended. Termination of the decode loop: for every buffer of
`168 <= N <= 2^32 - 1024` bytes and every decoder whose super-frame size is at
least 1 and whose reported consumed byte count after each successful feed/drain
is at least 1, `load_bgm` returns within `N - 168` iterations of the loop (and
gives the same report with any larger bound): every completed iteration
consumes at least one byte, no feed leaves the buffer, and the only possible
`out_of_bounds` exit is a slice larger than the scratch buffer. The condition
on the consumed byte count is asked only of the feed/drain pairs this decode
makes, and only when both `send` and `receive` succeed: `s` is the loop state
after `k` completed iterations and the chunk is the one the loop feeds there.
The condition is needed: with a decoder reporting 0 consumed bytes the loop
does not end within any bound. -/
theorem load_bgm_terminates {σ : Type} (Atrac9 : Nat → Atrac9DecoderState σ)
    (dec : Atrac9DecoderState σ) (at9_data : List Nat) (pcm_data : PcmData)
    (hdec : dec = Atrac9 (read_header at9_data).config_data)
    (hN : 168 ≤ at9_data.length) (h32 : at9_data.length + 1024 ≤ 2 ^ 32)
    (hsf : 1 ≤ dec.get .AT9_SUPERFRAME_SIZE)
    (hes : ∀ k s, completed_iterations dec at9_data (es_size_max dec) (data_size at9_data)
        (max_pcm_size dec) k (decode_start dec) = some s →
      (dec.send s.decoder (bytes_at at9_data s.es_data
        (min (es_size_max dec) (sub32 (data_size at9_data) s.total_bytes_read)))).1 = true →
      (dec.receive (dec.send s.decoder (bytes_at at9_data s.es_data
        (min (es_size_max dec) (sub32 (data_size at9_data) s.total_bytes_read)))).2).1 = true →
      1 ≤ dec.get_es_size (dec.receive (dec.send s.decoder (bytes_at at9_data s.es_data
        (min (es_size_max dec) (sub32 (data_size at9_data) s.total_bytes_read)))).2).2.1) :
    (∃ r, load_bgm Atrac9 (at9_data.length - 168) at9_data pcm_data = some r
        ∧ r.feeds.length ≤ at9_data.length - 168
        ∧ (∀ c ∈ r.cycles, 1 ≤ c.es_size_used)
        ∧ (r.result = .out_of_bounds → ∃ c ∈ r.cycles, c.pcm_buffer.length < c.pcm_size_given)
        ∧ ∀ k, load_bgm Atrac9 (at9_data.length - 168 + k) at9_data pcm_data = some r)
      ∧ ∀ fuel, load_bgm (fun _ => stalled_decoder) fuel (sample_asset [0, 0, 0, 0] [0, 0, 0, 0])
          pcm_data = none := by
  subst hdec
  generalize hd : Atrac9 (read_header at9_data).config_data = dec at *
  have hds : data_size at9_data = at9_data.length - 168 := data_size_eq hN (by omega)
  rw [hds] at hes
  have hesm : es_size_max dec ≤ 1024 := es_size_max_le dec
  have hesm1 : 1 ≤ es_size_max dec := by unfold es_size_max; omega
  have hlen : ¬ at9_data.length < sizeof_At9Header := by
    have : sizeof_At9Header = 68 := rfl
    omega
  constructor
  · obtain ⟨⟨e, s⟩, hloop⟩ := decode_loop_terminates dec at9_data (es_size_max dec)
      (at9_data.length - 168) (max_pcm_size dec) (by omega) hesm1 hesm (decode_start dec) hes
      (at9_data.length - 168) 0 (decode_start dec) rfl (Nat.sub_le _ _)
    obtain ⟨r, hr, hf, hc, hoob⟩ := load_bgm_of_loop Atrac9 (at9_data.length - 168) at9_data
      pcm_data e s hlen (by rw [hd, hds]; exact hloop)
    have hfl := decode_loop_feeds_length _ _ _ _ _ _ _ _ _ hloop
    have key := decode_loop_exit dec at9_data (es_size_max dec) (at9_data.length - 168)
      (max_pcm_size dec)
      (fun s => ((s.es_data = data_start + s.total_bytes_read
          ∧ (∀ f ∈ s.feeds, ∃ b, b < at9_data.length - 168 ∧ f.1 = 168 + b
              ∧ f.2 = min (es_size_max dec) (at9_data.length - 168 - b))
          ∧ ∀ c ∈ s.cycles, c.offset < at9_data.length - 168 ∧ c.es_data = 168 + c.offset
              ∧ c.bytes_to_send = min (es_size_max dec) (at9_data.length - 168 - c.offset))
        ∧ ∀ c ∈ s.cycles, 1 ≤ c.es_size_used)
        ∧ ∃ k, completed_iterations dec at9_data (es_size_max dec) (at9_data.length - 168)
            (max_pcm_size dec) k (decode_start dec) = some s)
      (fun e s => (e = .out_of_bounds → ∃ c ∈ s.cycles, c.pcm_buffer.length < c.pcm_size_given)
        ∧ ∀ c ∈ s.cycles, 1 ≤ c.es_size_used)
      ?_ ?_ ?_ (at9_data.length - 168) (decode_start dec) s e
      ⟨⟨⟨rfl, fun f hf => (by cases hf), fun c hc => (by cases hc)⟩, fun c hc => (by cases hc)⟩,
        0, rfl⟩
      hloop
    · refine ⟨r, hr, ?_, ?_, ?_, load_bgm_mono Atrac9 _ at9_data pcm_data r hr⟩
      · rw [hf]
        have h0 : (decode_start dec).feeds.length = 0 := rfl
        omega
      · rw [hc]; exact key.2
      · intro hres
        rw [hc]; exact key.1 (hoob hres)
    · intro s1 s2 hlt ⟨⟨hP, hused⟩, k, hk⟩ hit
      refine ⟨⟨decode_iteration_feeds dec at9_data _ _ hN h32 hesm s1 s2 hlt hP hit, ?_⟩,
        k + 1, completed_iterations_snoc _ _ _ _ _ k _ s1 s2 hk hlt hit⟩
      obtain ⟨c, -, -, hbts, hu, -, -, -, -, -, -, -, hcyc, -, -, hesz⟩ :=
        decode_iteration_ok _ _ _ _ _ _ _ hit
      obtain ⟨hsend, hrecv⟩ := decode_iteration_fed_drained _ _ _ _ _ _ _ _ hit (Or.inl rfl)
      intro c' hc'
      rw [hcyc, List.mem_append, List.mem_singleton] at hc'
      rcases hc' with hc' | rfl
      · exact hused c' hc'
      · have := hes k s1 hk hsend hrecv
        rw [hu, hesz, hbts]; omega
    · intro s1 e1 s2 hlt ⟨⟨hP, hused⟩, k, hk⟩ hit
      obtain ⟨_, hcyc⟩ := decode_iteration_error_log _ _ _ _ _ _ _ _ hit
      refine ⟨?_, ?_⟩
      · intro he
        subst he
        rcases decode_iteration_out_of_bounds _ _ _ _ _ _ _ hit with hfeed | hslice
        · have hsub : sub32 (at9_data.length - 168) s1.total_bytes_read
              = at9_data.length - 168 - s1.total_bytes_read := sub32_eq (by omega) (by omega)
          have hst : s1.es_data = 168 + s1.total_bytes_read := hP.1
          rw [hsub, hst] at hfeed
          omega
        · exact hslice
      · rcases hcyc with hcyc | ⟨c, hcyc, -, -, hbts, hu, hesz⟩
        · rw [hcyc]; exact hused
        · have hne : s2.cycles ≠ s1.cycles := by
            rw [hcyc]; intro heq
            have := congrArg List.length heq
            rw [List.length_append] at this
            simp only [List.length_singleton] at this
            omega
          obtain ⟨hsend, hrecv⟩ :=
            decode_iteration_fed_drained _ _ _ _ _ _ _ _ hit (Or.inr ⟨e1, rfl, hne⟩)
          intro c' hc'
          rw [hcyc, List.mem_append, List.mem_singleton] at hc'
          rcases hc' with hc' | rfl
          · exact hused c' hc'
          · have := hes k s1 hk hsend hrecv
            rw [hu, hesz, hbts]; omega
    · intro s1 ⟨⟨_, hused⟩, _⟩
      exact ⟨fun he => (by cases he), hused⟩
  · intro fuel
    have hN4 : (sample_asset [0, 0, 0, 0] [0, 0, 0, 0]).length = 172 := by decide
    exact load_bgm_of_loop_none (fun _ => stalled_decoder) fuel _ pcm_data
      (by rw [hN4]; decide)
      (stalled_loop _ hN4 fuel (decode_start stalled_decoder) rfl rfl)

/-- C18 amended, at a concrete input: a payload of 6 bytes with super-frames of
4 bytes, decoded by the sixth sample decoder, which reports 0 consumed bytes
before its first frame and 4 after each feed/drain, ends within 6 iterations. -/
theorem load_bgm_terminates_witness :
    fresh_decoder.get_es_size fresh_decoder.init = 0
      ∧ (∃ r, load_bgm (fun _ => fresh_decoder)
            ((sample_asset [4, 0, 2, 0] [2, 0, 0, 0, 1, 0]).length - 168)
            (sample_asset [4, 0, 2, 0] [2, 0, 0, 0, 1, 0]) ⟨[9, 9, 9, 9, 9, 9], 5⟩ = some r
          ∧ r.feeds.length ≤ (sample_asset [4, 0, 2, 0] [2, 0, 0, 0, 1, 0]).length - 168
          ∧ (∀ c ∈ r.cycles, 1 ≤ c.es_size_used)
          ∧ (r.result = .out_of_bounds →
              ∃ c ∈ r.cycles, c.pcm_buffer.length < c.pcm_size_given)
          ∧ ∀ k, load_bgm (fun _ => fresh_decoder)
              ((sample_asset [4, 0, 2, 0] [2, 0, 0, 0, 1, 0]).length - 168 + k)
              (sample_asset [4, 0, 2, 0] [2, 0, 0, 0, 1, 0]) ⟨[9, 9, 9, 9, 9, 9], 5⟩ = some r) :=
  ⟨by decide,
    (load_bgm_terminates (fun _ => fresh_decoder) fresh_decoder
      (sample_asset [4, 0, 2, 0] [2, 0, 0, 0, 1, 0]) ⟨[9, 9, 9, 9, 9, 9], 5⟩
      rfl (by decide) (by decide) (by decide)
      (fun _ s _ _ _ => (by
        show 1 ≤ u32 (if s.decoder + 1 = 0 then 0 else 4)
        rw [if_neg (Nat.succ_ne_zero _)]
        decide))).1⟩

/-! ## Theme colour conversion -/

theorem hex_digit_lt {c : Char} {d : Nat} (h : hex_digit c = some d) : d < 16 := by
  unfold hex_digit at h
  split_ifs at h <;> cases h <;> omega

/-- The mask of one byte at bit `k`, in terms of shifts. -/
theorem and_shifted_mask (c k : Nat) : c &&& (255 <<< k) = ((c >>> k) &&& 255) <<< k := by
  apply Nat.eq_of_testBit_eq
  intro i
  simp only [Nat.testBit_and, Nat.testBit_shiftLeft, Nat.testBit_shiftRight]
  by_cases h : k ≤ i
  · simp [h, Nat.add_sub_cancel' h]
  · simp [h]

/-- Four bytes at distinct positions: their bitwise or is their sum. -/
theorem bytes_or (a b g r : Nat) (hb : b < 256) (hg : g < 256) (hr : r < 256) :
    (a * 2 ^ 24 ||| g * 2 ^ 8) ||| r ||| b * 2 ^ 16
      = a * 2 ^ 24 + b * 2 ^ 16 + g * 2 ^ 8 + r := by
  have h1 : g * 2 ^ 8 ||| r = g * 2 ^ 8 + r := by
    rw [Nat.mul_comm g, Nat.mul_add_lt_is_or (by omega)]
  have h2 : b * 2 ^ 16 ||| (g * 2 ^ 8 + r) = b * 2 ^ 16 + (g * 2 ^ 8 + r) := by
    rw [Nat.mul_comm b, Nat.mul_add_lt_is_or (by omega)]
  have h3 : a * 2 ^ 24 ||| (b * 2 ^ 16 + (g * 2 ^ 8 + r))
      = a * 2 ^ 24 + (b * 2 ^ 16 + (g * 2 ^ 8 + r)) := by
    rw [Nat.mul_comm a, Nat.mul_add_lt_is_or (by omega)]
  have h4 : (a * 2 ^ 24 ||| g * 2 ^ 8) ||| r ||| b * 2 ^ 16
      = a * 2 ^ 24 ||| (b * 2 ^ 16 ||| (g * 2 ^ 8 ||| r)) := by ac_rfl
  rw [h4, h1, h2, h3]; omega

/-- The return expression of `convert_hex_color` on a colour `0xFFRRGGBB`. -/
theorem swap_red_blue (c rr gg bb : Nat) (hr : rr < 256) (hg : gg < 256) (hb : bb < 256)
    (hc : c = 0xFF000000 + rr * 65536 + gg * 256 + bb) :
    (c &&& 0xFF00FF00) ||| ((c &&& 0x00FF0000) >>> 16) ||| u32 ((c &&& 0x000000FF) <<< 16)
      = 0xFF000000 ||| (bb <<< 16) ||| (gg <<< 8) ||| rr := by
  have m1 : (0xFF00FF00 : Nat) = 255 <<< 24 ||| 255 <<< 8 := by decide
  have m2 : (0x00FF0000 : Nat) = 255 <<< 16 := by decide
  have m3 : (0x000000FF : Nat) = 2 ^ 8 - 1 := by decide
  have m4 : (255 : Nat) = 2 ^ 8 - 1 := by decide
  have e1 : c &&& 0xFF00FF00
      = ((c / 2 ^ 24) % 256) * 2 ^ 24 ||| ((c / 2 ^ 8) % 256) * 2 ^ 8 := by
    rw [m1, Nat.and_or_distrib_left, and_shifted_mask, and_shifted_mask]
    simp only [Nat.shiftLeft_eq, Nat.shiftRight_eq_div_pow]
    rw [m4, Nat.and_pow_two_sub_one_eq_mod, Nat.and_pow_two_sub_one_eq_mod]
  have e2 : (c &&& 0x00FF0000) >>> 16 = (c / 2 ^ 16) % 256 := by
    rw [m2, and_shifted_mask]
    simp only [Nat.shiftLeft_eq, Nat.shiftRight_eq_div_pow]
    rw [m4, Nat.and_pow_two_sub_one_eq_mod, Nat.mul_div_cancel _ (by norm_num)]
  have e3 : u32 ((c &&& 0x000000FF) <<< 16) = (c % 256) * 2 ^ 16 := by
    unfold u32
    rw [m3, Nat.and_pow_two_sub_one_eq_mod, Nat.shiftLeft_eq]
    omega
  have t : 0xFF000000 ||| (bb <<< 16) ||| (gg <<< 8) ||| rr
      = (255 * 2 ^ 24 ||| gg * 2 ^ 8) ||| rr ||| bb * 2 ^ 16 := by
    simp only [Nat.shiftLeft_eq]
    rw [show (0xFF000000 : Nat) = 255 * 2 ^ 24 by decide]
    ac_rfl
  rw [e1, e2, e3, t, bytes_or _ _ _ _ (Nat.mod_lt _ (by norm_num)) (Nat.mod_lt _ (by norm_num))
    (Nat.mod_lt _ (by norm_num)), bytes_or _ _ _ _ hb hg hr]
  subst hc
  omega

/-- C19. Theme colour conversion: for every string that ends in six hexadecimal
digits `RRGGBB`, whatever precedes them, the string scanned is `ffRRGGBB`, the
colour read is `0xFFRRGGBB` and `convert_hex_color` returns
`0xFF000000 | (BB << 16) | (GG << 8) | RR`: alpha `0xFF`, green in place, red
and blue swapped. -/
theorem convert_hex_color_swaps_red_blue (pre : List Char) (c1 c2 c3 c4 c5 c6 : Char)
    (r1 r2 g1 g2 b1 b2 : Nat)
    (h1 : hex_digit c1 = some r1) (h2 : hex_digit c2 = some r2)
    (h3 : hex_digit c3 = some g1) (h4 : hex_digit c4 = some g2)
    (h5 : hex_digit c5 = some b1) (h6 : hex_digit c6 = some b2) :
    convert_hex_color (pre ++ [c1, c2, c3, c4, c5, c6])
        = some (0xFF000000 ||| ((16 * b1 + b2) <<< 16) ||| ((16 * g1 + g2) <<< 8)
            ||| (16 * r1 + r2))
      ∧ sscanf_x ['f', 'f', c1, c2, c3, c4, c5, c6]
        = some (0xFF000000 + (16 * r1 + r2) * 65536 + (16 * g1 + g2) * 256 + (16 * b1 + b2))
      ∧ 16 * r1 + r2 < 256 ∧ 16 * g1 + g2 < 256 ∧ 16 * b1 + b2 < 256 := by
  have l1 := hex_digit_lt h1
  have l2 := hex_digit_lt h2
  have l3 := hex_digit_lt h3
  have l4 := hex_digit_lt h4
  have l5 := hex_digit_lt h5
  have l6 := hex_digit_lt h6
  have hf : hex_digit 'f' = some 15 := by decide
  have hrun : hex_run ['f', 'f', c1, c2, c3, c4, c5, c6]
      = [15, 15, r1, r2, g1, g2, b1, b2] := by
    simp [hex_run, hf, h1, h2, h3, h4, h5, h6]
  have hval : hex_value [15, 15, r1, r2, g1, g2, b1, b2]
      = 0xFF000000 + (16 * r1 + r2) * 65536 + (16 * g1 + g2) * 256 + (16 * b1 + b2) := by
    simp only [hex_value, List.foldl]
    omega
  have hscan : sscanf_x ['f', 'f', c1, c2, c3, c4, c5, c6]
      = some (0xFF000000 + (16 * r1 + r2) * 65536 + (16 * g1 + g2) * 256 + (16 * b1 + b2)) := by
    unfold sscanf_x
    rw [hrun, if_neg (by simp), hval, u32_eq (by omega)]
  refine ⟨?_, hscan, by omega, by omega, by omega⟩
  have hlen : ¬ (pre ++ [c1, c2, c3, c4, c5, c6]).length < 6 := by simp
  have hsub : ((pre ++ [c1, c2, c3, c4, c5, c6]).drop
      ((pre ++ [c1, c2, c3, c4, c5, c6]).length - 6)).take 6 = [c1, c2, c3, c4, c5, c6] := by
    simp
  unfold convert_hex_color
  rw [if_neg hlen]
  dsimp only
  rw [hsub]
  show (match sscanf_x ['f', 'f', c1, c2, c3, c4, c5, c6] with
    | none => none
    | some color => some ((color &&& 0xFF00FF00) ||| ((color &&& 0x00FF0000) >>> 16)
        ||| u32 ((color &&& 0x000000FF) <<< 16))) = _
  rw [hscan]
  dsimp only
  rw [swap_red_blue _ (16 * r1 + r2) (16 * g1 + g2) (16 * b1 + b2) (by omega) (by omega)
    (by omega) rfl]

/-- C19, at a concrete input: `#FF8000` (red `0xFF`, green `0x80`, blue `0x00`)
gives `0xFF0080FF`. -/
theorem convert_hex_color_swaps_red_blue_witness :
    convert_hex_color (['#'] ++ ['F', 'F', '8', '0', '0', '0'])
        = some (0xFF000000 ||| ((16 * 0 + 0) <<< 16) ||| ((16 * 8 + 0) <<< 8) ||| (16 * 15 + 15))
      ∧ sscanf_x ['f', 'f', 'F', 'F', '8', '0', '0', '0']
        = some (0xFF000000 + (16 * 15 + 15) * 65536 + (16 * 8 + 0) * 256 + (16 * 0 + 0))
      ∧ 16 * 15 + 15 < 256 ∧ 16 * 8 + 0 < 256 ∧ 16 * 0 + 0 < 256 :=
  convert_hex_color_swaps_red_blue ['#'] 'F' 'F' '8' '0' '0' '0' 15 15 8 0 0 0
    (by decide) (by decide) (by decide) (by decide) (by decide) (by decide)

/-! ## The playback controller -/

/-- The function `set_volume_bgm` leaves the controller as it is. -/
theorem set_volume_bgm_fst (v : Nat) (c : Controller) : (set_volume_bgm v c).1 = c := by
  unfold set_volume_bgm; split_ifs <;> rfl

/-- Every call that returns leaves `stop_requested` false when it was false. -/
theorem apply_controller_op_stop_requested (op : ControllerOp) (c c1 : Controller)
    (h0 : c.stop_requested = false) (h : apply_controller_op op c = some c1) :
    c1.stop_requested = false := by
  cases op with
  | init ok1 ok2 vol =>
    simp only [apply_controller_op, Option.map_eq_some'] at h
    obtain ⟨r, hr, rfl⟩ := h
    unfold init_player_bgm at hr
    simp only [set_volume_bgm_fst] at hr
    split_ifs at hr <;> cases hr <;> exact h0
  | stop =>
    cases h
    unfold stop_bgm
    split_ifs
    · exact h0
    · rfl
  | switch_state pause =>
    cases h
    unfold switch_state_bgm
    split_ifs <;> exact h0
  | set_volume volume =>
    cases h
    unfold set_volume_bgm
    split_ifs <;> exact h0

/-- Between calls `stop_requested` is false. -/
theorem run_controller_stop_requested :
    ∀ (ops : List ControllerOp) (c c1 : Controller), c.stop_requested = false →
      run_controller ops c = some c1 → c1.stop_requested = false := by
  intro ops
  induction ops with
  | nil => intro c c1 h0 h; cases h; exact h0
  | cons op ops ih =>
    intro c c1 h0 h
    rw [run_controller] at h
    cases hop : apply_controller_op op c with
    | none => rw [hop] at h; cases h
    | some c2 =>
      rw [hop] at h
      exact ih c2 c1 (apply_controller_op_stop_requested op c c2 h0 hop) h

/-- C11. `stop_bgm` is idempotent: for every controller state, a second
`stop_bgm` right after a first one changes nothing and makes no call at all (no
flag set, no notification, no join, no stream stopped or destroyed), as does
any `stop_bgm` on a controller whose stream is null; after `stop_bgm` the
stream handle is null, and in every state the controller reaches through its
calls `stop_requested` is false afterwards. -/
theorem stop_bgm_idempotent (ops : List ControllerOp) (c : Controller)
    (hreach : run_controller ops controller_initial = some c) :
    (∀ c1 : Controller,
        stop_bgm (stop_bgm c1).1 = ((stop_bgm c1).1, [])
        ∧ (c1.stream = .null → stop_bgm c1 = (c1, []))
        ∧ (stop_bgm c1).1.stream = .null
        ∧ (c1.stream ≠ .null → (stop_bgm c1).1.stop_requested = false))
      ∧ (stop_bgm c).1.stream = .null
      ∧ (stop_bgm c).1.stop_requested = false := by
  have hnull : ∀ c1 : Controller, c1.stream = .null → stop_bgm c1 = (c1, []) := by
    intro c1 h; unfold stop_bgm; rw [if_pos h]
  have hstream : ∀ c1 : Controller, (stop_bgm c1).1.stream = .null := by
    intro c1
    by_cases h : c1.stream = .null
    · rw [hnull c1 h]; exact h
    · unfold stop_bgm; rw [if_neg h]
  have hflag : ∀ c1 : Controller, c1.stream ≠ .null → (stop_bgm c1).1.stop_requested = false := by
    intro c1 h; unfold stop_bgm; rw [if_neg h]
  refine ⟨fun c1 => ⟨hnull _ (hstream c1), hnull c1, hstream c1, hflag c1⟩, hstream c, ?_⟩
  have h0 : c.stop_requested = false :=
    run_controller_stop_requested ops controller_initial c rfl hreach
  by_cases h : c.stream = .null
  · rw [hnull c h]; exact h0
  · exact hflag c h

/-- C11, at a concrete input: the controller after a successful
`init_player_bgm`; stopped twice, the second call changes nothing. -/
theorem stop_bgm_idempotent_witness :
    stop_bgm (stop_bgm controller_ready).1 = ((stop_bgm controller_ready).1, [])
      ∧ (stop_bgm controller_ready).1.stream = .null
      ∧ (stop_bgm controller_ready).1.stop_requested = false :=
  have key := stop_bgm_idempotent [.init true true 0x42480000] controller_ready rfl
  ⟨(key.1 controller_ready).1, key.2.1, key.2.2⟩

/-! ## Division of a `float` -/

/-- What the search for the exponent of a quotient finds: the condition holds
at the result, unless it is 0, and fails above it up to the bound. -/
theorem ratio_exponent_spec (A B : Nat) :
    ∀ m, ratio_exponent A B m ≤ m
      ∧ (1 ≤ ratio_exponent A B m →
          B * 2 ^ (ratio_exponent A B m - 127) ≤ A * 2 ^ (127 - ratio_exponent A B m))
      ∧ ∀ c, ratio_exponent A B m < c → c ≤ m → A * 2 ^ (127 - c) < B * 2 ^ (c - 127) := by
  intro m
  induction m with
  | zero =>
    refine ⟨Nat.le_refl _, fun h => ?_, fun c h1 h2 => ?_⟩
    · simp [ratio_exponent] at h
    · simp [ratio_exponent] at h1; omega
  | succ m ih =>
    obtain ⟨ih1, ih2, ih3⟩ := ih
    by_cases hc : B * 2 ^ (m + 1 - 127) ≤ A * 2 ^ (127 - (m + 1))
    · have hr : ratio_exponent A B (m + 1) = m + 1 := by rw [ratio_exponent, if_pos hc]
      rw [hr]
      exact ⟨Nat.le_refl _, fun _ => hc, fun c h1 h2 => by omega⟩
    · have hr : ratio_exponent A B (m + 1) = ratio_exponent A B m := by
        rw [ratio_exponent, if_neg hc]
      rw [hr]
      refine ⟨by omega, ih2, fun c h1 h2 => ?_⟩
      rcases Nat.lt_or_ge c (m + 1) with h | h
      · exact ih3 c h1 (by omega)
      · have : c = m + 1 := by omega
        subst this
        omega

/-- The exponent found for a quotient of at most 1: the exponent field is
`127 - e` with `A * 2^e < 2 * B`, and `B <= A * 2^e` unless the exponent was
raised to that of the subnormal numbers. -/
theorem ratio_exponent_le_one (A B : Nat) (hA : 0 < A) (hAB : A ≤ B) :
    ∃ e : Nat, e ≤ 126
      ∧ (if ratio_exponent A B 255 = 0 then 1 else ratio_exponent A B 255) = 127 - e
      ∧ A * 2 ^ e < 2 * B ∧ (e ≠ 126 → B ≤ A * 2 ^ e) ∧ (A < B → 1 ≤ e) := by
  obtain ⟨h1, h2, h3⟩ := ratio_exponent_spec A B 255
  generalize ratio_exponent A B 255 = b at *
  have hb : b ≤ 127 := by
    by_contra hgt
    have hcond := h2 (by omega)
    rw [show 127 - b = 0 by omega, pow_zero, Nat.mul_one] at hcond
    have : 2 ^ 1 ≤ 2 ^ (b - 127) := Nat.pow_le_pow_right (by norm_num) (by omega)
    have : B * 2 ^ 1 ≤ B * 2 ^ (b - 127) := Nat.mul_le_mul_left _ this
    omega
  rcases Nat.eq_zero_or_pos b with hz | hpos
  · subst hz
    have hU := h3 2 (by omega) (by omega)
    rw [show 127 - 2 = 125 by rfl, show 2 - 127 = 0 by rfl, pow_zero, Nat.mul_one] at hU
    refine ⟨126, Nat.le_refl _, by simp, ?_, fun h => absurd rfl h, fun _ => by omega⟩
    rw [show 126 = 125 + 1 by rfl, pow_succ]
    omega
  · have hL := h2 hpos
    rw [show b - 127 = 0 by omega, pow_zero, Nat.mul_one] at hL
    have hU := h3 (b + 1) (by omega) (by omega)
    refine ⟨127 - b, by omega, by rw [if_neg (by omega)]; omega, ?_, fun _ => hL, ?_⟩
    · rcases Nat.lt_or_ge b 127 with hlt | hge
      · rw [show b + 1 - 127 = 0 by omega, pow_zero, Nat.mul_one] at hU
        rw [show 127 - b = 127 - (b + 1) + 1 by omega, pow_succ, ← Nat.mul_assoc]
        omega
      · have : b = 127 := by omega
        subst this
        simp at hU ⊢
        omega
    · intro hlt
      by_contra hne
      have : b = 127 := by omega
      subst this
      simp at hL
      omega

/-- Rounding a quotient `A / B` of at most 1: the pattern is made of an exponent
field `126 - e` and a significand `n` (whose hidden bit carries into the
exponent field), with `n * 2^-(e+23)` within half a unit in the last place of
`A / B` and at most 1. -/
theorem float_round_le_one (A B : Nat) (hA : 0 < A) (hAB : A ≤ B) :
    ∃ e n : Nat, e ≤ 126 ∧ float_round A B = (126 - e) * 2 ^ 23 + n ∧ n ≤ 2 ^ 24
      ∧ (n < 2 ^ 23 → e = 126) ∧ n ≤ 2 ^ (e + 23)
      ∧ 2 * (n * B) ≤ 2 * (A * 2 ^ (e + 23)) + B
      ∧ 2 * (A * 2 ^ (e + 23)) ≤ 2 * (n * B) + B
      ∧ (A < B → 1 ≤ e) := by
  obtain ⟨e, he, hb, hU, hL, he0⟩ := ratio_exponent_le_one A B hA hAB
  have hB : 0 < B := by omega
  have hP : A * 2 ^ (e + 23) = A * 2 ^ e * 2 ^ 23 := by rw [pow_add, Nat.mul_assoc]
  have hlt : A * 2 ^ (e + 23) < 2 ^ 24 * B := by rw [hP]; omega
  have hdm := Nat.div_add_mod (A * 2 ^ (e + 23)) B
  have hr := Nat.mod_lt (A * 2 ^ (e + 23)) hB
  have hn0 : A * 2 ^ (e + 23) / B < 2 ^ 24 := (Nat.div_lt_iff_lt_mul hB).2 hlt
  have hn1 : e ≠ 126 → 2 ^ 23 ≤ A * 2 ^ (e + 23) / B := by
    intro hne
    have := hL hne
    rw [Nat.le_div_iff_mul_le hB, hP]
    omega
  have hM : A * 2 ^ (e + 23) ≤ B * 2 ^ (e + 23) := Nat.mul_le_mul_right _ hAB
  have hn2 : A * 2 ^ (e + 23) / B ≤ 2 ^ (e + 23) := Nat.div_le_of_le_mul hM
  have hmul : B * (A * 2 ^ (e + 23) / B) = A * 2 ^ (e + 23) / B * B := Nat.mul_comm _ _
  unfold float_round
  rw [if_neg (by omega)]
  simp only [hb, show 150 - (127 - e) = e + 23 by omega, show 127 - e - 150 = 0 by omega,
    show 127 - e - 1 = 126 - e by omega, pow_zero, Nat.mul_one]
  generalize hPd : A * 2 ^ (e + 23) = P at *
  generalize hn : P / B = n0 at *
  generalize P % B = r at *
  generalize hMd : 2 ^ (e + 23) = M at *
  have hn3 : n0 = M → r = 0 := by
    intro h; subst h
    rw [Nat.mul_comm] at hM
    omega
  by_cases hc : B < 2 * r ∨ (2 * r = B ∧ n0 % 2 = 1)
  · rw [if_pos hc]
    have hbits : (126 - e) * 2 ^ 23 + (n0 + 1) < float_infinity := by
      unfold float_infinity; omega
    rw [if_pos hbits]
    refine ⟨e, n0 + 1, by omega, rfl, by omega, ?_, ?_, ?_, ?_, he0⟩
    · intro h; by_contra hne; have := hn1 hne; omega
    · rw [hMd]
      by_contra hgt
      have : n0 = M := by omega
      have := hn3 this
      omega
    · rw [hMd, hPd, Nat.add_mul]; omega
    · rw [hMd, hPd, Nat.add_mul]; omega
  · rw [if_neg hc]
    have hbits : (126 - e) * 2 ^ 23 + n0 < float_infinity := by
      unfold float_infinity; omega
    rw [if_pos hbits]
    refine ⟨e, n0, by omega, rfl, by omega, ?_, ?_, ?_, ?_, he0⟩
    · intro h; by_contra hne; have := hn1 hne; omega
    · rw [hMd]; exact hn2
    · rw [hMd, hPd]; omega
    · rw [hMd, hPd]; omega

/-- The `float` packed from an exponent field `126 - e` and a significand `n`
of at most 24 bits (subnormal only with the least exponent) is finite, has sign
bit 0 and stands for `n / 2^(e+23)`. -/
theorem float_packed (e n : Nat) (he : e ≤ 126) (hn : n ≤ 2 ^ 24)
    (hsub : n < 2 ^ 23 → e = 126) :
    float_sign ((126 - e) * 2 ^ 23 + n) = 0
      ∧ float_exponent ((126 - e) * 2 ^ 23 + n) ≠ 255
      ∧ float_value ((126 - e) * 2 ^ 23 + n) = (n : ℚ) / 2 ^ (e + 23) := by
  have hs : float_sign ((126 - e) * 2 ^ 23 + n) = 0 := by
    unfold float_sign; omega
  have h2 : (2 : ℚ) ^ (e + 23) ≠ 0 := pow_ne_zero _ (by norm_num)
  refine ⟨hs, ?_, ?_⟩
  · unfold float_exponent; omega
  · unfold float_value
    rw [hs, if_neg (by decide), one_mul]
    rcases Nat.lt_or_ge n (2 ^ 23) with hlt | hge
    · have he126 := hsub hlt
      subst he126
      have hx : float_exponent ((126 - 126) * 2 ^ 23 + n) = 0 := by
        unfold float_exponent; omega
      have hf : float_fraction ((126 - 126) * 2 ^ 23 + n) = n := by
        unfold float_fraction; omega
      unfold float_significand float_unit
      rw [hx, if_pos rfl, if_pos rfl, hf]
      rw [show ((1 : Nat) : Int) - 150 = -((126 + 23 : Nat) : Int) by norm_num, zpow_neg, zpow_natCast]
      rfl
    · rcases Nat.lt_or_ge n (2 ^ 24) with hlt | hge2
      · have hx : float_exponent ((126 - e) * 2 ^ 23 + n) = 127 - e := by
          unfold float_exponent; omega
        have hf : float_fraction ((126 - e) * 2 ^ 23 + n) = n - 2 ^ 23 := by
          unfold float_fraction; omega
        unfold float_significand float_unit
        rw [hx, if_neg (by omega), if_neg (by omega), hf]
        rw [show ((127 - e : Nat) : Int) - 150 = -((e + 23 : Nat) : Int) by omega, zpow_neg,
          zpow_natCast, show 2 ^ 23 + (n - 2 ^ 23) = n by omega]
        rfl
      · have hn24 : n = 2 ^ 24 := by omega
        subst hn24
        have hx : float_exponent ((126 - e) * 2 ^ 23 + 2 ^ 24) = 128 - e := by
          unfold float_exponent; omega
        have hf : float_fraction ((126 - e) * 2 ^ 23 + 2 ^ 24) = 0 := by
          unfold float_fraction; omega
        unfold float_significand float_unit
        rw [hx, if_neg (by omega), if_neg (by omega), hf]
        rw [show ((128 - e : Nat) : Int) - 150 = -((e + 22 : Nat) : Int) by omega, zpow_neg,
          zpow_natCast]
        have h3 : (2 : ℚ) ^ (e + 22) ≠ 0 := pow_ne_zero _ (by norm_num)
        rw [show e + 23 = e + 22 + 1 by omega, pow_succ]
        field_simp
        ring

/-- The exact quotient by `100.f = 13107200 * 2^(133 - 150)` as a quotient of
two natural numbers. -/
theorem float_quotient_100 (na ua : Nat) :
    ((na * 2 ^ (ua - 133) : Nat) : ℚ) / ((13107200 * 2 ^ (133 - ua) : Nat) : ℚ)
      = (na : ℚ) * 2 ^ ((ua : Int) - 150) / 100 := by
  rcases Nat.lt_or_ge ua 133 with h | h
  · obtain ⟨m, hm⟩ : ∃ m : Nat, 133 = ua + m := ⟨133 - ua, by omega⟩
    rw [show ua - 133 = 0 by omega, show 133 - ua = m by omega,
      show (ua : Int) - 150 = -((m + 17 : Nat) : Int) by omega, zpow_neg, zpow_natCast]
    have h2 : (2 : ℚ) ^ m ≠ 0 := pow_ne_zero _ (by norm_num)
    push_cast
    rw [pow_add]
    field_simp
    left
    ring
  · obtain ⟨m, hm⟩ : ∃ m : Nat, ua = 133 + m := ⟨ua - 133, by omega⟩
    subst hm
    rw [show 133 + m - 133 = m by omega, show 133 - (133 + m) = 0 by omega,
      show ((133 + m : Nat) : Int) - 150 = (m : Int) - 17 by omega,
      zpow_sub₀ (by norm_num : (2 : ℚ) ≠ 0), zpow_natCast]
    push_cast
    norm_num
    field_simp
    left
    norm_num

/-- The code of `volume / 100.f` for a finite `volume`. -/
theorem float_div_100_finite (v : Nat) (hfin : float_exponent v ≠ 255) :
    float_div v float_100
      = float_sign v % 2 * 2 ^ 31
        + float_round (float_significand v * 2 ^ (float_unit v - 133))
            (13107200 * 2 ^ (133 - float_unit v)) := by
  have hs : float_sign float_100 = 0 := by decide
  have he : float_exponent float_100 = 133 := by decide
  have hg : float_significand float_100 = 13107200 := by decide
  have hk : float_unit float_100 = 133 := by decide
  unfold float_div
  simp only [hs, he, hg, hk, Nat.add_zero]
  rw [if_neg (by omega), if_neg hfin, if_neg (by decide), if_neg (by decide)]

/-- The quotient `volume / 100.f` of a finite `volume` between 0 and 100 is
finite, lies between 0 and 1 and is within `2^-25` of the exact quotient. -/
theorem float_div_100_range (v : Nat) (hfin : float_exponent v ≠ 255)
    (h0 : 0 ≤ float_value v) (h100 : float_value v ≤ 100) :
    float_exponent (float_div v float_100) ≠ 255
      ∧ 0 ≤ float_value (float_div v float_100)
      ∧ float_value (float_div v float_100) ≤ 1
      ∧ float_value (float_div v float_100) - float_value v / 100 ≤ 1 / 2 ^ 25
      ∧ float_value v / 100 - float_value (float_div v float_100) ≤ 1 / 2 ^ 25 := by
  rw [float_div_100_finite v hfin]
  have hs2 : float_sign v < 2 := by unfold float_sign; omega
  have hq := float_quotient_100 (float_significand v) (float_unit v)
  have hval : float_value v = (if float_sign v = 1 then -1 else 1)
      * (float_significand v : ℚ) * 2 ^ ((float_unit v : Int) - 150) := rfl
  have hpow : (0 : ℚ) < 2 ^ ((float_unit v : Int) - 150) := zpow_pos (by norm_num) _
  rcases Nat.eq_zero_or_pos (float_significand v) with hz | hpos
  · -- a zero, of either sign
    have hv : float_value v = 0 := by rw [hval, hz]; simp
    have hr : float_round (float_significand v * 2 ^ (float_unit v - 133))
        (13107200 * 2 ^ (133 - float_unit v)) = 0 := by
      unfold float_round; rw [if_pos (by rw [hz, Nat.zero_mul])]
    rw [hr, hv, Nat.add_zero]
    have hx : float_exponent (float_sign v % 2 * 2 ^ 31) = 0 := by
      unfold float_exponent; omega
    have hf : float_fraction (float_sign v % 2 * 2 ^ 31) = 0 := by
      unfold float_fraction; omega
    have hr0 : float_value (float_sign v % 2 * 2 ^ 31) = 0 := by
      unfold float_value float_significand
      rw [hx, if_pos rfl, hf]; simp
    rw [hr0, hx]
    norm_num
  · -- a positive number
    have hs : float_sign v = 0 := by
      by_contra hne
      have h1 : float_sign v = 1 := by omega
      rw [hval, if_pos h1] at h0
      have : (0 : ℚ) < (float_significand v : ℚ) * 2 ^ ((float_unit v : Int) - 150) :=
        mul_pos (by exact_mod_cast hpos) hpow
      linarith
    rw [hs, Nat.zero_mod, Nat.zero_mul, Nat.zero_add]
    rw [hval, hs, if_neg (by decide), one_mul] at h0 h100 ⊢
    generalize hA : float_significand v * 2 ^ (float_unit v - 133) = A at *
    generalize hB : 13107200 * 2 ^ (133 - float_unit v) = B at *
    have hApos : 0 < A := by rw [← hA]; exact Nat.mul_pos hpos (pow_pos (by norm_num) _)
    have hBpos : 0 < B := by rw [← hB]; exact Nat.mul_pos (by norm_num) (pow_pos (by norm_num) _)
    have hBq : (0 : ℚ) < B := by exact_mod_cast hBpos
    have hAB : A ≤ B := by
      have : (A : ℚ) / B ≤ 1 := by rw [hq]; linarith
      rw [div_le_one hBq] at this
      exact_mod_cast this
    obtain ⟨e, n, he, hround, hn, hsub, hnM, hup, hdown, hlt⟩ := float_round_le_one A B hApos hAB
    obtain ⟨-, hexp, hvalue⟩ := float_packed e n he hn hsub
    rw [hround, hvalue, ← hq]
    have hM : (0 : ℚ) < 2 ^ (e + 23) := pow_pos (by norm_num) _
    have hnM' : (n : ℚ) ≤ 2 ^ (e + 23) := by exact_mod_cast hnM
    have hup' : 2 * ((n : ℚ) * B) ≤ 2 * (A * 2 ^ (e + 23)) + B := by exact_mod_cast hup
    have hdown' : 2 * ((A : ℚ) * 2 ^ (e + 23)) ≤ 2 * (n * B) + B := by exact_mod_cast hdown
    refine ⟨hexp, div_nonneg (Nat.cast_nonneg n) (le_of_lt hM), (div_le_one hM).2 hnM', ?_, ?_⟩
    · rcases Nat.lt_or_ge A B with hAltB | hge
      · have he1 := hlt hAltB
        have hM24 : (2 : ℚ) ^ 24 ≤ 2 ^ (e + 23) :=
          pow_le_pow_right₀ (by norm_num) (by omega)
        rw [div_sub_div _ _ (ne_of_gt hM) (ne_of_gt hBq),
          div_le_div_iff₀ (mul_pos hM hBq) (by norm_num : (0 : ℚ) < 2 ^ 25)]
        nlinarith
      · have hEq : A = B := by omega
        subst hEq
        rw [div_self (ne_of_gt hBq)]
        have : (n : ℚ) / 2 ^ (e + 23) ≤ 1 := (div_le_one hM).2 hnM'
        have : (0 : ℚ) ≤ 1 / 2 ^ 25 := by positivity
        linarith
    · rcases Nat.lt_or_ge A B with hAltB | hge
      · have he1 := hlt hAltB
        have hM24 : (2 : ℚ) ^ 24 ≤ 2 ^ (e + 23) :=
          pow_le_pow_right₀ (by norm_num) (by omega)
        rw [div_sub_div _ _ (ne_of_gt hBq) (ne_of_gt hM),
          div_le_div_iff₀ (mul_pos hBq hM) (by norm_num : (0 : ℚ) < 2 ^ 25)]
        nlinarith
      · have hEq : A = B := by omega
        subst hEq
        rw [div_self (ne_of_gt hBq)]
        have hge1 : (2 : ℚ) ^ (e + 23) ≤ n := by
          have h3 : (2 : ℚ) * (A * 2 ^ (e + 23)) ≤ 2 * (n * A) + A := hdown'
          have h4 : (A : ℚ) * (2 * 2 ^ (e + 23)) ≤ A * (2 * n + 1) := by linarith
          have h5 := le_of_mul_le_mul_left h4 hBq
          have h6 : 2 * 2 ^ (e + 23) ≤ 2 * n + 1 := by
            have : (2 * 2 ^ (e + 23) : ℚ) = ((2 * 2 ^ (e + 23) : Nat) : ℚ) := by push_cast; rfl
            rw [this] at h5
            have : (2 * (n : ℚ) + 1) = ((2 * n + 1 : Nat) : ℚ) := by push_cast; rfl
            rw [this] at h5
            exact_mod_cast h5
          have h7 : 2 ^ (e + 23) ≤ n := by omega
          exact_mod_cast h7
        have : (1 : ℚ) ≤ (n : ℚ) / 2 ^ (e + 23) := (one_le_div hM).2 hge1
        have : (0 : ℚ) ≤ 1 / 2 ^ 25 := by positivity
        linarith

/-- The exponent found for a quotient above 1 and below `2^122`: the exponent
field is `127 + E` with `B * 2^E <= A < B * 2^(E+1)`. -/
theorem ratio_exponent_gt_one (A B : Nat) (hAB : B < A) (hA : A < B * 2 ^ 122) :
    ∃ E : Nat, E ≤ 121 ∧ ratio_exponent A B 255 = 127 + E
      ∧ B * 2 ^ E ≤ A ∧ A < B * 2 ^ (E + 1) := by
  obtain ⟨h1, h2, h3⟩ := ratio_exponent_spec A B 255
  generalize ratio_exponent A B 255 = b at *
  have hb : 127 ≤ b := by
    by_contra hlt
    have := h3 127 (by omega) (by omega)
    simp at this
    omega
  have hL := h2 (by omega)
  rw [show 127 - b = 0 by omega, pow_zero, Nat.mul_one] at hL
  have hb2 : b - 127 < 122 := by
    have : B * 2 ^ (b - 127) < B * 2 ^ 122 := by omega
    have := Nat.lt_of_mul_lt_mul_left this
    exact (Nat.pow_lt_pow_iff_right (by norm_num)).1 this
  have hU := h3 (b + 1) (by omega) (by omega)
  rw [show 127 - (b + 1) = 0 by omega, pow_zero, Nat.mul_one,
    show b + 1 - 127 = b - 127 + 1 by omega] at hU
  exact ⟨b - 127, by omega, by omega, hL, hU⟩

/-- The `float` packed from an exponent field `126 + E` and a significand `n`
with its hidden bit is finite, has sign bit 0 and stands for `n * 2^E / 2^23`. -/
theorem float_packed_normal (E n : Nat) (hE : E ≤ 121) (hn1 : 2 ^ 23 ≤ n) (hn2 : n ≤ 2 ^ 24) :
    float_exponent ((126 + E) * 2 ^ 23 + n) ≠ 255
      ∧ float_value ((126 + E) * 2 ^ 23 + n) = (n : ℚ) * 2 ^ E / 2 ^ 23 := by
  have hs : float_sign ((126 + E) * 2 ^ 23 + n) = 0 := by
    unfold float_sign; omega
  refine ⟨by unfold float_exponent; omega, ?_⟩
  unfold float_value
  rw [hs, if_neg (by decide), one_mul]
  rcases Nat.lt_or_ge n (2 ^ 24) with hlt | hge
  · have hx : float_exponent ((126 + E) * 2 ^ 23 + n) = 127 + E := by
      unfold float_exponent; omega
    have hf : float_fraction ((126 + E) * 2 ^ 23 + n) = n - 2 ^ 23 := by
      unfold float_fraction; omega
    unfold float_significand float_unit
    rw [hx, if_neg (by omega), if_neg (by omega), hf, show 2 ^ 23 + (n - 2 ^ 23) = n by omega,
      show ((127 + E : Nat) : Int) - 150 = (E : Int) - 23 by omega,
      zpow_sub₀ (by norm_num : (2 : ℚ) ≠ 0), zpow_natCast]
    rw [mul_div_assoc]
    norm_num
  · have hn24 : n = 2 ^ 24 := by omega
    subst hn24
    have hx : float_exponent ((126 + E) * 2 ^ 23 + 2 ^ 24) = 128 + E := by
      unfold float_exponent; omega
    have hf : float_fraction ((126 + E) * 2 ^ 23 + 2 ^ 24) = 0 := by
      unfold float_fraction; omega
    unfold float_significand float_unit
    rw [hx, if_neg (by omega), if_neg (by omega), hf,
      show ((128 + E : Nat) : Int) - 150 = (E : Int) - 22 by omega,
      zpow_sub₀ (by norm_num : (2 : ℚ) ≠ 0), zpow_natCast]
    norm_num
    field_simp
    ring

/-- Rounding a quotient `A / B` above 1 (and below `2^122`) whose denominator
has at most 24 bits gives a finite `float` above 1. -/
theorem float_round_gt_one (A B : Nat) (hB : 0 < B) (hB24 : B < 2 ^ 24) (hAB : B < A)
    (hA : A < B * 2 ^ 122) :
    float_exponent (float_round A B) ≠ 255 ∧ 1 < float_value (float_round A B) := by
  obtain ⟨E, hE, hb, hL, hU⟩ := ratio_exponent_gt_one A B hAB hA
  have hP : 0 < A * 2 ^ (23 - E) := Nat.mul_pos (by omega) (pow_pos (by norm_num) _)
  have hQ : 0 < B * 2 ^ (E - 23) := Nat.mul_pos hB (pow_pos (by norm_num) _)
  -- P / Q = (A / B) * 2^(23 - E)
  have hpow : 2 ^ (23 - E) * 2 ^ E = 2 ^ 23 * 2 ^ (E - 23) := by
    rw [← pow_add, ← pow_add]
    congr 1
    omega
  have hlow : 2 ^ 23 * (B * 2 ^ (E - 23)) ≤ A * 2 ^ (23 - E) := by
    calc 2 ^ 23 * (B * 2 ^ (E - 23)) = B * (2 ^ 23 * 2 ^ (E - 23)) := by ring
      _ = B * 2 ^ E * 2 ^ (23 - E) := by rw [← hpow]; ring
      _ ≤ A * 2 ^ (23 - E) := Nat.mul_le_mul_right _ hL
  have hhigh : A * 2 ^ (23 - E) < 2 ^ 24 * (B * 2 ^ (E - 23)) := by
    calc A * 2 ^ (23 - E) < B * 2 ^ (E + 1) * 2 ^ (23 - E) :=
          Nat.mul_lt_mul_of_pos_right hU (pow_pos (by norm_num) _)
      _ = 2 * B * (2 ^ (23 - E) * 2 ^ E) := by rw [pow_succ]; ring
      _ = 2 ^ 24 * (B * 2 ^ (E - 23)) := by rw [hpow]; ring
  have hn0a : 2 ^ 23 ≤ A * 2 ^ (23 - E) / (B * 2 ^ (E - 23)) := by
    rw [Nat.le_div_iff_mul_le hQ]; exact hlow
  have hn0b : A * 2 ^ (23 - E) / (B * 2 ^ (E - 23)) < 2 ^ 24 :=
    (Nat.div_lt_iff_lt_mul hQ).2 hhigh
  have hdm := Nat.div_add_mod (A * 2 ^ (23 - E)) (B * 2 ^ (E - 23))
  have hr := Nat.mod_lt (A * 2 ^ (23 - E)) hQ
  -- with E = 0 the quotient exceeds 1 by more than half a unit in the last place
  have hstrict : E = 0 → A * 2 ^ (23 - E) / (B * 2 ^ (E - 23)) = 2 ^ 23 →
      B * 2 ^ (E - 23) < 2 * (A * 2 ^ (23 - E) % (B * 2 ^ (E - 23))) := by
    intro h0 hq
    subst h0
    rw [hq] at hdm
    simp only [Nat.sub_zero, Nat.zero_sub, pow_zero, Nat.mul_one] at hdm ⊢
    omega
  unfold float_round
  rw [if_neg (by omega)]
  simp only [hb, if_neg (show ¬ (127 + E = 0) by omega),
    show 150 - (127 + E) = 23 - E by omega, show 127 + E - 150 = E - 23 by omega,
    show 127 + E - 1 = 126 + E by omega]
  generalize A * 2 ^ (23 - E) = P at *
  generalize B * 2 ^ (E - 23) = Q at *
  generalize hn : P / Q = n0 at *
  generalize P % Q = r at *
  have hval : ∀ n : Nat, 2 ^ 23 ≤ n → n ≤ 2 ^ 24 → (E = 0 → 2 ^ 23 < n) →
      float_exponent ((126 + E) * 2 ^ 23 + n) ≠ 255
        ∧ 1 < float_value ((126 + E) * 2 ^ 23 + n) := by
    intro n h1 h2 h3
    obtain ⟨hx, hv⟩ := float_packed_normal E n hE h1 h2
    refine ⟨hx, ?_⟩
    rw [hv, lt_div_iff₀ (by norm_num : (0 : ℚ) < 2 ^ 23), one_mul]
    rcases Nat.eq_zero_or_pos E with h0 | hpos
    · have := h3 h0
      subst h0
      rw [pow_zero, mul_one]
      exact_mod_cast this
    · have hE1 : (2 : ℚ) ^ 1 ≤ 2 ^ E := pow_le_pow_right₀ (by norm_num) hpos
      have hn' : (2 : ℚ) ^ 23 ≤ n := by exact_mod_cast h1
      nlinarith
  by_cases hc : Q < 2 * r ∨ (2 * r = Q ∧ n0 % 2 = 1)
  · rw [if_pos hc]
    have hbits : (126 + E) * 2 ^ 23 + (n0 + 1) < float_infinity := by
      unfold float_infinity; omega
    rw [if_pos hbits]
    exact hval (n0 + 1) (by omega) (by omega) (fun _ => by omega)
  · rw [if_neg hc]
    have hbits : (126 + E) * 2 ^ 23 + n0 < float_infinity := by
      unfold float_infinity; omega
    rw [if_pos hbits]
    refine hval n0 hn0a (by omega) (fun h0 => ?_)
    by_contra hle
    have hq : n0 = 2 ^ 23 := by omega
    have := hstrict h0 hq
    exact hc (Or.inl this)

/-- The quotient `volume / 100.f` of a finite `volume` above 100 is a finite
`float` above 1. -/
theorem float_div_100_above (v : Nat) (hfin : float_exponent v ≠ 255)
    (h100 : 100 < float_value v) :
    float_exponent (float_div v float_100) ≠ 255 ∧ 1 < float_value (float_div v float_100) := by
  rw [float_div_100_finite v hfin]
  have hs2 : float_sign v < 2 := by unfold float_sign; omega
  have hq := float_quotient_100 (float_significand v) (float_unit v)
  have hval : float_value v = (if float_sign v = 1 then -1 else 1)
      * (float_significand v : ℚ) * 2 ^ ((float_unit v : Int) - 150) := rfl
  have hpow : (0 : ℚ) < 2 ^ ((float_unit v : Int) - 150) := zpow_pos (by norm_num) _
  have hsig : float_significand v < 2 ^ 24 := by
    unfold float_significand float_fraction; split_ifs <;> omega
  have hunit : float_unit v ≤ 254 := by
    unfold float_unit; unfold float_exponent at hfin ⊢; split_ifs <;> omega
  have hs : float_sign v = 0 := by
    by_contra hne
    have h1 : float_sign v = 1 := by omega
    rw [hval, if_pos h1] at h100
    have : (0 : ℚ) ≤ (float_significand v : ℚ) * 2 ^ ((float_unit v : Int) - 150) :=
      mul_nonneg (Nat.cast_nonneg _) hpow.le
    linarith
  rw [hs, Nat.zero_mod, Nat.zero_mul, Nat.zero_add]
  rw [hval, hs, if_neg (by decide), one_mul] at h100
  have hBpos : 0 < 13107200 * 2 ^ (133 - float_unit v) :=
    Nat.mul_pos (by norm_num) (pow_pos (by norm_num) _)
  have hAB : 13107200 * 2 ^ (133 - float_unit v)
      < float_significand v * 2 ^ (float_unit v - 133) := by
    have hBq : (0 : ℚ) < ((13107200 * 2 ^ (133 - float_unit v) : Nat) : ℚ) := by
      exact_mod_cast hBpos
    have : 1 < ((float_significand v * 2 ^ (float_unit v - 133) : Nat) : ℚ)
        / ((13107200 * 2 ^ (133 - float_unit v) : Nat) : ℚ) := by rw [hq]; linarith
    rw [one_lt_div hBq] at this
    exact_mod_cast this
  have hu : 133 ≤ float_unit v := by
    by_contra hlt
    rw [show float_unit v - 133 = 0 by omega, pow_zero, Nat.mul_one] at hAB
    have : 2 ^ 1 ≤ 2 ^ (133 - float_unit v) := Nat.pow_le_pow_right (by norm_num) (by omega)
    omega
  rw [show 133 - float_unit v = 0 by omega, pow_zero, Nat.mul_one] at hAB ⊢
  refine float_round_gt_one _ 13107200 (by norm_num) (by norm_num) hAB ?_
  have h1 : 2 ^ (float_unit v - 133) ≤ 2 ^ 121 := Nat.pow_le_pow_right (by norm_num) (by omega)
  calc float_significand v * 2 ^ (float_unit v - 133)
      ≤ float_significand v * 2 ^ 121 := Nat.mul_le_mul_left _ h1
    _ < 2 ^ 24 * 2 ^ 121 := Nat.mul_lt_mul_of_pos_right hsig (by norm_num)
    _ ≤ 13107200 * 2 ^ 122 := by norm_num

/-- The `float` 33 is `0x42040000`. -/
theorem float_value_33 : float_value 0x42040000 = 33 := by
  simp [float_value, float_sign, float_significand, float_exponent, float_fraction, float_unit]
  norm_num

/-- The `float` 150 is `0x43160000`. -/
theorem float_value_150 : float_value 0x43160000 = 150 := by
  simp [float_value, float_sign, float_significand, float_exponent, float_fraction, float_unit]
  norm_num

/-- The `float` 1.5 is `0x3FC00000`. -/
theorem float_value_one_and_half : float_value 0x3FC00000 = 3 / 2 := by
  simp [float_value, float_sign, float_significand, float_exponent, float_fraction, float_unit]
  norm_num

/-- The `float` nearest to `33 / 100` is `0x3EA8F5C3`, a little above it. -/
theorem float_value_33_hundredths : float_value 0x3EA8F5C3 = 11072963 / 33554432 := by
  simp [float_value, float_sign, float_significand, float_exponent, float_fraction, float_unit]
  norm_num

/-- C12 as stated fails: nothing clamps the volume. On an initialised stream
`set_volume_bgm(150)` hands the gain `150.f / 100.f = 1.5f` to the stream, which
is neither 1.0 nor in the range 0.0 to 1.0. -/
theorem set_volume_bgm_clamp_counterexample :
    float_value 0x43160000 = 150
      ∧ set_volume_bgm 0x43160000 controller_ready
        = (controller_ready, [.cubeb_stream_set_volume 0x3FC00000])
      ∧ float_value 0x3FC00000 = 3 / 2
      ∧ ¬ (float_value 0x3FC00000 ≤ 1) := by
  refine ⟨float_value_150, by decide, float_value_one_and_half, ?_⟩
  rw [float_value_one_and_half]
  norm_num

/-- C12 amended. Volume mapping: with an initialised stream, `set_volume_bgm(v)`
hands to the output stream the `float` quotient `v / 100.f`, that is `v / 100`
rounded to the nearest `float`, and changes nothing else. For every finite `v`
from 0 to 100 that gain is finite, lies in the range 0.0 to 1.0 and is within
`2^-25` of `v / 100`. Nothing is clamped: for every finite `v` above 100 the
gain is above 1.0. -/
theorem set_volume_bgm_gain (v : Nat) (c : Controller) (hs : c.stream ≠ .null) :
    set_volume_bgm v c = (c, [.cubeb_stream_set_volume (float_div v float_100)])
      ∧ (float_exponent v ≠ 255 → 0 ≤ float_value v → float_value v ≤ 100 →
          float_exponent (float_div v float_100) ≠ 255
          ∧ 0 ≤ float_value (float_div v float_100)
          ∧ float_value (float_div v float_100) ≤ 1
          ∧ float_value (float_div v float_100) - float_value v / 100 ≤ 1 / 2 ^ 25
          ∧ float_value v / 100 - float_value (float_div v float_100) ≤ 1 / 2 ^ 25)
      ∧ (float_exponent v ≠ 255 → 100 < float_value v →
          float_exponent (float_div v float_100) ≠ 255
          ∧ 1 < float_value (float_div v float_100)) := by
  refine ⟨?_, float_div_100_range v, float_div_100_above v⟩
  unfold set_volume_bgm
  rw [if_neg hs]

/-- C12 amended, at a concrete input: volume 33 on the controller after a
successful `init_player_bgm`. The gain handed over is the `float`
`0x3EA8F5C3 = 11072963 / 2^25`, not `33 / 100`, which is not a `float`. -/
theorem set_volume_bgm_gain_witness :
    float_value 0x42040000 = 33
      ∧ set_volume_bgm 0x42040000 controller_ready
        = (controller_ready, [.cubeb_stream_set_volume (float_div 0x42040000 float_100)])
      ∧ float_div 0x42040000 float_100 = 0x3EA8F5C3
      ∧ float_value 0x3EA8F5C3 = 11072963 / 33554432
      ∧ (float_exponent (float_div 0x42040000 float_100) ≠ 255
        ∧ 0 ≤ float_value (float_div 0x42040000 float_100)
        ∧ float_value (float_div 0x42040000 float_100) ≤ 1
        ∧ float_value (float_div 0x42040000 float_100) - float_value 0x42040000 / 100
            ≤ 1 / 2 ^ 25
        ∧ float_value 0x42040000 / 100 - float_value (float_div 0x42040000 float_100)
            ≤ 1 / 2 ^ 25) :=
  have key := set_volume_bgm_gain 0x42040000 controller_ready (by decide)
  ⟨float_value_33, key.1, by decide, float_value_33_hundredths,
    key.2.1 (by decide) (by rw [float_value_33]; norm_num) (by rw [float_value_33]; norm_num)⟩

/-- C13 fails on the code when the stream cannot be opened: `init_player_bgm`
returns right after the failed `cubeb_stream_init` and keeps the context that
`cubeb_init` created, so the state is not the one before the call; the stream
is null, no thread is started and no volume is applied, so later
`set_volume_bgm`, `switch_state_bgm` and `stop_bgm` calls change nothing, and
the context is never destroyed. When `cubeb_init` itself fails the state is
unchanged. -/
theorem init_player_bgm_stream_failure_keeps_context :
    init_player_bgm true false 0x42480000 controller_initial
        = some (⟨.not_joinable, .null, false, .live⟩,
            [.cubeb_init true, .cubeb_stream_init false, .log_error])
      ∧ (⟨.not_joinable, .null, false, .live⟩ : Controller) ≠ controller_initial
      ∧ stop_bgm ⟨.not_joinable, .null, false, .live⟩ = (⟨.not_joinable, .null, false, .live⟩, [])
      ∧ (∀ v, set_volume_bgm v ⟨.not_joinable, .null, false, .live⟩
          = (⟨.not_joinable, .null, false, .live⟩, [.log_error]))
      ∧ (∀ pause, switch_state_bgm pause ⟨.not_joinable, .null, false, .live⟩
          = (⟨.not_joinable, .null, false, .live⟩, [.log_error]))
      ∧ init_player_bgm false true 0x42480000 controller_initial
        = some (controller_initial, [.cubeb_init false, .log_error]) := by
  refine ⟨rfl, by decide, rfl, fun _ => rfl, fun _ => rfl, rfl⟩

/-! ### The order of the events of `stop_bgm` -/

/-- Exploring ten steps from the entry of `stop_bgm` on an initialised
controller reaches no moment with a successor outside the explored ones. -/
theorem stop_explore_closed :
    ∀ k ∈ stop_explore 10 [stop_entry controller_ready], ∀ k1 ∈ stop_successors k,
      k1 ∈ stop_explore 10 [stop_entry controller_ready] := by
  decide

/-- Every moment of an execution of `stop_bgm` on an initialised controller is
among the explored ones. -/
theorem stop_run_explored (k : StopConfig) (h : StopRun (stop_entry controller_ready) k) :
    k ∈ stop_explore 10 [stop_entry controller_ready] := by
  induction h with
  | start => decide
  | step k k1 _ hmem ih => exact stop_explore_closed k ih k1 hmem

/-- The order of the events at every explored moment. -/
theorem stop_explore_order :
    ∀ k ∈ stop_explore 10 [stop_entry controller_ready],
      (k.trace <+: [.set_stop_requested, .notify_one, .cubeb_destroy, .join,
            .cubeb_stream_stop, .cubeb_stream_destroy]
        ∨ k.trace <+: [.set_stop_requested, .cubeb_destroy, .notify_one, .join,
            .cubeb_stream_stop, .cubeb_stream_destroy])
      ∧ (k.pc = .returned →
          (k.trace = [.set_stop_requested, .notify_one, .cubeb_destroy, .join,
              .cubeb_stream_stop, .cubeb_stream_destroy]
            ∨ k.trace = [.set_stop_requested, .cubeb_destroy, .notify_one, .join,
              .cubeb_stream_stop, .cubeb_stream_destroy])
          ∧ k.controller = (stop_bgm controller_ready).1)
      ∧ (k.pc ≠ .returned → stop_successors k ≠ []) := by
  decide

/-- An execution of `stop_bgm` on an initialised controller up to the moment the
caller is about to join the lifecycle thread, which has already ended. -/
theorem stop_run_before_join :
    StopRun (stop_entry controller_ready)
      ⟨.join, ⟨.finished, .live, true, .dangling⟩,
        [.set_stop_requested, .notify_one, .cubeb_destroy]⟩ := by
  have h1 : StopRun (stop_entry controller_ready) ⟨.set_flag, controller_ready, []⟩ :=
    .step _ _ .start (by decide)
  have h2 : StopRun (stop_entry controller_ready)
      ⟨.notify, ⟨.waiting, .live, true, .live⟩, [.set_stop_requested]⟩ :=
    .step _ _ h1 (by decide)
  have h3 : StopRun (stop_entry controller_ready)
      ⟨.join, ⟨.waiting, .live, true, .live⟩, [.set_stop_requested, .notify_one]⟩ :=
    .step _ _ h2 (by decide)
  have h4 : StopRun (stop_entry controller_ready)
      ⟨.join, ⟨.woken, .live, true, .live⟩, [.set_stop_requested, .notify_one]⟩ :=
    .step _ _ h3 (by decide)
  exact .step _ _ h4 (by decide)

/-- An execution of `stop_bgm` on an initialised controller up to its return. -/
theorem stop_run_returned :
    StopRun (stop_entry controller_ready)
      ⟨.returned, ⟨.not_joinable, .null, false, .dangling⟩,
        [.set_stop_requested, .notify_one, .cubeb_destroy, .join,
          .cubeb_stream_stop, .cubeb_stream_destroy]⟩ := by
  have h6 : StopRun (stop_entry controller_ready)
      ⟨.stream_stop, ⟨.not_joinable, .live, true, .dangling⟩,
        [.set_stop_requested, .notify_one, .cubeb_destroy, .join]⟩ :=
    .step _ _ stop_run_before_join (by decide)
  have h7 : StopRun (stop_entry controller_ready)
      ⟨.stream_destroy, ⟨.not_joinable, .live, true, .dangling⟩,
        [.set_stop_requested, .notify_one, .cubeb_destroy, .join, .cubeb_stream_stop]⟩ :=
    .step _ _ h6 (by decide)
  have h8 : StopRun (stop_entry controller_ready)
      ⟨.reset_flag, ⟨.not_joinable, .null, true, .dangling⟩,
        [.set_stop_requested, .notify_one, .cubeb_destroy, .join, .cubeb_stream_stop,
          .cubeb_stream_destroy]⟩ :=
    .step _ _ h7 (by decide)
  exact .step _ _ h8 (by decide)

/-- C14 as stated fails: the audio service context is destroyed before the
lifecycle thread has been joined. In an execution of `stop_bgm` on an
initialised controller there is a moment at which the caller has not yet
executed `join`, no `join` has happened, and `cubeb_destroy(ctx)` has already
been called, by the lifecycle thread itself; and whenever `stop_bgm` runs the
thread to its end, `cubeb_destroy` comes before `join` in its events. -/
theorem stop_bgm_context_destroyed_before_join :
    (∃ k : StopConfig, StopRun (stop_entry controller_ready) k
        ∧ k.pc = .join
        ∧ k.controller.playback_thread = .finished
        ∧ k.controller.ctx = .dangling
        ∧ k.trace = [.set_stop_requested, .notify_one, .cubeb_destroy]
        ∧ Event.join ∉ k.trace)
      ∧ (stop_bgm controller_ready).2
          = [.set_stop_requested, .notify_one, .cubeb_destroy, .join,
              .cubeb_stream_stop, .cubeb_stream_destroy] :=
  ⟨⟨_, stop_run_before_join, rfl, rfl, rfl, rfl, by decide⟩, by decide⟩

/-- C14 amended. Shutdown ordering: at every moment of every execution of
`stop_bgm` on an initialised controller, under every interleaving of the caller
and the lifecycle thread, the events so far are a prefix of: the stop flag is
set under the mutex; the condition variable is notified and the lifecycle
thread destroys the audio service context, in either order; the lifecycle
thread is joined; the output stream is stopped; the output stream is destroyed.
So the stream is never stopped or destroyed before the join, while the context
is always destroyed before it. An execution that has returned has produced all
six events and left the globals as the function `stop_bgm` gives them, and an
execution that has not returned can always take a step. -/
theorem stop_bgm_shutdown_order (k : StopConfig)
    (hrun : StopRun (stop_entry controller_ready) k) :
    (k.trace <+: [.set_stop_requested, .notify_one, .cubeb_destroy, .join,
          .cubeb_stream_stop, .cubeb_stream_destroy]
      ∨ k.trace <+: [.set_stop_requested, .cubeb_destroy, .notify_one, .join,
          .cubeb_stream_stop, .cubeb_stream_destroy])
    ∧ (k.pc = .returned →
        (k.trace = [.set_stop_requested, .notify_one, .cubeb_destroy, .join,
            .cubeb_stream_stop, .cubeb_stream_destroy]
          ∨ k.trace = [.set_stop_requested, .cubeb_destroy, .notify_one, .join,
            .cubeb_stream_stop, .cubeb_stream_destroy])
        ∧ k.controller = (stop_bgm controller_ready).1)
    ∧ (k.pc ≠ .returned → stop_successors k ≠ []) :=
  stop_explore_order k (stop_run_explored k hrun)

/-- C14 amended, at a concrete input: the execution in which the lifecycle
thread wakes after the notification, at its return. -/
theorem stop_bgm_shutdown_order_witness :
    StopRun (stop_entry controller_ready)
        ⟨.returned, ⟨.not_joinable, .null, false, .dangling⟩,
          [.set_stop_requested, .notify_one, .cubeb_destroy, .join,
            .cubeb_stream_stop, .cubeb_stream_destroy]⟩
      ∧ (⟨.not_joinable, .null, false, .dangling⟩ : Controller) = (stop_bgm controller_ready).1 :=
  ⟨stop_run_returned, ((stop_bgm_shutdown_order _ stop_run_returned).2.1 rfl).2⟩

end Vita3K
